import Mathlib

/-!
# Apes collecting bananas: shared-state model and verified properties

A shallow embedding of the C sources `family.c`, `maze.c`, `utils.c` and
`main.c`.  C `int` values are modelled as `Int` (signed overflow is undefined
behaviour in C and is not modelled); C arrays are total functions from the
index; truth values stored in `int` fields stay `Int` and are tested against
zero as C does.

Semaphores are modelled by the trace of `sem_wait` / `sem_post` events an
operation emits, and what the other threads do while the operation is blocked
or asleep is an explicit `Interference` argument at each such point.
-/

namespace Apes

/-! ## Constants of `shared_data.h` -/

def MAX_FAMILIES : Nat := 10
def MAX_BABIES : Nat := 5
def MAX_EVENTS : Nat := 10
def MAX_EVENT_LEN : Nat := 120

def TERM_RUNNING : Int := 0
def TERM_WITHDRAWN_THRESHOLD : Int := 1
def TERM_BASKET_THRESHOLD : Int := 2
def TERM_BABY_ATE_THRESHOLD : Int := 3
def TERM_TIMEOUT : Int := 4

/-! ## Data model -/

/-- The integer parameters of `SimConfig` (`config.h`); the floating point
probabilities are not part of this model. -/
structure SimConfig where
  maze_rows : Int
  maze_cols : Int
  max_bananas_per_cell : Int
  total_bananas : Int
  num_families : Int
  babies_per_family : Int
  female_initial_energy : Int
  female_rest_threshold : Int
  female_rest_recovery : Int
  female_collection_goal : Int
  female_move_energy_cost : Int
  female_fight_energy_cost : Int
  male_initial_energy : Int
  male_withdraw_threshold : Int
  male_fight_energy_cost : Int
  max_withdrawn_families : Int
  winning_basket_threshold : Int
  baby_eaten_threshold : Int
  max_simulation_time_seconds : Int

/-- One cell of the grid (`MazeCell`). -/
structure MazeCell where
  bananas : Int
  is_obstacle : Int
  females_in_cell : Int → Int

/-- Public status of one family (`FamilyStatus`). -/
structure FamilyStatus where
  basket_bananas : Int
  is_active : Int
  male_fighting : Int
  female_fighting : Int
  female_opponent : Int
  male_energy : Int
  female_energy : Int
  female_x : Int
  female_y : Int
  female_in_maze : Int
  female_resting : Int
  female_collected : Int
  baby_bananas_eaten : Int → Int
  total_collected : Int
  bananas_from_maze : Int
  bananas_from_male_fights : Int
  bananas_from_female_fights : Int
  bananas_lost_male_fights : Int
  bananas_lost_female_fights : Int

/-- One slot of the event ring (`EventEntry`): the C string held in
`message` (its characters up to the terminating NUL) and the time stamp. -/
structure EventEntry where
  message : List Char
  timestamp : Int

/-- The shared memory block (`SharedData`), without its semaphores. -/
structure SharedData where
  maze : Int → Int → MazeCell
  maze_rows : Int
  maze_cols : Int
  total_bananas_in_maze : Int
  families : Int → FamilyStatus
  num_families : Int
  withdrawn_count : Int
  simulation_running : Int
  termination_reason : Int
  winning_family : Int
  start_time : Int
  recent_events : Nat → EventEntry
  event_head : Nat

/-- Private data of one family process (`FamilyLocal`), without its mutex,
condition variables and pointers. -/
structure FamilyLocal where
  family_id : Int
  basket_bananas : Int
  male_energy : Int
  male_fighting : Int
  female_energy : Int
  female_x : Int
  female_y : Int
  female_collected : Int
  female_in_maze : Int
  female_resting : Int
  num_babies : Int
  baby_eaten : Int → Int
  should_withdraw : Int

/-- What one family process sees: its own `FamilyLocal` and the shared block
its `shared` pointer leads to. -/
structure View where
  loc : FamilyLocal
  sh : SharedData

/-- What the other threads and processes do to the memory a thread can see
while that thread is blocked in `sem_wait` or asleep. -/
abbrev Interference := View → View

/-- A semaphore operation on `basket_locks[i]`. -/
inductive LockEv where
  | wait (i : Int)
  | post (i : Int)
deriving DecidableEq, Repr

/-- Array store `a[i] = v` on an `int`-indexed array. -/
def setAt {α : Type} (a : Int → α) (i : Int) (v : α) : Int → α :=
  fun j => if j = i then v else a j

/-- Array store `a[i] = v` on the event ring. -/
def setSlot {α : Type} (a : Nat → α) (i : Nat) (v : α) : Nat → α :=
  fun j => if j = i then v else a j

/-! ## `utils.c`: the event ring -/

/-- What `vsnprintf(entry->message, MAX_EVENT_LEN - 1, ...)` leaves in the
slot for the formatted text `text`: at most `MAX_EVENT_LEN - 2` characters
before the terminating NUL. -/
def stored_message (text : List Char) : List Char :=
  text.take (MAX_EVENT_LEN - 2)

/-- The entry `add_shared_event` writes at time `now` for formatted text
`text`. -/
def event_entry (start_time now : Int) (text : List Char) : EventEntry :=
  { message := stored_message text, timestamp := now - start_time }

/-- The function `add_shared_event` of `utils.c`; `now` is the value of
`time(NULL)` and `text` the formatted message. -/
def add_shared_event (shared : SharedData) (now : Int) (text : List Char) : SharedData :=
  { shared with
    recent_events :=
      setSlot shared.recent_events shared.event_head
        (event_entry shared.start_time now text)
    event_head := (shared.event_head + 1) % MAX_EVENTS }

/-- The slots in the order the reader loop of `display_thread` visits them:
`idx = (event_head + i) % MAX_EVENTS` for `i = 0 .. MAX_EVENTS - 1`. -/
def ring_order (shared : SharedData) : List EventEntry :=
  (List.range MAX_EVENTS).map
    (fun i => shared.recent_events ((shared.event_head + i) % MAX_EVENTS))

/-- The reader loop of `display_thread`: the entries it prints, in order;
a slot is skipped when `message[0] == 0`. -/
def display_events (shared : SharedData) : List EventEntry :=
  (ring_order shared).filter (fun e => !e.message.isEmpty)

/-- A sequence of calls of `add_shared_event`, each with its clock value and
formatted text. -/
def add_shared_events (shared : SharedData) (writes : List (Int × List Char)) : SharedData :=
  writes.foldl (fun s w => add_shared_event s w.1 w.2) shared

/-- The text `printf`-style formatting produces: every `%d` of the format is
replaced by the decimal form of the next argument. -/
def format_chars : List Char → List Int → List Char
  | [], _ => []
  | [c], _ => [c]
  | c :: d :: rest, args =>
    if c = '%' ∧ d = 'd' then
      match args with
      | a :: more => (toString a).toList ++ format_chars rest more
      | [] => c :: d :: format_chars rest []
    else c :: format_chars (d :: rest) args

/-- Formatting of a message from its format string and `int` arguments. -/
def format (f : String) (args : List Int) : List Char :=
  format_chars f.toList args

/-! ## `utils.c`: random numbers -/

/-- The function `random_int`; `r` is the value `rand()` returned. -/
def random_int (min max : Int) (r : Nat) : Int :=
  if min ≥ max then min else min + (r : Int) % (max - min + 1)

/-! ## `family.c`: helpers on the view of one family process -/

/-- Assignment to fields of `shared->families[i]`. -/
def View.setFam (v : View) (i : Int) (f : FamilyStatus → FamilyStatus) : View :=
  { v with sh := { v.sh with families := setAt v.sh.families i (f (v.sh.families i)) } }

/-- Assignment to fields of `*local`. -/
def View.setLoc (v : View) (f : FamilyLocal → FamilyLocal) : View :=
  { v with loc := f v.loc }

/-- A call `add_shared_event(shared, fmt, args...)`. -/
def View.event (v : View) (now : Int) (fmt : String) (args : List Int) : View :=
  { v with sh := add_shared_event v.sh now (format fmt args) }

/-- The function `should_continue`. -/
def should_continue (v : View) : Bool :=
  decide (v.sh.simulation_running ≠ 0) && decide (v.loc.should_withdraw = 0)
    && decide ((v.sh.families v.loc.family_id).is_active ≠ 0)

/-- The function `add_to_basket`: the new view and the returned total.  The
basket lock of the own family is taken and released around the update; `e` is
what the rest of the system does while the caller is blocked on that lock. -/
def add_to_basket (amount : Int) (e : Interference) (v : View) : View × Int :=
  let family_id := v.loc.family_id
  if !should_continue v then (v, v.loc.basket_bananas)
  else
    let v := e v
    let v := v.setLoc (fun l => { l with basket_bananas := (v.sh.families family_id).basket_bananas })
    let v := v.setLoc (fun l => { l with basket_bananas := l.basket_bananas + amount })
    let v := v.setFam family_id (fun f => { f with basket_bananas := v.loc.basket_bananas })
    (v, v.loc.basket_bananas)

/-! ## `family.c`: the collector fight -/

/-- Lines 174-212 of `female_fight`: both collectors are marked as fighting,
the winner is drawn and takes what the loser carries.  `i_win` is the result
of `random_chance(0.5)`. -/
def female_fight_outcome (my_id other_family_id : Int) (now : Int) (i_win : Bool)
    (v : View) : View :=
  let other_collected := (v.sh.families other_family_id).female_collected
  let my_collected := v.loc.female_collected
  let v := v.setFam my_id (fun f => { f with female_fighting := 1 })
  let v := v.setFam my_id (fun f => { f with female_opponent := other_family_id })
  let v := v.setFam other_family_id (fun f => { f with female_fighting := 1 })
  let v := v.setFam other_family_id (fun f => { f with female_opponent := my_id })
  let v := v.event now "FEMALE FIGHT: Fam%d vs Fam%d (carrying %d vs %d)"
    [my_id, other_family_id, my_collected, other_collected]
  if i_win then
    let v := v.setLoc (fun l => { l with female_collected := l.female_collected + other_collected })
    let v := v.setFam other_family_id (fun f => { f with female_collected := 0 })
    let v := v.setFam my_id (fun f =>
      { f with bananas_from_female_fights := f.bananas_from_female_fights + other_collected })
    let v := v.setFam other_family_id (fun f =>
      { f with bananas_lost_female_fights := f.bananas_lost_female_fights + other_collected })
    v.event now "Female %d WON! Took %d bananas from Female %d"
      [my_id, other_collected, other_family_id]
  else
    let v := v.setFam other_family_id (fun f =>
      { f with female_collected := f.female_collected + my_collected })
    let v := v.setLoc (fun l => { l with female_collected := 0 })
    let v := v.setFam my_id (fun f =>
      { f with bananas_lost_female_fights := f.bananas_lost_female_fights + my_collected })
    let v := v.setFam other_family_id (fun f =>
      { f with bananas_from_female_fights := f.bananas_from_female_fights + my_collected })
    v.event now "Female %d LOST! Lost %d bananas to Female %d"
      [my_id, my_collected, other_family_id]

/-- Lines 214-228 of `female_fight`: the carried amount is published, the
initiator pays the energy cost and the fighting flags are cleared. -/
def female_fight_settle (config : SimConfig) (my_id other_family_id : Int) (v : View) : View :=
  let v := v.setFam my_id (fun f => { f with female_collected := v.loc.female_collected })
  let v := v.setLoc (fun l =>
    { l with female_energy := l.female_energy - config.female_fight_energy_cost })
  let v := if v.loc.female_energy < 0 then v.setLoc (fun l => { l with female_energy := 0 }) else v
  let v := v.setFam my_id (fun f => { f with female_energy := v.loc.female_energy })
  let v := v.setFam my_id (fun f => { f with female_fighting := 0 })
  let v := v.setFam my_id (fun f => { f with female_opponent := -1 })
  let v := v.setFam other_family_id (fun f => { f with female_fighting := 0 })
  v.setFam other_family_id (fun f => { f with female_opponent := -1 })

/-- Lines 174-228 of `female_fight`: the critical section, entered with both
basket locks held. -/
def female_fight_body (config : SimConfig) (my_id other_family_id : Int) (now : Int)
    (i_win : Bool) (v : View) : View :=
  female_fight_settle config my_id other_family_id
    (female_fight_outcome my_id other_family_id now i_win v)

/-- The function `female_fight`.  `e1` and `e2` are what the rest of the
system does while the caller is blocked on the first and on the second basket
lock; the result is the view at return and the lock operations performed. -/
def female_fight (config : SimConfig) (other_family_id : Int) (now : Int) (i_win : Bool)
    (e1 e2 : Interference) (v : View) : View × List LockEv :=
  let my_id := v.loc.family_id
  if !should_continue v then (v, [])
  else
    let first := if my_id < other_family_id then my_id else other_family_id
    let second := if my_id < other_family_id then other_family_id else my_id
    let v1 := e1 v
    if !should_continue v1 then (v1, [LockEv.wait first, LockEv.post first])
    else
      let v2 := e2 v1
      if !should_continue v2 then
        (v2, [LockEv.wait first, LockEv.wait second, LockEv.post second, LockEv.post first])
      else
        (female_fight_body config my_id other_family_id now i_win v2,
          [LockEv.wait first, LockEv.wait second, LockEv.post second, LockEv.post first])

/-! ## `family.c`: the guard fight -/

/-- The winning-threshold block of `male_fight` (lines 316-324). -/
def male_fight_check_threshold (config : SimConfig) (my_id : Int) (now : Int) (v : View) : View :=
  if v.loc.basket_bananas ≥ config.winning_basket_threshold then
    let v := { v with sh := { v.sh with simulation_running := 0 } }
    let v := { v with sh := { v.sh with termination_reason := TERM_BASKET_THRESHOLD } }
    let v := { v with sh := { v.sh with winning_family := my_id } }
    v.event now "Family %d WINS! Reached basket threshold!" [my_id]
  else v

/-- Lines 270-284 of `male_fight`: the snapshot of the two baskets and the
start signal, with both basket locks held. -/
def male_fight_signal (my_id opponent_id : Int) (now : Int) (v : View) : View :=
  let v := v.setLoc (fun l => { l with basket_bananas := (v.sh.families my_id).basket_bananas })
  let my_basket := v.loc.basket_bananas
  let their_basket := (v.sh.families opponent_id).basket_bananas
  let v := v.event now "MALE FIGHT: Fam%d vs Fam%d (basket %d vs %d)"
    [my_id, opponent_id, my_basket, their_basket]
  let v := v.setLoc (fun l => { l with male_fighting := 1 })
  let v := v.setFam my_id (fun f => { f with male_fighting := 1 })
  v.setFam opponent_id (fun f => { f with male_fighting := 1 })

/-- Lines 244-288 of `male_fight`: the checks, the first acquisition of the
two basket locks, the snapshot, the start signal and the release before the
sleep.  The flag tells whether the fight goes on to the sleep. -/
def male_fight_start (opponent_id : Int) (now : Int) (e1 e2 : Interference) (v : View) :
    Bool × View × List LockEv :=
  let my_id := v.loc.family_id
  if !should_continue v then (false, v, [])
  else if (v.sh.families opponent_id).is_active = 0 then (false, v, [])
  else
    let first := if my_id < opponent_id then my_id else opponent_id
    let second := if my_id < opponent_id then opponent_id else my_id
    let v1 := e1 v
    if !should_continue v1 then (false, v1, [LockEv.wait first, LockEv.post first])
    else
      let v2 := e2 v1
      if !should_continue v2 then
        (false, v2,
          [LockEv.wait first, LockEv.wait second, LockEv.post second, LockEv.post first])
      else
        (true, male_fight_signal my_id opponent_id now v2,
          [LockEv.wait first, LockEv.wait second, LockEv.post second, LockEv.post first])

/-- Lines 296-337 of `male_fight`: the baskets are read again, the winner is
drawn and takes the loser's basket.  `i_win` is the result of
`random_chance(0.5)`. -/
def male_fight_outcome (config : SimConfig) (my_id opponent_id : Int) (now : Int)
    (i_win : Bool) (v : View) : View :=
  let my_basket := (v.sh.families my_id).basket_bananas
  let their_basket := (v.sh.families opponent_id).basket_bananas
  if i_win then
    let v := v.setLoc (fun l => { l with basket_bananas := my_basket + their_basket })
    let v := v.setFam opponent_id (fun f => { f with basket_bananas := 0 })
    let v := v.setFam my_id (fun f => { f with basket_bananas := v.loc.basket_bananas })
    let v := v.setFam my_id (fun f =>
      { f with bananas_from_male_fights := f.bananas_from_male_fights + their_basket })
    let v := v.setFam opponent_id (fun f =>
      { f with bananas_lost_male_fights := f.bananas_lost_male_fights + their_basket })
    let v := v.event now "Male %d WON! Took %d from Male %d (basket=%d)"
      [my_id, their_basket, opponent_id, v.loc.basket_bananas]
    male_fight_check_threshold config my_id now v
  else
    let v := v.setFam opponent_id (fun f => { f with basket_bananas := their_basket + my_basket })
    let v := v.setLoc (fun l => { l with basket_bananas := 0 })
    let v := v.setFam my_id (fun f => { f with basket_bananas := 0 })
    let v := v.setFam opponent_id (fun f =>
      { f with bananas_from_male_fights := f.bananas_from_male_fights + my_basket })
    let v := v.setFam my_id (fun f =>
      { f with bananas_lost_male_fights := f.bananas_lost_male_fights + my_basket })
    v.event now "Male %d LOST! Lost %d bananas to Male %d" [my_id, my_basket, opponent_id]

/-- Lines 339-356 of `male_fight`: both guards pay the energy cost. -/
def male_fight_energy (config : SimConfig) (my_id opponent_id : Int) (now : Int)
    (v : View) : View :=
  let v := v.setLoc (fun l =>
    { l with male_energy := l.male_energy - config.male_fight_energy_cost })
  let v := if v.loc.male_energy < 0 then v.setLoc (fun l => { l with male_energy := 0 }) else v
  let v := v.setFam my_id (fun f => { f with male_energy := v.loc.male_energy })
  let opponent_old_energy := (v.sh.families opponent_id).male_energy
  let v := v.setFam opponent_id (fun f =>
    { f with male_energy := f.male_energy - config.male_fight_energy_cost })
  let v :=
    if (v.sh.families opponent_id).male_energy < 0 then
      v.setFam opponent_id (fun f => { f with male_energy := 0 })
    else v
  v.event now
    "Male %d energy: %d->%d, Male %d energy: %d->%d (fight cost: %d each)"
    [my_id, v.loc.male_energy + config.male_fight_energy_cost, v.loc.male_energy,
      opponent_id, opponent_old_energy, (v.sh.families opponent_id).male_energy,
      config.male_fight_energy_cost]

/-- Lines 358-364 of `male_fight`: the end signal. -/
def male_fight_end (my_id opponent_id : Int) (v : View) : View :=
  let v := v.setLoc (fun l => { l with male_fighting := 0 })
  let v := v.setFam my_id (fun f => { f with male_fighting := 0 })
  v.setFam opponent_id (fun f => { f with male_fighting := 0 })

/-- Lines 293-367 of `male_fight`: the second acquisition of the two basket
locks after the sleep, the outcome, the energy cost, the end signal and the
release.  `v` is the view once both locks are held again. -/
def male_fight_finish (config : SimConfig) (my_id opponent_id : Int) (now : Int)
    (i_win : Bool) (v : View) : View × List LockEv :=
  let first := if my_id < opponent_id then my_id else opponent_id
  let second := if my_id < opponent_id then opponent_id else my_id
  let v := male_fight_outcome config my_id opponent_id now i_win v
  let v := male_fight_energy config my_id opponent_id now v
  let v := male_fight_end my_id opponent_id v
  (v, [LockEv.wait first, LockEv.wait second, LockEv.post second, LockEv.post first])

/-- The function `male_fight`.  `e1` and `e2` are what the rest of the system
does while the caller is blocked on the first and on the second basket lock,
`window` what it does during the sleep and the second acquisition; `now` and
`now2` are the clock values before and after the sleep. -/
def male_fight (config : SimConfig) (opponent_id : Int) (now now2 : Int) (i_win : Bool)
    (e1 e2 window : Interference) (v : View) : View × List LockEv :=
  let my_id := v.loc.family_id
  let r := male_fight_start opponent_id now e1 e2 v
  if r.1 then
    let r2 := male_fight_finish config my_id opponent_id now2 i_win (window r.2.1)
    (r2.1, r.2.2 ++ r2.2)
  else (r.2.1, r.2.2)

/-! ## `maze.c`: cell helpers -/

/-- The function `is_valid_cell`. -/
def is_valid_cell (shared : SharedData) (x y : Int) : Bool :=
  decide (x ≥ 0) && decide (x < shared.maze_rows) && decide (y ≥ 0)
    && decide (y < shared.maze_cols)

/-- The function `set_female_in_cell`. -/
def set_female_in_cell (shared : SharedData) (x y family_id present : Int) : SharedData :=
  if !is_valid_cell shared x y then shared
  else if family_id < 0 ∨ family_id ≥ (MAX_FAMILIES : Int) then shared
  else
    { shared with
      maze := setAt shared.maze x (setAt (shared.maze x) y
        { shared.maze x y with
          females_in_cell := setAt (shared.maze x y).females_in_cell family_id present }) }

/-- The function `check_female_collision`: the first family other than
`my_family_id` whose flag is set in the cell, or `-1`. -/
def check_female_collision (shared : SharedData) (x y my_family_id : Int) : Int :=
  if !is_valid_cell shared x y then -1
  else
    match (List.range shared.num_families.toNat).find?
        (fun k => decide ((k : Int) ≠ my_family_id)
          && decide ((shared.maze x y).females_in_cell (k : Int) ≠ 0)) with
    | some k => (k : Int)
    | none => -1

/-- The function `is_obstacle`. -/
def is_obstacle (shared : SharedData) (x y : Int) : Int :=
  if !is_valid_cell shared x y then 1 else (shared.maze x y).is_obstacle

/-- The function `is_passable`. -/
def is_passable (shared : SharedData) (x y : Int) : Bool :=
  is_valid_cell shared x y && decide (is_obstacle shared x y = 0)

/-- The function `get_bananas_at`. -/
def get_bananas_at (shared : SharedData) (x y : Int) : Int :=
  if !is_valid_cell shared x y then 0 else (shared.maze x y).bananas

/-- The function `take_bananas`: the new shared block and the number taken. -/
def take_bananas (shared : SharedData) (x y count : Int) : SharedData × Int :=
  if !is_valid_cell shared x y then (shared, 0)
  else
    let cell := shared.maze x y
    let taken := if cell.bananas ≥ count then count else cell.bananas
    ({ shared with
        maze := setAt shared.maze x (setAt (shared.maze x) y
          { cell with bananas := cell.bananas - taken })
        total_bananas_in_maze := shared.total_bananas_in_maze - taken }, taken)

/-- The loop of `get_random_start_position`: `fuel` counts the tries left,
`attempts` is the loop counter and `rand k` the value of `rand()` on try
`k`.  The result is the position found, if any. -/
def get_random_start_position (shared : SharedData) (rand : Nat → Nat) :
    Nat → Nat → Option (Int × Int)
  | 0, _ => none
  | fuel + 1, attempts =>
    let bottom_row := shared.maze_rows - 1
    let col := random_int 0 (shared.maze_cols - 1) (rand attempts)
    if is_passable shared bottom_row col then some (bottom_row, col)
    else get_random_start_position shared rand fuel (attempts + 1)

/-- The function `get_direction_to_exit`; `try_left` is the result of
`random_chance(0.5)`. -/
def get_direction_to_exit (shared : SharedData) (x y : Int) (try_left : Bool) : Int :=
  if is_passable shared (x - 1) y then 0
  else if try_left then
    if is_passable shared x (y - 1) then 2
    else if is_passable shared x (y + 1) then 3
    else if is_passable shared (x + 1) y then 1
    else -1
  else
    if is_passable shared x (y + 1) then 3
    else if is_passable shared x (y - 1) then 2
    else if is_passable shared (x + 1) y then 1
    else -1

/-- The arrays `dx` and `dy` of `get_direction_to_explore`. -/
def dir_dx (dir : Int) : Int :=
  if dir = 0 then -1 else if dir = 1 then 1 else 0

def dir_dy (dir : Int) : Int :=
  if dir = 2 then -1 else if dir = 3 then 1 else 0

/-- The exchange of `directions[i]` and `directions[j]`. -/
def swap_directions (directions : List Int) (i j : Nat) : List Int :=
  (directions.set i (directions.getD j 0)).set j (directions.getD i 0)

/-- The shuffle loop of `get_direction_to_explore` (`i = 3, 2, 1`); `rand i`
is the value of `rand()` used for position `i`. -/
def shuffle_directions (rand : Nat → Nat) : List Int :=
  let d := swap_directions [0, 1, 2, 3] 3 (random_int 0 3 (rand 3)).toNat
  let d := swap_directions d 2 (random_int 0 2 (rand 2)).toNat
  swap_directions d 1 (random_int 0 1 (rand 1)).toNat

/-- One pass of the search loop of `get_direction_to_explore` for the
direction `dir`, on the pair `(best_dir, best_bananas)`. -/
def explore_try (shared : SharedData) (x y : Int) (best : Int × Int) (dir : Int) : Int × Int :=
  let nx := x + dir_dx dir
  let ny := y + dir_dy dir
  if is_passable shared nx ny then
    let bananas := (shared.maze nx ny).bananas
    if bananas > best.2 then (dir, bananas)
    else if best.1 < 0 then (dir, best.2)
    else best
  else best

/-- The function `get_direction_to_explore`. -/
def get_direction_to_explore (shared : SharedData) (x y : Int) (rand : Nat → Nat) : Int :=
  ((shuffle_directions rand).foldl (explore_try shared x y) (-1, -1)).1

/-- The function `move_in_direction`: the new position when the move is
possible. -/
def move_in_direction (shared : SharedData) (x y direction : Int) : Option (Int × Int) :=
  if direction = 0 then
    if is_passable shared (x - 1) y then some (x - 1, y) else none
  else if direction = 1 then
    if is_passable shared (x + 1) y then some (x + 1, y) else none
  else if direction = 2 then
    if is_passable shared x (y - 1) then some (x, y - 1) else none
  else if direction = 3 then
    if is_passable shared x (y + 1) then some (x, y + 1) else none
  else none

/-! ## `family.c`: the collector at a collision and at the exit row -/

/-- Lines 439-469 of `female_thread`: the collision check, the theft from an
exhausted collector and the call of `female_fight`. -/
def female_collision (config : SimConfig) (now : Int) (i_win : Bool) (e1 e2 : Interference)
    (v : View) : View × List LockEv :=
  let family_id := v.loc.family_id
  if should_continue v then
    let other := check_female_collision v.sh v.loc.female_x v.loc.female_y family_id
    if other ≥ 0 ∧ should_continue v = true then
      if (v.sh.families other).female_resting ≠ 0 ∧ (v.sh.families other).female_energy ≤ 0
          ∧ (v.sh.families other).female_collected > 0 then
        let stolen := (v.sh.families other).female_collected
        let v := v.setLoc (fun l => { l with female_collected := l.female_collected + stolen })
        let v := v.setFam family_id (fun f => { f with female_collected := v.loc.female_collected })
        let v := v.setFam family_id (fun f =>
          { f with bananas_from_female_fights := f.bananas_from_female_fights + stolen })
        let v := v.setFam other (fun f => { f with female_collected := 0 })
        let v := v.setFam other (fun f =>
          { f with bananas_lost_female_fights := f.bananas_lost_female_fights + stolen })
        (v.event now "Female %d STOLE %d bananas from EXHAUSTED Female %d (no fight!)"
          [family_id, stolen, other], [])
      else if (v.sh.families other).female_collected > 0 ∨ v.loc.female_collected > 0 then
        female_fight config other now i_win e1 e2 v
      else (v, [])
    else (v, [])
  else (v, [])

/-- The winning-threshold block of `female_thread` after a deposit
(lines 495-503). -/
def female_check_threshold (config : SimConfig) (new_total : Int) (now : Int) (v : View) : View :=
  let family_id := v.loc.family_id
  if new_total ≥ config.winning_basket_threshold then
    let v := { v with sh := { v.sh with simulation_running := 0 } }
    let v := { v with sh := { v.sh with termination_reason := TERM_BASKET_THRESHOLD } }
    let v := { v with sh := { v.sh with winning_family := family_id } }
    v.event now "Family %d WINS! Basket threshold reached!" [family_id]
  else v

/-- Lines 473-479 of `female_thread`: the collector on the exit row leaves
the grid. -/
def female_leave (now : Int) (v : View) : View :=
  let family_id := v.loc.family_id
  let v := { v with sh := set_female_in_cell v.sh v.loc.female_x v.loc.female_y family_id 0 }
  let v := v.setLoc (fun l => { l with female_in_maze := 0 })
  let v := v.setFam family_id (fun f => { f with female_in_maze := 0 })
  v.event now "Female %d exited maze at EXIT row 0, col %d" [family_id, v.loc.female_y]

/-- Lines 482-503 of `female_thread`: the deposit of what the collector
carries, entered when `local->female_collected > 0`; `family_id` is the
thread's variable of that name. -/
def female_deposit (config : SimConfig) (now : Int) (e : Interference) (family_id : Int)
    (v : View) : View :=
  let collected := v.loc.female_collected
  let r := add_to_basket collected e v
  let new_total := r.2
  let v := r.1
  let v := v.setLoc (fun l => { l with female_collected := 0 })
  let v := v.setFam family_id (fun f => { f with female_collected := 0 })
  let v := v.setFam family_id (fun f => { f with total_collected := f.total_collected + collected })
  let v := v.event now "Female %d deposited %d bananas (basket=%d)"
    [family_id, collected, new_total]
  female_check_threshold config new_total now v

/-- Lines 473-506 of `female_thread`: what the collector does when it stands
on the exit row: it leaves the grid and deposits what it carries. -/
def female_exit (config : SimConfig) (now : Int) (e : Interference) (v : View) : View :=
  let family_id := v.loc.family_id
  let v := female_leave now v
  if v.loc.female_collected > 0 then female_deposit config now e family_id v
  else v.event now "Female %d exited empty-handed" [family_id]

/-! ## `family.c`: the collector's loop -/

/-- The outside values one pass of the loop of `female_thread` may use: the
clock, the values of `rand()` for the entry column and for the shuffle, the
results of `random_chance(0.5)` for the fight and for the way to the exit,
and what the rest of the system does while the thread is blocked on the
first and second basket lock of a fight, on the basket lock of a deposit and
on the locks of `take_bananas`. -/
structure FemaleInput where
  now : Int
  rand_start : Nat → Nat
  rand_shuffle : Nat → Nat
  i_win : Bool
  try_left : Bool
  e1 : Interference
  e2 : Interference
  e_deposit : Interference
  e_take : Interference

/-- Lines 379-396 of `female_thread`: the recovery of a resting collector. -/
def female_rest (config : SimConfig) (now : Int) (v : View) : View :=
  let family_id := v.loc.family_id
  let old_energy := v.loc.female_energy
  let v := v.setLoc (fun l => { l with female_energy := l.female_energy + config.female_rest_recovery })
  let v :=
    if v.loc.female_energy > config.female_initial_energy then
      v.setLoc (fun l => { l with female_energy := config.female_initial_energy })
    else v
  let v := v.setLoc (fun l => { l with female_resting := 0 })
  let v := v.setFam family_id (fun f => { f with female_resting := 0 })
  let v := v.setFam family_id (fun f => { f with female_energy := v.loc.female_energy })
  v.event now "Female %d recovered energy (%d -> %d)" [family_id, old_energy, v.loc.female_energy]

/-- Lines 419-434 of `female_thread`: the entry into the grid from the bottom
row; `none` when no entry cell was found. -/
def female_enter (inp : FemaleInput) (v : View) : Option View :=
  let family_id := v.loc.family_id
  match get_random_start_position v.sh inp.rand_start 100 0 with
  | some pos =>
    let v := v.setLoc (fun l => { l with female_x := pos.1, female_y := pos.2 })
    let v := v.setLoc (fun l => { l with female_in_maze := 1 })
    let v := { v with sh := set_female_in_cell v.sh v.loc.female_x v.loc.female_y family_id 1 }
    let v := v.setFam family_id (fun f => { f with female_in_maze := 1 })
    let v := v.setFam family_id (fun f => { f with female_x := v.loc.female_x })
    let v := v.setFam family_id (fun f => { f with female_y := v.loc.female_y })
    some (v.event inp.now ">>> Female %d ENTERED maze at BORDER row %d, col %d"
      [family_id, v.loc.female_x, v.loc.female_y])
  | none => none

/-- Lines 513-532 of `female_thread`: the collection at the current cell. -/
def female_collect (config : SimConfig) (inp : FemaleInput) (v : View) : View :=
  let family_id := v.loc.family_id
  if should_continue v then
    let bananas_here := get_bananas_at v.sh v.loc.female_x v.loc.female_y
    if bananas_here > 0 ∧ should_continue v = true then
      let to_take := bananas_here
      let needed := config.female_collection_goal - v.loc.female_collected
      let to_take := if to_take > needed then needed else to_take
      let res := take_bananas v.sh v.loc.female_x v.loc.female_y to_take
      let taken := res.2
      let v := inp.e_take { v with sh := res.1 }
      if should_continue v then
        let v := v.setLoc (fun l => { l with female_collected := l.female_collected + taken })
        let v := v.setFam family_id (fun f => { f with female_collected := v.loc.female_collected })
        let v := v.setFam family_id (fun f => { f with bananas_from_maze := f.bananas_from_maze + taken })
        v.event inp.now "Female %d collected %d at (%d,%d), carrying=%d"
          [family_id, taken, v.loc.female_x, v.loc.female_y, v.loc.female_collected]
      else v
    else v
  else v

/-- Lines 534-566 of `female_thread`: the choice of a direction and the
move. -/
def female_move (config : SimConfig) (inp : FemaleInput) (v : View) : View :=
  let family_id := v.loc.family_id
  let direction :=
    if v.loc.female_collected ≥ config.female_collection_goal
        ∨ v.loc.female_energy < config.female_rest_threshold then
      get_direction_to_exit v.sh v.loc.female_x v.loc.female_y inp.try_left
    else get_direction_to_explore v.sh v.loc.female_x v.loc.female_y inp.rand_shuffle
  if direction ≥ 0 then
    let v := { v with sh := set_female_in_cell v.sh v.loc.female_x v.loc.female_y family_id 0 }
    let old_x := v.loc.female_x
    let old_y := v.loc.female_y
    match move_in_direction v.sh v.loc.female_x v.loc.female_y direction with
    | some pos =>
      let v := v.setLoc (fun l => { l with female_x := pos.1, female_y := pos.2 })
      let v := { v with sh := set_female_in_cell v.sh v.loc.female_x v.loc.female_y family_id 1 }
      let v := v.setFam family_id (fun f => { f with female_x := v.loc.female_x })
      let v := v.setFam family_id (fun f => { f with female_y := v.loc.female_y })
      let v := v.setLoc (fun l =>
        { l with female_energy := l.female_energy - config.female_move_energy_cost })
      let v : View :=
        if v.loc.female_energy < 0 then v.setLoc (fun l => { l with female_energy := 0 }) else v
      v.setFam family_id (fun f => { f with female_energy := v.loc.female_energy })
    | none => { v with sh := set_female_in_cell v.sh old_x old_y family_id 1 }
  else v

/-- Lines 418-568 of `female_thread`: the pass of a collector that does not
rest: entry if it is outside, collision, then exit and deposit on the exit
row, or else collection and move. -/
def female_roam (config : SimConfig) (inp : FemaleInput) (v : View) : View :=
  match (if v.loc.female_in_maze = 0 then female_enter inp v else some v) with
  | none => v
  | some v =>
    let v := (female_collision config inp.now inp.i_win inp.e1 inp.e2 v).1
    if v.loc.female_x = 0 then female_exit config inp.now inp.e_deposit v
    else female_move config inp (female_collect config inp v)

/-- One pass of the loop body of `female_thread` (lines 378-568), entered
when the loop test `should_continue` held. -/
def female_cycle (config : SimConfig) (inp : FemaleInput) (v : View) : View :=
  let family_id := v.loc.family_id
  if v.loc.female_resting ≠ 0 then female_rest config inp.now v
  else if v.loc.female_energy ≤ 0 then
    let v := v.setLoc (fun l => { l with female_resting := 1 })
    let v := v.setFam family_id (fun f => { f with female_resting := 1 })
    if v.loc.female_collected > 0 then
      v.event inp.now
        "Female %d EXHAUSTED (energy=0)! Resting in maze - VULNERABLE with bananas!" [family_id]
    else v.event inp.now "Female %d EXHAUSTED (energy=0)! Resting in maze" [family_id]
  else if v.loc.female_energy < config.female_rest_threshold
      ∧ ¬ (v.loc.female_collected > 0 ∧ v.loc.female_in_maze ≠ 0) then
    let v := v.setLoc (fun l => { l with female_resting := 1 })
    let v := v.setFam family_id (fun f => { f with female_resting := 1 })
    v.event inp.now "Female %d resting (energy=%d < threshold=%d)"
      [family_id, v.loc.female_energy, config.female_rest_threshold]
  else female_roam config inp v

/-! ## `family.c`: the guard's withdrawal -/

/-- Lines 591-593 of `male_thread`: at the top of its loop the guard copies
its shared energy into the local mirror. -/
def male_sync_energy (v : View) : View :=
  v.setLoc (fun l => { l with male_energy := (v.sh.families v.loc.family_id).male_energy })

/-- Lines 598-616 of `male_thread`: the withdrawal of the family once the
guard's energy is below the threshold. -/
def male_withdraw (config : SimConfig) (now : Int) (v : View) : View :=
  let family_id := v.loc.family_id
  let v := v.setLoc (fun l => { l with should_withdraw := 1 })
  let v := v.setFam family_id (fun f => { f with is_active := 0 })
  let v := { v with sh := { v.sh with withdrawn_count := v.sh.withdrawn_count + 1 } }
  let v :=
    if v.sh.withdrawn_count ≥ config.max_withdrawn_families then
      let v := { v with sh := { v.sh with simulation_running := 0 } }
      let v := { v with sh := { v.sh with termination_reason := TERM_WITHDRAWN_THRESHOLD } }
      v.event now "Too many families withdrawn! Simulation ends!" []
    else v
  v.event now "Family %d WITHDRAWN! Male energy=%d, basket=%d"
    [family_id, v.loc.male_energy, v.loc.basket_bananas]

/-! ## `main.c`: the timeout watcher -/

/-- Lines 118-130 of `monitor_thread`: one pass of the loop body; `now` is
the value of `time(NULL)`. -/
def monitor_check (config : SimConfig) (now : Int) (shared : SharedData) : SharedData :=
  let elapsed := now - shared.start_time
  if elapsed ≥ config.max_simulation_time_seconds then
    if shared.simulation_running ≠ 0 then
      { shared with simulation_running := 0, termination_reason := TERM_TIMEOUT }
    else shared
  else shared

/-! ## `family.c`: the opportunist -/

/-- The target search loop of `baby_thread` (lines 706-715): `fuel` counts
the tries left, `attempts` is the loop counter and `rand k` the value of
`rand()` on try `k`. -/
def baby_find_target (family_id : Int) (shared : SharedData) (rand : Nat → Nat) :
    Nat → Nat → Int
  | 0, _ => -1
  | fuel + 1, attempts =>
    let candidate := random_int 0 (shared.num_families - 1) (rand attempts)
    if candidate ≠ family_id ∧ (shared.families candidate).is_active ≠ 0
        ∧ (shared.families candidate).basket_bananas > 0 then candidate
    else baby_find_target family_id shared rand fuel (attempts + 1)

/-- The eaten-threshold block of `baby_thread` (lines 753-762). -/
def baby_check_threshold (config : SimConfig) (baby_id : Int) (now : Int) (v : View) : View :=
  let family_id := v.loc.family_id
  if v.loc.baby_eaten baby_id ≥ config.baby_eaten_threshold then
    let v := { v with sh := { v.sh with simulation_running := 0 } }
    let v := { v with sh := { v.sh with termination_reason := TERM_BABY_ATE_THRESHOLD } }
    let v := { v with sh := { v.sh with winning_family := family_id } }
    v.event now "Baby%d Fam%d ate too much! Simulation ends!" [baby_id, family_id]
  else v

/-- Lines 737-772 of `baby_thread`: the critical section of the theft,
entered with both basket locks held.  `r` is the value of `rand()` used by
`random_int(1, 2)` and `eat` the result of `random_chance(0.5)`. -/
def baby_theft_body (config : SimConfig) (baby_id target : Int) (now : Int) (r : Nat)
    (eat : Bool) (v : View) : View :=
  let family_id := v.loc.family_id
  let available := (v.sh.families target).basket_bananas
  if available > 0 then
    let stolen := random_int 1 2 r
    let stolen := if stolen > available then available else stolen
    let v := v.setFam target (fun f => { f with basket_bananas := f.basket_bananas - stolen })
    if eat then
      let v := v.setLoc (fun l =>
        { l with baby_eaten := setAt l.baby_eaten baby_id (l.baby_eaten baby_id + stolen) })
      let v := v.event now "Baby%d Fam%d stole %d from Fam%d & ATE (total eaten: %d)"
        [baby_id, family_id, stolen, target, v.loc.baby_eaten baby_id]
      baby_check_threshold config baby_id now v
    else
      let v := v.setLoc (fun l =>
        { l with basket_bananas := (v.sh.families family_id).basket_bananas })
      let v := v.setLoc (fun l => { l with basket_bananas := l.basket_bananas + stolen })
      let v := v.setFam family_id (fun f => { f with basket_bananas := v.loc.basket_bananas })
      v.event now "Baby%d Fam%d stole %d from Fam%d, gave to Dad (basket=%d)"
        [baby_id, family_id, stolen, target, v.loc.basket_bananas]
  else v

/-- Lines 717-776 of `baby_thread`: the theft from `target`.  The flag tells
whether the thread left its loop by `break`; `e1` and `e2` are what the rest
of the system does while the thread is blocked on the first and on the second
basket lock. -/
def baby_theft (config : SimConfig) (baby_id target : Int) (now : Int) (r : Nat) (eat : Bool)
    (e1 e2 : Interference) (v : View) : Bool × View × List LockEv :=
  let family_id := v.loc.family_id
  if target ≥ 0 ∧ should_continue v = true then
    let first_lock := if target < family_id then target else family_id
    let second_lock := if target < family_id then family_id else target
    if !should_continue v then (true, v, [])
    else
      let v1 := e1 v
      if !should_continue v1 then (true, v1, [LockEv.wait first_lock, LockEv.post first_lock])
      else
        let v2 := e2 v1
        if !should_continue v2 then
          (true, v2, [LockEv.wait first_lock, LockEv.wait second_lock,
            LockEv.post second_lock, LockEv.post first_lock])
        else
          (false, baby_theft_body config baby_id target now r eat v2,
            [LockEv.wait first_lock, LockEv.wait second_lock,
              LockEv.post second_lock, LockEv.post first_lock])
  else (false, v, [])

/-! ## `main.c`: the shared block at start-up -/

/-- The shared block after `memset(shared, 0, sizeof(SharedData))`. -/
def zeroed_shared : SharedData :=
  { maze := fun _ _ => { bananas := 0, is_obstacle := 0, females_in_cell := fun _ => 0 }
    maze_rows := 0
    maze_cols := 0
    total_bananas_in_maze := 0
    families := fun _ =>
      { basket_bananas := 0, is_active := 0, male_fighting := 0, female_fighting := 0,
        female_opponent := 0, male_energy := 0, female_energy := 0, female_x := 0,
        female_y := 0, female_in_maze := 0, female_resting := 0, female_collected := 0,
        baby_bananas_eaten := fun _ => 0, total_collected := 0, bananas_from_maze := 0,
        bananas_from_male_fights := 0, bananas_from_female_fights := 0,
        bananas_lost_male_fights := 0, bananas_lost_female_fights := 0 }
    num_families := 0
    withdrawn_count := 0
    simulation_running := 0
    termination_reason := 0
    winning_family := 0
    start_time := 0
    recent_events := fun _ => { message := [], timestamp := 0 }
    event_head := 0 }

/-- The function `init_shared_data` of `main.c` (the part that fills the
block; the loop over the families rewrites zeros onto the zeroed block). -/
def init_shared_data (config : SimConfig) : SharedData :=
  { zeroed_shared with
    num_families := config.num_families
    withdrawn_count := 0
    simulation_running := 1
    termination_reason := TERM_RUNNING
    winning_family := -1
    start_time := 0
    event_head := 0 }

/-! ## `config.c`: the default configuration -/

/-- The integer values `set_default_config` assigns. -/
def set_default_config : SimConfig :=
  { maze_rows := 15
    maze_cols := 20
    max_bananas_per_cell := 5
    total_bananas := 100
    num_families := 4
    babies_per_family := 2
    female_initial_energy := 100
    female_rest_threshold := 20
    female_rest_recovery := 30
    female_collection_goal := 8
    female_move_energy_cost := 1
    female_fight_energy_cost := 5
    male_initial_energy := 100
    male_withdraw_threshold := 15
    male_fight_energy_cost := 10
    max_withdrawn_families := 2
    winning_basket_threshold := 50
    baby_eaten_threshold := 15
    max_simulation_time_seconds := 120 }

/-! ## `family.c`: start of a family process -/

/-- The function `init_family_local`: the fresh `FamilyLocal` and the shared
block with the family's status initialised. -/
def init_family_local (family_id : Int) (shared : SharedData) (config : SimConfig) : View :=
  { loc :=
      { family_id := family_id
        basket_bananas := 0
        male_energy := config.male_initial_energy
        male_fighting := 0
        female_energy := config.female_initial_energy
        female_x := 0
        female_y := 0
        female_collected := 0
        female_in_maze := 0
        female_resting := 0
        num_babies := config.babies_per_family
        baby_eaten := fun _ => 0
        should_withdraw := 0 }
    sh :=
      { shared with
        families := setAt shared.families family_id
          { shared.families family_id with
            is_active := 1
            basket_bananas := 0
            male_fighting := 0
            female_fighting := 0
            female_opponent := -1
            male_energy := config.male_initial_energy
            female_energy := config.female_initial_energy
            female_in_maze := 0
            female_resting := 0
            female_collected := 0
            total_collected := 0
            bananas_from_maze := 0
            bananas_from_male_fights := 0
            bananas_from_female_fights := 0
            bananas_lost_male_fights := 0
            bananas_lost_female_fights := 0
            baby_bananas_eaten := fun i =>
              if 0 ≤ i ∧ i < (MAX_BABIES : Int) then 0
              else (shared.families family_id).baby_bananas_eaten i } } }

/-! ## The whole system: the shared block and every family's private data -/

/-- The memory of the whole simulation: the shared block and the
`FamilyLocal` of each family process. -/
structure World where
  sh : SharedData
  locals : Int → FamilyLocal

/-- What family `i` sees of the world. -/
def World.view (w : World) (i : Int) : View :=
  { loc := w.locals i, sh := w.sh }

/-- The world after a thread of family `i` turned its view into `v`. -/
def World.put (w : World) (i : Int) (v : View) : World :=
  { sh := v.sh, locals := setAt w.locals i v.loc }

/-- The world after a thread of family `i` ran the operation `op`. -/
def World.act (w : World) (i : Int) (op : View → View) : World :=
  w.put i (op (w.view i))

/-- The sum of `g 0, ..., g (n - 1)`. -/
def sum_upto (n : Int) (g : Int → Int) : Int :=
  ((List.range n.toNat).map (fun k => g (k : Int))).sum

/-- The units accounted for in a world: what is left in the grid, what lies
in the baskets, what the collectors carry (their shared `female_collected`)
and what the opportunists have eaten. -/
def accounted (w : World) : Int :=
  w.sh.total_bananas_in_maze
    + sum_upto w.sh.num_families (fun i => (w.sh.families i).basket_bananas)
    + sum_upto w.sh.num_families (fun i => (w.sh.families i).female_collected)
    + sum_upto w.sh.num_families (fun i =>
        sum_upto (w.locals i).num_babies (fun b => (w.locals i).baby_eaten b))

/-! ## `family.c`: the opportunist's loop and the guard beside it -/

/-- Where the thread `baby_thread` stands: at the head of its loop (line
684), in the wait for a fight to start (688-694), past that wait and before
the check of line 698, at the theft (703-776), in the wait for the fight to
end (781-786), or past its loop. -/
inductive BabyPc where
  | loop_head
  | wait_start
  | woke
  | steal
  | wait_end
  | exited
deriving DecidableEq, Repr

/-- The outside values one step of `baby_thread` may use: the values of
`rand()` for the target search and for the amount, the result of
`random_chance(0.5)`, the clock, and what the rest of the system does while
the thread is blocked on the two basket locks. -/
structure BabyInput where
  rand : Nat → Nat
  r : Nat
  eat : Bool
  now : Int
  e1 : Interference
  e2 : Interference

/-- Line 791 of `baby_thread`: the eaten total is published when the thread
leaves its loop. -/
def baby_exit (baby_id : Int) (v : View) : View :=
  v.setFam v.loc.family_id (fun f =>
    { f with baby_bananas_eaten := setAt f.baby_bananas_eaten baby_id (v.loc.baby_eaten baby_id) })

/-- One step of `baby_thread` from the place `pc`: each test of
`local->male_fighting` and of `should_continue` is one step, a timed wait
that returns with its condition unchanged leaves the thread in the same wait,
and the theft with its target search is one step. -/
def baby_step (config : SimConfig) (baby_id : Int) (inp : BabyInput) (pc : BabyPc) (v : View) :
    BabyPc × View :=
  match pc with
  | BabyPc.loop_head =>
    if should_continue v then (BabyPc.wait_start, v) else (BabyPc.exited, baby_exit baby_id v)
  | BabyPc.wait_start =>
    if v.loc.male_fighting = 0 ∧ should_continue v = true then (BabyPc.wait_start, v)
    else (BabyPc.woke, v)
  | BabyPc.woke =>
    if !should_continue v then (BabyPc.exited, baby_exit baby_id v) else (BabyPc.steal, v)
  | BabyPc.steal =>
    let target := baby_find_target v.loc.family_id v.sh inp.rand 10 0
    let res := baby_theft config baby_id target inp.now inp.r inp.eat inp.e1 inp.e2 v
    if res.1 then (BabyPc.exited, baby_exit baby_id res.2.1) else (BabyPc.wait_end, res.2.1)
  | BabyPc.wait_end =>
    if v.loc.male_fighting ≠ 0 ∧ should_continue v = true then (BabyPc.wait_end, v)
    else (BabyPc.loop_head, v)
  | BabyPc.exited => (BabyPc.exited, v)

/-- The guard and one opportunist of a family side by side: the family's
view of the memory, the place of the opportunist, the fight the guard is
asleep in (its own id and the opponent's, as `male_fight` holds them in
`my_id` and `opponent_id`), and two counters kept for the statement: the
fights the guard has started and the thefts the opportunist has set out on. -/
structure FightWatch where
  v : View
  baby : BabyPc
  guard : Option (Int × Int)
  fights : Nat
  thefts : Nat

/-- The opportunist takes one step; a theft is counted when it passes the
check of line 698 and sets out on the theft. -/
def FightWatch.baby_moves (config : SimConfig) (baby_id : Int) (inp : BabyInput)
    (c : FightWatch) : FightWatch :=
  let res := baby_step config baby_id inp c.baby c.v
  { c with
    v := res.2
    baby := res.1
    thefts := if c.baby = BabyPc.woke ∧ res.1 = BabyPc.steal then c.thefts + 1 else c.thefts }

/-- The guard calls `male_fight` and runs it up to the sleep; a fight is
counted when the start signal was given. -/
def FightWatch.guard_starts (opponent_id now : Int) (e1 e2 : Interference)
    (c : FightWatch) : FightWatch :=
  let res := male_fight_start opponent_id now e1 e2 c.v
  if res.1 then
    { c with v := res.2.1, guard := some (c.v.loc.family_id, opponent_id), fights := c.fights + 1 }
  else { c with v := res.2.1 }

/-- The guard wakes up and runs `male_fight` to its end. -/
def FightWatch.guard_finishes (config : SimConfig) (my_id opponent_id now : Int) (i_win : Bool)
    (c : FightWatch) : FightWatch :=
  { c with
    v := (male_fight_finish config my_id opponent_id now i_win c.v).1
    guard := none }

/-- What the threads other than the guard may do to the family's view: none
of them writes `local->male_fighting`, and none sets `simulation_running`,
`is_active` or `should_withdraw` back, so `should_continue` stays false once
it is false. -/
def Benign (e : Interference) : Prop :=
  ∀ v, (e v).loc.male_fighting = v.loc.male_fighting
    ∧ (should_continue v = false → should_continue (e v) = false)

/-- The step relation of the guard and one opportunist of a family, with the
rest of the system acting in between. -/
inductive WatchStep (config : SimConfig) (baby_id : Int) : FightWatch → FightWatch → Prop where
  | baby (c : FightWatch) (inp : BabyInput) :
    WatchStep config baby_id c (c.baby_moves config baby_id inp)
  | guard_start (c : FightWatch) (opponent_id now : Int) (e1 e2 : Interference) :
    c.guard = none → Benign e1 → Benign e2 →
    WatchStep config baby_id c (c.guard_starts opponent_id now e1 e2)
  | guard_finish (c : FightWatch) (my_id opponent_id now : Int) (i_win : Bool) :
    c.guard = some (my_id, opponent_id) →
    WatchStep config baby_id c (c.guard_finishes config my_id opponent_id now i_win)
  | others (c : FightWatch) (e : Interference) :
    Benign e → WatchStep config baby_id c { c with v := e c.v }

/-- The start of the two threads: the guard is in no fight, the flag
`local->male_fighting` is 0 as `init_family_local` leaves it, the opportunist
is at the head of its loop and nothing has been counted. -/
def watch_start (v : View) : FightWatch :=
  { v := v.setLoc (fun l => { l with male_fighting := 0 })
    baby := BabyPc.loop_head
    guard := none
    fights := 0
    thefts := 0 }

/-- The states the two threads can reach from a start. -/
inductive WatchReachable (config : SimConfig) (baby_id : Int) : FightWatch → Prop where
  | start (v : View) : WatchReachable config baby_id (watch_start v)
  | step (c c2 : FightWatch) :
    WatchReachable config baby_id c → WatchStep config baby_id c c2 →
    WatchReachable config baby_id c2

/-! ## Vocabulary for the claim on thefts and fights -/

/-- The liveness inputs of `v2` are those of `v`, except that the simulation
may have been stopped. -/
def LiveLe (v v2 : View) : Prop :=
  (v2.sh.simulation_running = v.sh.simulation_running ∨ v2.sh.simulation_running = 0)
    ∧ v2.loc.should_withdraw = v.loc.should_withdraw
    ∧ v2.loc.family_id = v.loc.family_id
    ∧ ∀ k, (v2.sh.families k).is_active = (v.sh.families k).is_active

/-- The invariant behind the bound on thefts: no more thefts than fights, and
while the opportunist is before its next theft either the family has stopped
or a fight that is on has not been used yet. -/
def WatchInv (c : FightWatch) : Prop :=
  c.thefts ≤ c.fights ∧
    match c.baby with
    | BabyPc.loop_head =>
      should_continue c.v = false ∨ (c.v.loc.male_fighting ≠ 0 → c.thefts < c.fights)
    | BabyPc.wait_start =>
      should_continue c.v = false ∨ (c.v.loc.male_fighting ≠ 0 → c.thefts < c.fights)
    | BabyPc.woke => should_continue c.v = false ∨ c.thefts < c.fights
    | _ => True

/-- The outside values of a step of the opportunist in the sample run. -/
def sample_watch_input : BabyInput :=
  { rand := fun _ => 1, r := 0, eat := true, now := 100, e1 := id, e2 := id }

/-! ## Vocabulary for the locking claims -/

/-- The three liveness checks of a two-lock operation that starts in view
`v`: at entry, after the first lock (when the rest of the system has done
`e1`) and after the second lock (when it has then done `e2`).  The result is
the view at the first check that fails and the number of locks held there. -/
def first_failed_check (e1 e2 : Interference) (v : View) : Option (View × Nat) :=
  if !should_continue v then some (v, 0)
  else if !should_continue (e1 v) then some (e1 v, 1)
  else if !should_continue (e2 (e1 v)) then some (e2 (e1 v), 2)
  else none

/-- Acquire and release of the first `n` of the two locks `first`, `second`,
released in the reverse order. -/
def nested_locks (first second : Int) : Nat → List LockEv
  | 0 => []
  | 1 => [LockEv.wait first, LockEv.post first]
  | _ => [LockEv.wait first, LockEv.wait second, LockEv.post second, LockEv.post first]

/-! ## The basket semaphores under concurrent two-lock operations -/

/-- The basket semaphores and the threads that work on them: the value of
each `basket_locks[k]` and, for each thread, the semaphore operations it
still has to perform, in program order. -/
structure LockSys where
  sem : Int → Int
  threads : List (List LockEv)

/-- Thread `i` performs its next semaphore operation: `sem_wait` goes through
only on a positive semaphore and lowers it, `sem_post` raises it.  The result
is `none` when the thread is blocked or has nothing left to do. -/
def lock_step (i : Nat) (st : LockSys) : Option LockSys :=
  match st.threads[i]? with
  | some (LockEv.wait k :: rest) =>
    if 0 < st.sem k then
      some { sem := setAt st.sem k (st.sem k - 1), threads := st.threads.set i rest }
    else none
  | some (LockEv.post k :: rest) =>
    some { sem := setAt st.sem k (st.sem k + 1), threads := st.threads.set i rest }
  | _ => none

/-- The start: every basket semaphore holds 1, as `sem_init(..., 1, 1)` in
`init_simulation_semaphores` leaves it, and no thread has begun. -/
def lock_start (threads : List (List LockEv)) : LockSys :=
  { sem := fun _ => 1, threads := threads }

/-- The states reached from the start by `n` steps of an arbitrary schedule. -/
inductive LockRun (threads : List (List LockEv)) : Nat → LockSys → Prop where
  | start : LockRun threads 0 (lock_start threads)
  | step (n i : Nat) (st st2 : LockSys) :
    LockRun threads n st → lock_step i st = some st2 → LockRun threads (n + 1) st2

/-- The number of semaphore operations the threads still have to perform. -/
def remaining (st : LockSys) : Nat :=
  (st.threads.map List.length).sum

/-- Every thread has completed its operation. -/
def all_done (st : LockSys) : Prop :=
  ∀ t ∈ st.threads, t = []

/-- The basket-lock operations of one two-lock operation between the families
`a` and `b`: a run, under any circumstances, of `female_fight`, `male_fight`
or the opportunist's theft by a thread of one of the two families against the
other. -/
def FightTrace (a b : Int) (t : List LockEv) : Prop :=
  ∃ (config : SimConfig) (other now now2 baby_id : Int) (i_win eat : Bool) (r : Nat)
    (e1 e2 window : Interference) (v : View),
    ((v.loc.family_id = a ∧ other = b) ∨ (v.loc.family_id = b ∧ other = a))
      ∧ (t = (female_fight config other now i_win e1 e2 v).2
        ∨ t = (male_fight config other now now2 i_win e1 e2 window v).2
        ∨ t = (baby_theft config baby_id other now r eat e1 e2 v).2.2)

/-- How many times a thread that still has to perform `t` holds the
semaphore `k`: the releases still to come minus the acquisitions still to
come. -/
def held (k : Int) : List LockEv → Int
  | [] => 0
  | LockEv.wait j :: t => held k t - (if j = k then 1 else 0)
  | LockEv.post j :: t => held k t + (if j = k then 1 else 0)

/-- The total number of holds of semaphore `k` over all threads. -/
def held_total (k : Int) (threads : List (List LockEv)) : Int :=
  (threads.map (held k)).sum

/-- What a thread of a two-lock operation on the locks `lo`, `hi` may still
have to do: a tail of two nested acquisitions in a row, or the acquisition
and release of the first lock alone. -/
def OrderedRest (lo hi : Int) (t : List LockEv) : Prop :=
  t ∈ (nested_locks lo hi 2 ++ nested_locks lo hi 2).tails ∨ t = nested_locks lo hi 1

/-- The facts that hold in every state a schedule can reach. -/
def LockInv (lo hi : Int) (total : Nat) (n : Nat) (st : LockSys) : Prop :=
  (∀ t ∈ st.threads, OrderedRest lo hi t)
    ∧ (∀ k, st.sem k + held_total k st.threads = 1)
    ∧ remaining st + n = total

/-! ## Vocabulary for the claims on the grid -/

/-- The cell invariant of the grid: an obstacle cell of the grid holds no
bananas and no collector flag is set in it. -/
def GridInv (shared : SharedData) : Prop :=
  ∀ x y, is_valid_cell shared x y = true → (shared.maze x y).is_obstacle ≠ 0 →
    (shared.maze x y).bananas = 0
      ∧ ∀ k, 0 ≤ k → k < (MAX_FAMILIES : Int) → (shared.maze x y).females_in_cell k = 0

/-- A grid of two rows and one column whose cell (1,0) is an obstacle. -/
def blocked_grid : SharedData :=
  { zeroed_shared with
    maze_rows := 2
    maze_cols := 1
    maze := setAt zeroed_shared.maze 1 (setAt (zeroed_shared.maze 1) 0
      { zeroed_shared.maze 1 0 with is_obstacle := 1 }) }

/-- The grid `blocked_grid` with two units lying on the obstacle cell. -/
def blocked_grid_seeded : SharedData :=
  { blocked_grid with
    maze := setAt blocked_grid.maze 1 (setAt (blocked_grid.maze 1) 0
      { blocked_grid.maze 1 0 with bananas := 2 })
    total_bananas_in_maze := 2 }

/-! ## Concrete scenes -/

/-- The default configuration with two families. -/
def two_family_config : SimConfig :=
  { set_default_config with num_families := 2 }

/-- Family 0's view of a world of two families right after start-up. -/
def fresh_scene : View :=
  init_family_local 0 (init_family_local 1 (init_shared_data two_family_config)
    two_family_config).sh two_family_config

/-- Family 0's view once the two baskets hold `a` and `b` units. -/
def basket_scene (a b : Int) : View :=
  (fresh_scene.setFam 0 (fun f => { f with basket_bananas := a })).setFam 1
    (fun f => { f with basket_bananas := b })

/-- The timeout watcher of `main.c` firing at clock value 200 while a thread
of the family is asleep or blocked. -/
def timeout_window : Interference :=
  fun v => { v with sh := monitor_check two_family_config 200 v.sh }

/-- Family 0's view when the simulation has been stopped by the timeout. -/
def stopped_scene : View :=
  timeout_window (basket_scene 30 25)

/-- A configuration with a grid of two rows and one column, five units, two
families and a collection goal of two. -/
def small_config : SimConfig :=
  { set_default_config with
    maze_rows := 2, maze_cols := 1, total_bananas := 5, num_families := 2,
    female_collection_goal := 2 }

/-- The shared block `init_shared_data` and `init_maze` leave for
`small_config`: the cell (0,0) of the exit row is empty and the only other
cell, (1,0), is passable and takes all five units. -/
def small_grid : SharedData :=
  { init_shared_data small_config with
    maze_rows := 2
    maze_cols := 1
    maze := setAt (init_shared_data small_config).maze 1
      (setAt ((init_shared_data small_config).maze 1) 0
        { (init_shared_data small_config).maze 1 0 with bananas := 5 })
    total_bananas_in_maze := 5 }

/-- The world once both family processes have run `init_family_local`. -/
def small_world : World :=
  { sh := (init_family_local 0 (init_family_local 1 small_grid small_config).sh
      small_config).sh
    locals := setAt (fun _ => (init_family_local 0 small_grid small_config).loc) 1
      (init_family_local 1 small_grid small_config).loc }

/-- The outside values of a pass of the collector's loop in which nothing
interferes and the collector wins a fight if there is one. -/
def calm_input (now : Int) : FemaleInput :=
  { now := now, rand_start := fun _ => 0, rand_shuffle := fun _ => 0, i_win := true,
    try_left := true, e1 := id, e2 := id, e_deposit := id, e_take := id }

/-- Collector 0 enters at (1,0), collects two units and moves up to (0,0). -/
def small_world_1 : World :=
  small_world.act 0 (female_cycle small_config (calm_input 1))

/-- Collector 1 enters at (1,0), collects two units and moves up to (0,0),
where collector 0 still stands. -/
def small_world_2 : World :=
  small_world_1.act 1 (female_cycle small_config (calm_input 1))

/-- Collector 0 finds collector 1 in its cell, fights and wins, then leaves
by the exit row and deposits what it carries. -/
def small_world_3 : World :=
  small_world_2.act 0 (female_cycle small_config (calm_input 2))

/-- Collector 1 leaves by the exit row and deposits what its local mirror
says it carries. -/
def small_world_4 : World :=
  small_world_3.act 1 (female_cycle small_config (calm_input 2))

/-- Guard 0 starts a pass of its loop and copies its shared energy, 100, into
its local mirror. -/
def energy_world_1 : World :=
  small_world.act 0 male_sync_energy

/-- Before guard 0 goes on, guard 1 fights it from start to end; both shared
energies drop to 90. -/
def energy_world_2 : World :=
  energy_world_1.act 1 (fun v => (male_fight small_config 0 10 11 true id id id v).1)

/-- Guard 0 goes on with its pass and fights guard 1 from start to end. -/
def energy_world_3 : World :=
  energy_world_2.act 0 (fun v => (male_fight small_config 1 12 13 false id id id v).1)

/-- Two threads on the basket locks 0 and 1: guard 0 in a fight with guard 1
and collector 1 in a fight with collector 0. -/
def sample_threads : List (List LockEv) :=
  [(male_fight two_family_config 1 100 101 true id id id (basket_scene 3 4)).2,
    (female_fight small_config 0 2 true id id (small_world_2.view 1)).2]

/-- The lock system after guard 0 has taken the lock of basket 0. -/
def sample_lock_state : LockSys :=
  { sem := setAt (fun _ => 1) 0 0
    threads :=
      [[LockEv.wait 1, LockEv.post 1, LockEv.post 0,
          LockEv.wait 0, LockEv.wait 1, LockEv.post 1, LockEv.post 0],
        [LockEv.wait 0, LockEv.wait 1, LockEv.post 1, LockEv.post 0]] }

/-- Twelve appends to the event ring, with clock values 1 to 12. -/
def sample_writes : List (Int × List Char) :=
  [(1, ['a']), (2, ['b']), (3, ['c']), (4, ['d']), (5, ['e']), (6, ['f']),
    (7, ['g']), (8, ['h']), (9, ['i']), (10, ['j']), (11, ['k']), (12, ['l'])]

/-- A run of the guard and the opportunist of family 0: the guard starts a
fight with family 1, then the opportunist goes from the head of its loop
through the wait and the check and sets out on a theft. -/
def sample_watch : FightWatch :=
  ((((watch_start (basket_scene 3 4)).guard_starts 1 100 id id).baby_moves
    two_family_config 0 sample_watch_input).baby_moves
    two_family_config 0 sample_watch_input).baby_moves
    two_family_config 0 sample_watch_input

/-- In `small_world_2` both collectors stand in cell (0,0) with two units
each.  Collector 0 comes to its collision check first, finds collector 1 and
wins the fight. -/
def meet_world_1 : World :=
  small_world_2.act 0 (fun v => (female_collision small_config 2 true id id v).1)

/-- Before collector 0 goes on, collector 1 comes to its own collision check,
finds collector 0 still in the cell and wins its fight. -/
def meet_world_2 : World :=
  meet_world_1.act 1 (fun v => (female_collision small_config 2 true id id v).1)

/-! ## `maze.c`: the grid at start-up -/

/-- The random values `init_maze` draws: the result of `random_chance` for
the cell `(i, j)`, the value of `rand()` for the column cleared in row `i`,
and the values of `rand()` for the row and the column of pass `k` of the
placement loop. -/
structure MazeRandom where
  obstacle : Int → Int → Bool
  clear : Int → Nat
  place_row : Nat → Nat
  place_col : Nat → Nat

/-- The store `maze[i][j] = c`. -/
def setCell (maze : Int → Int → MazeCell) (i j : Int) (c : MazeCell) : Int → Int → MazeCell :=
  setAt maze i (setAt (maze i) j c)

/-- Lines 14-37 of `init_maze`: what the body of the inner loop makes of the
cell `(i, j)`. -/
def init_cell (rnd : MazeRandom) (i j : Int) (cell : MazeCell) : MazeCell :=
  let cell :=
    { cell with
      females_in_cell :=
        (List.range MAX_FAMILIES).foldl (fun f (k : Nat) => setAt f (k : Int) 0)
          cell.females_in_cell }
  if i = 0 then { cell with is_obstacle := 0, bananas := 0 }
  else if rnd.obstacle i j then { cell with is_obstacle := 1, bananas := 0 }
  else { cell with is_obstacle := 0, bananas := 0 }

/-- Lines 13-38 of `init_maze`: the inner loop over the columns of row `i`. -/
def init_row (rnd : MazeRandom) (cols : Int) (maze : Int → Int → MazeCell) (i : Int) :
    Int → Int → MazeCell :=
  (List.range cols.toNat).foldl
    (fun m (j : Nat) => setCell m i (j : Int) (init_cell rnd i (j : Int) (m i (j : Int)))) maze

/-- Lines 12-39 of `init_maze`: the loop over the rows. -/
def init_cells (rnd : MazeRandom) (rows cols : Int) (maze : Int → Int → MazeCell) :
    Int → Int → MazeCell :=
  (List.range rows.toNat).foldl (fun m (i : Nat) => init_row rnd cols m (i : Int)) maze

/-- Lines 43-54 of `init_maze`: the body of the second loop for row `i`: when
no cell of the row is free of an obstacle, one cell of the row is cleared. -/
def ensure_passage (rnd : MazeRandom) (cols : Int) (maze : Int → Int → MazeCell) (i : Int) :
    Int → Int → MazeCell :=
  if (List.range cols.toNat).any
      (fun (j : Nat) => decide ((maze i (j : Int)).is_obstacle = 0)) then maze
  else
    let clear_col := random_int 0 (cols - 1) (rnd.clear i)
    setCell maze i clear_col { maze i clear_col with is_obstacle := 0 }

/-- Lines 42-55 of `init_maze`: the second loop, over the rows `1` to
`rows - 1`. -/
def ensure_passages (rnd : MazeRandom) (rows cols : Int) (maze : Int → Int → MazeCell) :
    Int → Int → MazeCell :=
  (List.range (rows.toNat - 1)).foldl
    (fun m (k : Nat) => ensure_passage rnd cols m ((k : Int) + 1)) maze

/-- Lines 59-67 of `init_maze`: pass `k` of the placement loop, on the grid
and the counter `bananas_placed`. -/
def place_banana (config : SimConfig) (rnd : MazeRandom) (k : Nat)
    (st : (Int → Int → MazeCell) × Int) : (Int → Int → MazeCell) × Int :=
  let row := random_int 1 (config.maze_rows - 1) (rnd.place_row k)
  let col := random_int 0 (config.maze_cols - 1) (rnd.place_col k)
  let cell := st.1 row col
  if cell.is_obstacle = 0 ∧ cell.bananas < config.max_bananas_per_cell then
    (setCell st.1 row col { cell with bananas := cell.bananas + 1 }, st.2 + 1)
  else st

/-- Lines 58-68 of `init_maze`: the placement loop, run for at most `fuel`
passes starting with pass `k`. -/
def place_bananas (config : SimConfig) (rnd : MazeRandom) :
    Nat → Nat → (Int → Int → MazeCell) × Int → (Int → Int → MazeCell) × Int
  | 0, _, st => st
  | fuel + 1, k, st =>
    if st.2 < config.total_bananas then
      place_bananas config rnd fuel (k + 1) (place_banana config rnd k st)
    else st

/-- The state of `init_maze` after its first two loops and at most `fuel`
passes of the placement loop: the grid and the counter `bananas_placed`. -/
def init_maze_loops (config : SimConfig) (rnd : MazeRandom) (fuel : Nat) (shared : SharedData) :
    (Int → Int → MazeCell) × Int :=
  let maze := init_cells rnd config.maze_rows config.maze_cols shared.maze
  let maze := ensure_passages rnd config.maze_rows config.maze_cols maze
  place_bananas config rnd fuel 0 (maze, 0)

/-- The shared block while `init_maze` runs, after at most `fuel` passes of
the placement loop. -/
def init_maze_progress (config : SimConfig) (rnd : MazeRandom) (fuel : Nat)
    (shared : SharedData) : SharedData :=
  { shared with
    maze_rows := config.maze_rows
    maze_cols := config.maze_cols
    maze := (init_maze_loops config rnd fuel shared).1 }

/-- The function `init_maze`: the shared block at return, or `none` when the
placement loop has not come to its end within `fuel` passes. -/
def init_maze (config : SimConfig) (rnd : MazeRandom) (fuel : Nat) (shared : SharedData) :
    Option SharedData :=
  if (init_maze_loops config rnd fuel shared).2 < config.total_bananas then none
  else
    some { init_maze_progress config rnd fuel shared with
      total_bananas_in_maze := config.total_bananas }

/-- The random values that are all zero and draw no obstacle. -/
def zero_random : MazeRandom :=
  { obstacle := fun _ _ => false, clear := fun _ => 0, place_row := fun _ => 0,
    place_col := fun _ => 0 }

/-- The shared block `init_maze` returns for `small_config` when it draws the
random values `zero_random`. -/
def small_maze : SharedData :=
  { init_maze_progress small_config zero_random 5 (init_shared_data small_config) with
    total_bananas_in_maze := small_config.total_bananas }

/-- The configuration of the scenario with a grid of a single cell: three
units, one family, a collection goal of one and a winning threshold of one. -/
def single_cell_config : SimConfig :=
  { set_default_config with
    maze_rows := 1, maze_cols := 1, total_bananas := 3, num_families := 1,
    female_collection_goal := 1, winning_basket_threshold := 1 }

/-- The same scenario on a grid of two rows and one column: the exit cell
(0,0) and the cell (1,0) below it. -/
def two_cell_config : SimConfig :=
  { single_cell_config with maze_rows := 2 }

/-- The grid of two rows and one column whose cell (1,0) is passable and
holds three units. -/
def two_cell_grid : SharedData :=
  { init_shared_data two_cell_config with
    maze_rows := 2
    maze_cols := 1
    maze := setCell zeroed_shared.maze 1 0
      { bananas := 3, is_obstacle := 0, females_in_cell := fun _ => 0 }
    total_bananas_in_maze := 3 }

/-- The outside values of a pass of the collector's loop at clock value `now`
with the random values `rand_start`, `rand_shuffle`, `i_win` and `try_left`,
when no other thread interferes. -/
def lone_input (now : Int) (rand_start rand_shuffle : Nat → Nat) (i_win try_left : Bool) :
    FemaleInput :=
  { now := now, rand_start := rand_start, rand_shuffle := rand_shuffle, i_win := i_win,
    try_left := try_left, e1 := id, e2 := id, e_deposit := id, e_take := id }

/-- The collector of family 0 at its start on `two_cell_grid`. -/
def two_cell_start : View :=
  init_family_local 0 two_cell_grid two_cell_config

/-- The block `init_maze` returns for `single_cell_config` when it draws the
random values `zero_random`. -/
def single_cell_maze : SharedData :=
  { init_maze_progress single_cell_config zero_random 3 (init_shared_data single_cell_config) with
    total_bananas_in_maze := single_cell_config.total_bananas }

/-- The block `single_cell_maze` with three units laid on the cell (0,0) by
hand. -/
def single_cell_seeded : SharedData :=
  { single_cell_maze with
    maze := setCell single_cell_maze.maze 0 0 { single_cell_maze.maze 0 0 with bananas := 3 } }

/-- The view of the collector of family 0 after `n` passes of its loop from
its start on the block `shared`, pass `k` at clock value `k`, with nothing
interfering. -/
def lone_passes (config : SimConfig) (shared : SharedData) : Nat → View
  | 0 => init_family_local 0 shared config
  | n + 1 => female_cycle config (calm_input ((n : Int) + 1)) (lone_passes config shared n)

/-! ## `config.c`: the configuration file -/

/-- The structure `SimConfig` as `load_config` fills it: the integer
parameters and the four floating point parameters, over any type `F` of
floating point values. -/
structure FileConfig (F : Type) where
  ints : SimConfig
  obstacle_probability : F
  fight_probability_base : F
  fight_probability_per_banana : F
  fight_max_probability : F

/-- The function `set_default_config` with its floating point assignments;
`lit` gives the value of a floating point literal of the source. -/
def set_default_file_config {F : Type} (lit : String → F) : FileConfig F :=
  { ints := set_default_config
    obstacle_probability := lit "0.15f"
    fight_probability_base := lit "0.05f"
    fight_probability_per_banana := lit "0.01f"
    fight_max_probability := lit "0.80f" }

/-- The C library function `isspace` in the "C" locale. -/
def isspace (c : Char) : Bool :=
  c = ' ' || c = '\t' || c = '\n' || c = Char.ofNat 11 || c = Char.ofNat 12 || c = '\r'

/-- The value of the decimal digits at the start of a text, onto the value
read so far. -/
def atoi_digits : List Char → Int → Int
  | [], acc => acc
  | c :: rest, acc =>
    if '0' ≤ c ∧ c ≤ '9' then atoi_digits rest (acc * 10 + ((c.toNat : Int) - 48)) else acc

/-- The largest value of `long`, of 64 bits. -/
def LONG_MAX : Int := 9223372036854775807

/-- The least value of `long`, of 64 bits. -/
def LONG_MIN : Int := -9223372036854775808

/-- The C library function `strtol(nptr, NULL, 10)`: leading white space, an
optional sign and the decimal digits that follow, `0` when no digit follows;
a value out of the range of `long` is replaced by the bound it passes. -/
def strtol (s : List Char) : Int :=
  let value :=
    match s.dropWhile isspace with
    | '-' :: rest => - atoi_digits rest 0
    | '+' :: rest => atoi_digits rest 0
    | rest => atoi_digits rest 0
  if value > LONG_MAX then LONG_MAX else if value < LONG_MIN then LONG_MIN else value

/-- The conversion of a `long` to `int`: the low 32 bits, read as a signed
number. -/
def int_of_long (z : Int) : Int :=
  (z + 2147483648) % 4294967296 - 2147483648

/-- The C library function `atoi`, which is `(int) strtol(nptr, NULL, 10)`:
on a text whose value is in the range of `int` the value of its leading
digits, with the sign; on a larger one the low 32 bits of what `strtol`
returns. -/
def atoi (s : List Char) : Int :=
  int_of_long (strtol s)

/-- The C string held in a buffer: its characters up to the first NUL. -/
def c_string (buffer : List Char) : List Char :=
  buffer.takeWhile (fun c => c ≠ Char.ofNat 0)

/-- The function `trim_whitespace`: the string without its leading and
trailing white space. -/
def trim_whitespace (str : List Char) : List Char :=
  let str := str.dropWhile isspace
  if str = [] then str
  else (str.reverse.dropWhile isspace).reverse

/-- The C library function `fgets(line, size, file)` with `n = size - 1`: the
characters it stores, at most `n` and none after a newline, and the rest of
the file. -/
def fgets : Nat → List Char → List Char × List Char
  | 0, rest => ([], rest)
  | _, [] => ([], [])
  | n + 1, c :: rest =>
    if c = '\n' then ([c], rest)
    else ((c :: (fgets n rest).1), (fgets n rest).2)

/-- The buffers the loop `while (fgets(line, sizeof(line), file) != NULL)` of
`load_config` sees, in order (`MAX_LINE_LENGTH` is 256); `fuel` bounds the
number of passes. -/
def file_lines : Nat → List Char → List (List Char)
  | 0, _ => []
  | fuel + 1, content =>
    if content = [] then []
    else (fgets 255 content).1 :: file_lines fuel (fgets 255 content).2

/-- Lines 145-164 of `load_config`: the key and the value the loop body
passes to `parse_config_line` for the buffer `line`, if it does. -/
def config_line (line : List Char) : Option (List Char × List Char) :=
  let trimmed := trim_whitespace (c_string line)
  if trimmed.head? = none ∨ trimmed.head? = some '#' then none
  else if '=' ∉ trimmed then none
  else
    let key := trim_whitespace (trimmed.takeWhile (fun c => c ≠ '='))
    let value := trim_whitespace ((trimmed.dropWhile (fun c => c ≠ '=')).drop 1)
    some (key, value)

/-- The calls of `parse_config_line` the loop of `load_config` makes for a
file of the given content: key and value of each, in order. -/
def config_entries (content : List Char) : List (List Char × List Char) :=
  (file_lines content.length content).filterMap config_line

/-- The function `parse_config_line`; `atof` is the C library function of
that name followed by the conversion to `float`. -/
def parse_config_line {F : Type} (atof : List Char → F) (config : FileConfig F)
    (key value : List Char) : FileConfig F :=
  if key = "maze_rows".toList then
    { config with ints := { config.ints with maze_rows := atoi value } }
  else if key = "maze_cols".toList then
    { config with ints := { config.ints with maze_cols := atoi value } }
  else if key = "obstacle_probability".toList then
    { config with obstacle_probability := atof value }
  else if key = "max_bananas_per_cell".toList then
    { config with ints := { config.ints with max_bananas_per_cell := atoi value } }
  else if key = "total_bananas".toList then
    { config with ints := { config.ints with total_bananas := atoi value } }
  else if key = "num_families".toList then
    { config with ints := { config.ints with num_families := atoi value } }
  else if key = "babies_per_family".toList then
    { config with ints := { config.ints with babies_per_family := atoi value } }
  else if key = "female_initial_energy".toList then
    { config with ints := { config.ints with female_initial_energy := atoi value } }
  else if key = "female_rest_threshold".toList then
    { config with ints := { config.ints with female_rest_threshold := atoi value } }
  else if key = "female_rest_recovery".toList then
    { config with ints := { config.ints with female_rest_recovery := atoi value } }
  else if key = "female_collection_goal".toList then
    { config with ints := { config.ints with female_collection_goal := atoi value } }
  else if key = "female_move_energy_cost".toList then
    { config with ints := { config.ints with female_move_energy_cost := atoi value } }
  else if key = "female_fight_energy_cost".toList then
    { config with ints := { config.ints with female_fight_energy_cost := atoi value } }
  else if key = "male_initial_energy".toList then
    { config with ints := { config.ints with male_initial_energy := atoi value } }
  else if key = "male_withdraw_threshold".toList then
    { config with ints := { config.ints with male_withdraw_threshold := atoi value } }
  else if key = "male_fight_energy_cost".toList then
    { config with ints := { config.ints with male_fight_energy_cost := atoi value } }
  else if key = "fight_probability_base".toList then
    { config with fight_probability_base := atof value }
  else if key = "fight_probability_per_banana".toList then
    { config with fight_probability_per_banana := atof value }
  else if key = "fight_max_probability".toList then
    { config with fight_max_probability := atof value }
  else if key = "max_withdrawn_families".toList then
    { config with ints := { config.ints with max_withdrawn_families := atoi value } }
  else if key = "winning_basket_threshold".toList then
    { config with ints := { config.ints with winning_basket_threshold := atoi value } }
  else if key = "baby_eaten_threshold".toList then
    { config with ints := { config.ints with baby_eaten_threshold := atoi value } }
  else if key = "max_simulation_time_seconds".toList then
    { config with ints := { config.ints with max_simulation_time_seconds := atoi value } }
  else config

/-- The constants `MAX_ROWS` and `MAX_COLS` of `shared_data.h`. -/
def MAX_ROWS : Int := 50

def MAX_COLS : Int := 50

/-- Lines 173-176 of `load_config`: the cap on `maze_rows`. -/
def cap_rows (c : SimConfig) : SimConfig :=
  if c.maze_rows > MAX_ROWS then { c with maze_rows := MAX_ROWS } else c

/-- Lines 177-180 of `load_config`: the cap on `maze_cols`. -/
def cap_cols (c : SimConfig) : SimConfig :=
  if c.maze_cols > MAX_COLS then { c with maze_cols := MAX_COLS } else c

/-- Lines 181-184 of `load_config`: the cap on `num_families`. -/
def cap_families (c : SimConfig) : SimConfig :=
  if c.num_families > (MAX_FAMILIES : Int) then { c with num_families := MAX_FAMILIES } else c

/-- Lines 185-188 of `load_config`: the cap on `babies_per_family`. -/
def cap_babies (c : SimConfig) : SimConfig :=
  if c.babies_per_family > (MAX_BABIES : Int) then { c with babies_per_family := MAX_BABIES }
  else c

/-- Lines 173-188 of `load_config`: the four caps, in order. -/
def cap_config {F : Type} (config : FileConfig F) : FileConfig F :=
  { config with ints := cap_babies (cap_families (cap_cols (cap_rows config.ints))) }

/-- The function `load_config` (with `malloc` succeeding): `file` is the
content of the file, or `none` when `fopen` fails. -/
def load_config {F : Type} (lit : String → F) (atof : List Char → F)
    (file : Option (List Char)) : FileConfig F :=
  match file with
  | none => set_default_file_config lit
  | some content =>
    cap_config
      ((config_entries content).foldl (fun c kv => parse_config_line atof c kv.1 kv.2)
        (set_default_file_config lit))

/-- The ranges of the public status of a family: the basket is not negative
and the two energies lie between zero and their initial values. -/
def StatusInRange (config : SimConfig) (f : FamilyStatus) : Prop :=
  0 ≤ f.basket_bananas
    ∧ 0 ≤ f.male_energy ∧ f.male_energy ≤ config.male_initial_energy
    ∧ 0 ≤ f.female_energy ∧ f.female_energy ≤ config.female_initial_energy

/-- The same ranges for the energies a family process keeps in its private
mirror. -/
def MirrorInRange (config : SimConfig) (l : FamilyLocal) : Prop :=
  0 ≤ l.male_energy ∧ l.male_energy ≤ config.male_initial_energy
    ∧ 0 ≤ l.female_energy ∧ l.female_energy ≤ config.female_initial_energy

/-- The ranges hold in what a family process sees: for the public status of
every family and for its own mirror. -/
def ViewInRange (config : SimConfig) (v : View) : Prop :=
  (∀ k, StatusInRange config (v.sh.families k)) ∧ MirrorInRange config v.loc

/-- What the other threads do while a thread is blocked or asleep keeps the
ranges, as their own steps do. -/
def Orderly (config : SimConfig) (e : Interference) : Prop :=
  ∀ v, ViewInRange config v → ViewInRange config (e v)

/-- The steps of the roles of a family process, as operations on its view:
the collector's rest recovery, move, fight, exit with deposit and whole pass,
the guard's copy of its energy, fight (in one piece, and its two halves around
the sleep) and withdrawal, and the opportunist's theft.  At every point where
the step blocks or sleeps the other threads may do anything that keeps the
ranges. -/
inductive RoleOp (config : SimConfig) : (View → View) → Prop where
  | rest (now : Int) : RoleOp config (female_rest config now)
  | move (inp : FemaleInput) : RoleOp config (female_move config inp)
  | female_fight (other now : Int) (i_win : Bool) (e1 e2 : Interference)
      (h1 : Orderly config e1) (h2 : Orderly config e2) :
      RoleOp config (fun v => (female_fight config other now i_win e1 e2 v).1)
  | deposit (now : Int) (e : Interference) (h : Orderly config e) :
      RoleOp config (female_exit config now e)
  | cycle (inp : FemaleInput) (h1 : Orderly config inp.e1) (h2 : Orderly config inp.e2)
      (h3 : Orderly config inp.e_deposit) (h4 : Orderly config inp.e_take) :
      RoleOp config (female_cycle config inp)
  | sync : RoleOp config male_sync_energy
  | male_fight (opponent_id now now2 : Int) (i_win : Bool) (e1 e2 window : Interference)
      (h1 : Orderly config e1) (h2 : Orderly config e2) (h3 : Orderly config window) :
      RoleOp config (fun v => (male_fight config opponent_id now now2 i_win e1 e2 window v).1)
  | male_fight_start (opponent_id now : Int) (e1 e2 : Interference)
      (h1 : Orderly config e1) (h2 : Orderly config e2) :
      RoleOp config (fun v => (male_fight_start opponent_id now e1 e2 v).2.1)
  | male_fight_finish (opponent_id now : Int) (i_win : Bool) :
      RoleOp config
        (fun v => (male_fight_finish config v.loc.family_id opponent_id now i_win v).1)
  | withdraw (now : Int) : RoleOp config (male_withdraw config now)
  | theft (baby_id target now : Int) (r : Nat) (eat : Bool) (e1 e2 : Interference)
      (h1 : Orderly config e1) (h2 : Orderly config e2) :
      RoleOp config (fun v => (baby_theft config baby_id target now r eat e1 e2 v).2.1)

/-- The world once every family process has run `init_family_local` on the
shared block `shared` that `main` has prepared. -/
def start_world (config : SimConfig) (shared : SharedData) : World :=
  { sh := (List.range config.num_families.toNat).foldl
      (fun s (k : Nat) => (init_family_local (k : Int) s config).sh) shared
    locals := fun k => (init_family_local k shared config).loc }

/-- The worlds reachable from the start by steps of the roles, each taken by
a thread of some family. -/
inductive RoleReachable (config : SimConfig) (shared : SharedData) : World → Prop where
  | start : RoleReachable config shared (start_world config shared)
  | step (w : World) (i : Int) (op : View → View) (hw : RoleReachable config shared w)
      (hop : RoleOp config op) : RoleReachable config shared (w.act i op)

/-- A configuration with a grid of three rows and one column, eight units,
two families and a collection goal of two. -/
def tall_config : SimConfig :=
  { set_default_config with
    maze_rows := 3, maze_cols := 1, total_bananas := 8, num_families := 2,
    female_collection_goal := 2 }

/-- Random values for `init_maze` that draw no obstacle and place the units
in turn on row 1 and on row 2. -/
def alternate_random : MazeRandom :=
  { zero_random with place_row := fun k => k }

/-- The block `init_maze` returns for `tall_config` with the random values
`alternate_random`: four units on each of the cells (1,0) and (2,0). -/
def tall_grid : SharedData :=
  { init_maze_progress tall_config alternate_random 8 (init_shared_data tall_config) with
    total_bananas_in_maze := tall_config.total_bananas }

/-- Collector 0 enters at (2,0), collects two units and moves up to (1,0). -/
def tall_world_1 : World :=
  (start_world tall_config tall_grid).act 0 (female_cycle tall_config (calm_input 1))

/-- Collector 1 enters at (2,0), collects two units and moves up to (1,0),
where collector 0 still stands. -/
def tall_world_2 : World :=
  tall_world_1.act 1 (female_cycle tall_config (calm_input 2))

/-- Collector 1 begins its next pass: it finds collector 0 in its cell, fights
and wins, and now carries four units on the cell (1,0), which holds four. -/
def glut_view : View :=
  (female_collision tall_config 3 true id id (tall_world_2.view 1)).1

/-- The world `small_world_2` (both collectors on the exit cell (0,0) with two
units each) after the timeout watcher of `main.c` has stopped the simulation
at clock value 200, collector 0 being past the test of its loop. -/
def late_world : World :=
  { small_world_2 with sh := monitor_check small_config 200 small_world_2.sh }

/-- Collector 0 goes on with its pass: it leaves by the exit row and comes to
the deposit. -/
def late_world_1 : World :=
  late_world.act 0 (female_cycle small_config (calm_input 200))

/-- The configuration `small_config` with a winning threshold of three. -/
def rush_config : SimConfig :=
  { small_config with winning_basket_threshold := 3 }

/-- Both collectors, one after the other, enter at (1,0), collect two units,
move up, leave and deposit: each basket holds two units. -/
def rush_world_4 : World :=
  ((((start_world rush_config small_grid).act 0 (female_cycle rush_config (calm_input 1))).act 0
    (female_cycle rush_config (calm_input 2))).act 1
    (female_cycle rush_config (calm_input 3))).act 1 (female_cycle rush_config (calm_input 4))

/-- Guard 0 starts a fight with guard 1 and sleeps. -/
def rush_world_5 : World :=
  rush_world_4.act 0 (fun v => (male_fight_start 1 5 id id v).2.1)

/-- Opportunist 0 of family 0 steals one unit from the basket of family 1 and
gives it to its guard. -/
def rush_world_6 : World :=
  rush_world_5.act 0 (fun v => (baby_theft rush_config 0 1 6 0 false id id v).2.1)

/-! ## The search loop of `get_direction_to_explore` -/

/-- The pair `(best_dir, best_bananas)` after the search loop of
`get_direction_to_explore` has looked at the directions `seen`: either no
direction of `seen` leads to a passable cell and the pair still is `(-1, -1)`,
or `best_dir` is a direction of `seen` that leads to a passable cell,
`best_bananas` is the count of that cell and no passable cell reached by a
direction of `seen` holds more. -/
def BestAmong (shared : SharedData) (x y : Int) (seen : List Int) (best : Int × Int) : Prop :=
  (best = (-1, -1)
      ∧ ∀ d ∈ seen, is_passable shared (x + dir_dx d) (y + dir_dy d) = false)
    ∨ (0 ≤ best.1 ∧ best.1 ∈ seen
      ∧ is_passable shared (x + dir_dx best.1) (y + dir_dy best.1) = true
      ∧ best.2 = (shared.maze (x + dir_dx best.1) (y + dir_dy best.1)).bananas
      ∧ ∀ d ∈ seen, is_passable shared (x + dir_dx d) (y + dir_dy d) = true →
          (shared.maze (x + dir_dx d) (y + dir_dy d)).bananas ≤ best.2)

/-! ## `family.c`: the guard's loop -/

/-- The function `get_neighbors`: the pair `(left, right)`. -/
def get_neighbors (family_id num_families : Int) : Int × Int :=
  (if family_id > 0 then family_id - 1 else -1,
    if family_id < num_families - 1 then family_id + 1 else -1)

/-- The function `get_basket_count`: the new view, the returned count and the
operations on the own basket lock; `e` is what the rest of the system does
while the caller is blocked on that lock. -/
def get_basket_count (e : Interference) (v : View) : View × Int × List LockEv :=
  let family_id := v.loc.family_id
  if !should_continue v then (v, v.loc.basket_bananas, [])
  else
    let v := e v
    let count := (v.sh.families family_id).basket_bananas
    (v.setLoc (fun l => { l with basket_bananas := count }), count,
      [LockEv.wait family_id, LockEv.post family_id])

/-- What one pass of the loop of `male_thread` takes from outside: the clock
values before and after the sleep of a fight, the results of the two calls
`random_chance(prob)` for the left and the right neighbour, the formatted
texts of the two decision messages (they print the probability), the result of
`random_chance(0.5)` in the fight, and what the rest of the system does while
the guard is blocked on its own basket lock in `get_basket_count`, on the two
basket locks of the fight and during the sleep of the fight. -/
structure MaleInput where
  now : Int
  now2 : Int
  fight_left : Bool
  fight_right : Bool
  text_left : List Char
  text_right : List Char
  i_win : Bool
  e_count : Interference
  e1 : Interference
  e2 : Interference
  window : Interference

/-- Lines 630-654 of `male_thread`: the choice of the neighbour to fight; the
new view and `target`. -/
def male_decide (left_neighbor right_neighbor : Int) (inp : MaleInput) (v : View) :
    View × Int :=
  let first : View × Int :=
    if left_neighbor ≥ 0 ∧ (v.sh.families left_neighbor).is_active ≠ 0
        ∧ should_continue v = true then
      if inp.fight_left then
        ({ v with sh := add_shared_event v.sh inp.now inp.text_left }, left_neighbor)
      else (v, -1)
    else (v, -1)
  if first.2 < 0 ∧ right_neighbor ≥ 0 ∧ (first.1.sh.families right_neighbor).is_active ≠ 0
      ∧ should_continue first.1 = true then
    if inp.fight_right then
      ({ first.1 with sh := add_shared_event first.1.sh inp.now inp.text_right },
        right_neighbor)
    else first
  else first

/-- Lines 630-660 of `male_thread`: the choice of the neighbour and the fight. -/
def male_attack (config : SimConfig) (left_neighbor right_neighbor : Int) (inp : MaleInput)
    (v : View) : View × List LockEv :=
  let d := male_decide left_neighbor right_neighbor inp v
  if d.2 ≥ 0 ∧ should_continue d.1 = true then
    male_fight config d.2 inp.now inp.now2 inp.i_win inp.e1 inp.e2 inp.window d.1
  else (d.1, [])

/-- One pass of the loop of `male_thread` (lines 589-663), entered after the
loop test: the flag tells whether the pass reaches the end of the loop body
(`false` when it leaves the loop by `break`); `left_neighbor` and
`right_neighbor` are what `get_neighbors` stored before the loop. -/
def male_cycle (config : SimConfig) (left_neighbor right_neighbor : Int) (inp : MaleInput)
    (v : View) : Bool × View × List LockEv :=
  let v := male_sync_energy v
  if v.loc.male_energy < config.male_withdraw_threshold then
    (false, male_withdraw config inp.now v, [])
  else if !should_continue v then (false, v, [])
  else
    let c := get_basket_count inp.e_count v
    if !should_continue c.1 then (false, c.1, c.2.2)
    else
      let a := male_attack config left_neighbor right_neighbor inp c.1
      (true, a.1, c.2.2 ++ a.2)

/-- The guard thread of a family process: the call of `get_neighbors` before
the loop and one pass of the loop. -/
def male_pass (config : SimConfig) (inp : MaleInput) (v : View) : Bool × View × List LockEv :=
  male_cycle config (get_neighbors v.loc.family_id v.sh.num_families).1
    (get_neighbors v.loc.family_id v.sh.num_families).2 inp v

/-- Whether a thread that performs the operations `t` on the basket locks,
holding the locks `holding` at the start, ever waits on a lock it holds. -/
def waits_on_held (holding : List Int) : List LockEv → Bool
  | [] => false
  | LockEv.wait k :: t => holding.contains k || waits_on_held (k :: holding) t
  | LockEv.post k :: t => waits_on_held (holding.erase k) t

/-- An input of a guard's pass that draws a fight with the left neighbour. -/
def bold_input : MaleInput :=
  { now := 100, now2 := 200, fight_left := true, fight_right := true,
    text_left := [], text_right := [], i_win := true,
    e_count := id, e1 := id, e2 := id, window := id }

/-! ## Vocabulary for the claim on the guard's withdrawal -/

/-- What the rest of the system does while the guard is blocked or asleep
leaves alone the private data of the guard's process and the fields a
withdrawal writes: the `is_active` flags, `withdrawn_count`,
`simulation_running` and `termination_reason`. -/
def Aloof (e : Interference) : Prop :=
  ∀ u, (e u).loc = u.loc
    ∧ (∀ k, ((e u).sh.families k).is_active = (u.sh.families k).is_active)
    ∧ (e u).sh.withdrawn_count = u.sh.withdrawn_count
    ∧ (e u).sh.simulation_running = u.sh.simulation_running
    ∧ (e u).sh.termination_reason = u.sh.termination_reason

/-- From the view `v` to the view `w` the fields a withdrawal writes are kept:
the process's `family_id` and `should_withdraw`, every `is_active` flag and
`withdrawn_count` are the same, and `simulation_running` and
`termination_reason` are the same or, when `ended` holds, have been set to 0
and `TERM_BASKET_THRESHOLD`. -/
def GuardKept (ended : Prop) (v w : View) : Prop :=
  w.loc.family_id = v.loc.family_id ∧ w.loc.should_withdraw = v.loc.should_withdraw
    ∧ (∀ k, (w.sh.families k).is_active = (v.sh.families k).is_active)
    ∧ w.sh.withdrawn_count = v.sh.withdrawn_count
    ∧ ((w.sh.simulation_running = v.sh.simulation_running
        ∧ w.sh.termination_reason = v.sh.termination_reason)
      ∨ (ended ∧ w.sh.simulation_running = 0
        ∧ w.sh.termination_reason = TERM_BASKET_THRESHOLD))

/-- Family 0's view once its guard's shared energy has dropped to 10, below
the withdrawal threshold of 15. -/
def weary_scene : View :=
  (basket_scene 3 4).setFam 0 (fun f => { f with male_energy := 10 })

/-! ## Vocabulary for the claim on the flow counters -/

/-- What a family has gained in guard fights minus what it has lost in them,
by its flow counters. -/
def net_male (f : FamilyStatus) : Int :=
  f.bananas_from_male_fights - f.bananas_lost_male_fights

/-- What a family has gained in collector fights and steals minus what it has
lost in them, by its flow counters. -/
def net_female (f : FamilyStatus) : Int :=
  f.bananas_from_female_fights - f.bananas_lost_female_fights

/-- The sum of a per-family quantity over the families of a view. -/
def flow (net : FamilyStatus → Int) (v : View) : Int :=
  sum_upto v.sh.num_families (fun k => net (v.sh.families k))

/-- The flow counters balance in a shared block: over the families, the
gains in guard fights sum to the losses in guard fights, and the gains in
collector fights sum to the losses in collector fights. -/
def Balanced (s : SharedData) : Prop :=
  sum_upto s.num_families (fun k => (s.families k).bananas_from_male_fights)
      = sum_upto s.num_families (fun k => (s.families k).bananas_lost_male_fights)
    ∧ sum_upto s.num_families (fun k => (s.families k).bananas_from_female_fights)
      = sum_upto s.num_families (fun k => (s.families k).bananas_lost_female_fights)

/-- The view of a thread of family `i` in a system of `n` families whose flow
counters balance. -/
def FlowInv (n i : Int) (v : View) : Prop :=
  v.sh.num_families = n ∧ v.loc.family_id = i ∧ Balanced v.sh

/-- What the other threads do while a thread is blocked or asleep keeps the
number of families, the thread's own id and the balance of the flow counters,
as their own steps do. -/
def Fair (n : Int) (e : Interference) : Prop :=
  ∀ i u, FlowInv n i u → FlowInv n i (e u)

/-- The steps of the threads of a family process in a system of `n` families,
as far as the flow counters go: the operations that write flow counters, as
the program calls them (the collector's collision step, which is the steal
from an exhausted collector or `female_fight` with the family
`check_female_collision` found; `female_fight` and `male_fight` with an
opponent of `[0, n)`), and any step that writes neither a flow counter nor
`num_families` nor the process's `family_id`. -/
inductive FlowOp (n : Int) : (View → View) → Prop where
  | collision (config : SimConfig) (now : Int) (i_win : Bool) (e1 e2 : Interference)
      (h1 : Fair n e1) (h2 : Fair n e2) :
      FlowOp n (fun v => (female_collision config now i_win e1 e2 v).1)
  | female_fight (config : SimConfig) (other now : Int) (i_win : Bool) (e1 e2 : Interference)
      (h0 : 0 ≤ other) (hn : other < n) (h1 : Fair n e1) (h2 : Fair n e2) :
      FlowOp n (fun v => (female_fight config other now i_win e1 e2 v).1)
  | male_fight (config : SimConfig) (opponent_id now now2 : Int) (i_win : Bool)
      (e1 e2 window : Interference) (h0 : 0 ≤ opponent_id) (hn : opponent_id < n)
      (h1 : Fair n e1) (h2 : Fair n e2) (h3 : Fair n window) :
      FlowOp n (fun v => (male_fight config opponent_id now now2 i_win e1 e2 window v).1)
  | silent (op : View → View)
      (h1 : ∀ v, (op v).sh.num_families = v.sh.num_families)
      (h2 : ∀ v, (op v).loc.family_id = v.loc.family_id)
      (h3 : ∀ v k, ((op v).sh.families k).bananas_from_male_fights
            = (v.sh.families k).bananas_from_male_fights
          ∧ ((op v).sh.families k).bananas_lost_male_fights
            = (v.sh.families k).bananas_lost_male_fights
          ∧ ((op v).sh.families k).bananas_from_female_fights
            = (v.sh.families k).bananas_from_female_fights
          ∧ ((op v).sh.families k).bananas_lost_female_fights
            = (v.sh.families k).bananas_lost_female_fights) :
      FlowOp n op

/-- The worlds reachable from the start, where every family process has run
`init_family_local`, by such steps, each taken by a thread of one of the
families. -/
inductive FlowReachable (config : SimConfig) (shared : SharedData) : World → Prop where
  | start : FlowReachable config shared (start_world config shared)
  | step (w : World) (i : Int) (op : View → View) (hw : FlowReachable config shared w)
      (h0 : 0 ≤ i) (hn : i < config.num_families) (hop : FlowOp config.num_families op) :
      FlowReachable config shared (w.act i op)

/-- The world `start_world small_config small_grid` after four units have
been put into the basket of family 1 and guard 0 has fought guard 1 and
won. -/
def fought_world : World :=
  ((start_world small_config small_grid).act 1 (fun v => (add_to_basket 4 id v).1)).act 0
    (fun v => (male_fight small_config 1 1 2 true id id id v).1)

/-- The view of a thread of family `i` in a system of `n` families in which
the net gains in guard fights sum to `m` and those in collector fights to
`f`. -/
def FlowAt (n i m f : Int) (v : View) : Prop :=
  v.sh.num_families = n ∧ v.loc.family_id = i ∧ flow net_male v = m ∧ flow net_female v = f

/-! ## Vocabulary for the claims on the collector's position -/

/-- From the view `v` to the view `w` nothing has changed that places the
collector of `v`'s family in the grid: the dimensions of the grid, the
obstacle flag of every cell, the family's flag in every cell, and the
process's `family_id`, position and `female_in_maze`. -/
def SameSpot (v w : View) : Prop :=
  w.sh.maze_rows = v.sh.maze_rows ∧ w.sh.maze_cols = v.sh.maze_cols
    ∧ (∀ x y, (w.sh.maze x y).is_obstacle = (v.sh.maze x y).is_obstacle
        ∧ (w.sh.maze x y).females_in_cell v.loc.family_id
          = (v.sh.maze x y).females_in_cell v.loc.family_id)
    ∧ w.loc.family_id = v.loc.family_id ∧ w.loc.female_x = v.loc.female_x
    ∧ w.loc.female_y = v.loc.female_y ∧ w.loc.female_in_maze = v.loc.female_in_maze

/-- What the rest of the system does while the collector is blocked leaves
alone what places the collector in the grid: the other threads write neither
the dimensions nor the obstacles of the grid, nor the flag or the private
data of this family's collector. -/
def Settled (e : Interference) : Prop :=
  ∀ u, SameSpot u (e u)

/-- A collector in the field stands on an in-bounds, non-obstacle cell. -/
def Placed (v : View) : Prop :=
  v.loc.female_in_maze ≠ 0 → is_passable v.sh v.loc.female_x v.loc.female_y = true

/-- Occupancy matches position for the collector of the view's family: a
collector in the field stands on a cell of the grid, and the family's flag is
set in a cell of the grid exactly when the collector is in the field and that
cell is the one at `(female_x, female_y)`. -/
def Housed (v : View) : Prop :=
  (v.loc.female_in_maze ≠ 0 → is_valid_cell v.sh v.loc.female_x v.loc.female_y = true)
    ∧ ∀ x y, is_valid_cell v.sh x y = true →
        ((v.sh.maze x y).females_in_cell v.loc.family_id ≠ 0 ↔
          (v.loc.female_in_maze ≠ 0 ∧ x = v.loc.female_x ∧ y = v.loc.female_y))

/-- Lines 571-574 of `female_thread`: the cleanup after the loop. -/
def female_cleanup (v : View) : View :=
  if v.loc.female_in_maze ≠ 0 then
    { v with sh := set_female_in_cell v.sh v.loc.female_x v.loc.female_y v.loc.family_id 0 }
  else v

/-! ## Scenes for the claims on the configuration file and on the win on deposit -/

/-- A configuration file whose value for `num_families` is out of the range
of `int`. -/
def wide_config_file : List Char :=
  "num_families=4294967297\n".toList

/-- The configuration `small_config` with a winning threshold of four and a
fight cost of 90 for the guards. -/
def frail_config : SimConfig :=
  { small_config with winning_basket_threshold := 4, male_fight_energy_cost := 90 }

/-- The same configuration with a fight cost of 45. -/
def weak_config : SimConfig :=
  { small_config with winning_basket_threshold := 4, male_fight_energy_cost := 45 }

/-- An input of a guard's pass that draws a fight the guard loses. -/
def losing_input : MaleInput :=
  { bold_input with i_win := false }

/-- An input of a guard's pass that draws no fight. -/
def idle_input : MaleInput :=
  { bold_input with fight_left := false, fight_right := false }

/-- An input of a guard's pass that draws a fight the guard loses, an
opportunist of the guard's family stealing two units from the basket of
family 0 and eating them while the guard sleeps. -/
def raided_input : MaleInput :=
  { losing_input with
    window := fun v => (baby_theft weak_config 0 0 150 1 true id id v).2.1 }

/-- Both collectors, one after the other, enter at (1,0), collect two units,
move up, leave and deposit: each basket holds two units, each guard has its
full energy of 100. -/
def frail_world_4 : World :=
  ((((start_world frail_config small_grid).act 0 (female_cycle frail_config (calm_input 1))).act
    0 (female_cycle frail_config (calm_input 2))).act 1
    (female_cycle frail_config (calm_input 3))).act 1 (female_cycle frail_config (calm_input 4))

/-- Guard 1 makes a pass of its loop in which it fights guard 0 and loses: the
basket of family 0 holds four units in shared memory, the mirror of family 0
still says two, and both guards are left with an energy of 10. -/
def frail_world_5 : World :=
  frail_world_4.act 1 (fun v => (male_pass frail_config losing_input v).2.1)

/-- Collector 0 enters at (1,0), collects the last unit and moves up to the
exit cell (0,0). -/
def frail_world_6 : World :=
  frail_world_5.act 0 (female_cycle frail_config (calm_input 7))

/-- Collector 0 has passed the test of its loop when guard 0 makes a pass of
its own loop, finds its energy of 10 below the threshold of 15 and withdraws
the family. -/
def frail_world_7 : World :=
  frail_world_6.act 0 (fun v => (male_pass frail_config bold_input v).2.1)

/-- Collector 0 goes on with its pass: it leaves by the exit row and comes to
the deposit with one unit. -/
def frail_world_8 : World :=
  frail_world_7.act 0 (female_cycle frail_config (calm_input 9))

/-- The four collector passes of `frail_world_4` under `weak_config`. -/
def weak_world_4 : World :=
  ((((start_world weak_config small_grid).act 0 (female_cycle weak_config (calm_input 1))).act
    0 (female_cycle weak_config (calm_input 2))).act 1
    (female_cycle weak_config (calm_input 3))).act 1 (female_cycle weak_config (calm_input 4))

/-- Guard 1 fights guard 0 and loses (the basket of family 0 holds four units,
both guards have an energy of 55), collector 0 enters, collects the last unit
and moves up to the exit cell, and guard 0 makes a pass without a fight, in
which `get_basket_count` copies the four units into the mirror. -/
def weak_world_7 : World :=
  ((weak_world_4.act 1 (fun v => (male_pass weak_config losing_input v).2.1)).act 0
    (female_cycle weak_config (calm_input 7))).act 0
    (fun v => (male_pass weak_config idle_input v).2.1)

/-- Guard 1 fights guard 0 again and loses; while it sleeps an opportunist of
family 1 steals two units from the basket of family 0 and eats them.  The
basket of family 0 holds two units, its mirror says four, both guards have an
energy of 10. -/
def weak_world_8 : World :=
  weak_world_7.act 1 (fun v => (male_pass weak_config raided_input v).2.1)

/-- Collector 0 has passed the test of its loop when guard 0 withdraws the
family. -/
def weak_world_9 : World :=
  weak_world_8.act 0 (fun v => (male_pass weak_config bold_input v).2.1)

/-- Collector 0 goes on with its pass: it leaves by the exit row and comes to
the deposit with one unit. -/
def weak_world_10 : World :=
  weak_world_9.act 0 (female_cycle weak_config (calm_input 11))

/-! ## Theorems -/

/-! ### Projections of the view helpers -/

@[simp] theorem setFam_loc (v : View) (i : Int) (f : FamilyStatus → FamilyStatus) :
    (v.setFam i f).loc = v.loc := rfl

@[simp] theorem setFam_families (v : View) (i j : Int) (f : FamilyStatus → FamilyStatus) :
    (v.setFam i f).sh.families j = if j = i then f (v.sh.families i) else v.sh.families j := rfl

@[simp] theorem setFam_running (v : View) (i : Int) (f : FamilyStatus → FamilyStatus) :
    (v.setFam i f).sh.simulation_running = v.sh.simulation_running := rfl

@[simp] theorem setFam_reason (v : View) (i : Int) (f : FamilyStatus → FamilyStatus) :
    (v.setFam i f).sh.termination_reason = v.sh.termination_reason := rfl

@[simp] theorem setFam_winner (v : View) (i : Int) (f : FamilyStatus → FamilyStatus) :
    (v.setFam i f).sh.winning_family = v.sh.winning_family := rfl

@[simp] theorem setLoc_loc (v : View) (f : FamilyLocal → FamilyLocal) :
    (v.setLoc f).loc = f v.loc := rfl

@[simp] theorem setLoc_sh (v : View) (f : FamilyLocal → FamilyLocal) :
    (v.setLoc f).sh = v.sh := rfl

@[simp] theorem event_loc (v : View) (now : Int) (fmt : String) (args : List Int) :
    (v.event now fmt args).loc = v.loc := rfl

@[simp] theorem event_families (v : View) (now : Int) (fmt : String) (args : List Int) :
    (v.event now fmt args).sh.families = v.sh.families := rfl

@[simp] theorem event_running (v : View) (now : Int) (fmt : String) (args : List Int) :
    (v.event now fmt args).sh.simulation_running = v.sh.simulation_running := rfl

@[simp] theorem event_reason (v : View) (now : Int) (fmt : String) (args : List Int) :
    (v.event now fmt args).sh.termination_reason = v.sh.termination_reason := rfl

@[simp] theorem event_winner (v : View) (now : Int) (fmt : String) (args : List Int) :
    (v.event now fmt args).sh.winning_family = v.sh.winning_family := rfl

theorem male_fight_check_threshold_families (config : SimConfig) (my_id now : Int) (v : View) :
    (male_fight_check_threshold config my_id now v).sh.families = v.sh.families := by
  unfold male_fight_check_threshold
  split <;> rfl

theorem male_fight_energy_basket (config : SimConfig) (my_id opponent_id now : Int)
    (v : View) (k : Int) :
    ((male_fight_energy config my_id opponent_id now v).sh.families k).basket_bananas
      = (v.sh.families k).basket_bananas := by
  simp only [male_fight_energy]
  split_ifs <;> simp <;> split_ifs <;> simp_all

theorem male_fight_end_basket (my_id opponent_id : Int) (v : View) (k : Int) :
    ((male_fight_end my_id opponent_id v).sh.families k).basket_bananas
      = (v.sh.families k).basket_bananas := by
  simp only [male_fight_end]
  simp
  split_ifs <;> simp_all

theorem male_fight_finish_basket (config : SimConfig) (my_id opponent_id now : Int)
    (i_win : Bool) (v : View) (k : Int) :
    ((male_fight_finish config my_id opponent_id now i_win v).1.sh.families k).basket_bananas
      = ((male_fight_outcome config my_id opponent_id now i_win v).sh.families k).basket_bananas := by
  simp only [male_fight_finish, male_fight_end_basket, male_fight_energy_basket]

theorem male_fight_outcome_basket (config : SimConfig) (my_id opponent_id now : Int)
    (i_win : Bool) (v : View) (k : Int) (hne : my_id ≠ opponent_id) :
    ((male_fight_outcome config my_id opponent_id now i_win v).sh.families k).basket_bananas
      = if i_win then
          (if k = my_id then
            (v.sh.families my_id).basket_bananas + (v.sh.families opponent_id).basket_bananas
          else if k = opponent_id then 0 else (v.sh.families k).basket_bananas)
        else
          (if k = my_id then 0
          else if k = opponent_id then
            (v.sh.families opponent_id).basket_bananas + (v.sh.families my_id).basket_bananas
          else (v.sh.families k).basket_bananas) := by
  have hne2 : opponent_id ≠ my_id := fun h => hne h.symm
  cases i_win
  · simp only [male_fight_outcome]
    by_cases h1 : k = my_id
    · subst h1; simp [hne]
    · by_cases h2 : k = opponent_id
      · subst h2; simp [hne2]
      · simp [h1, h2]
  · simp only [male_fight_outcome]
    by_cases h1 : k = my_id
    · subst h1; simp [hne, hne2, male_fight_check_threshold_families]
    · by_cases h2 : k = opponent_id
      · subst h2; simp [hne2, male_fight_check_threshold_families]
      · simp [h1, h2, male_fight_check_threshold_families]


theorem range_max_events : List.range MAX_EVENTS = [0, 1, 2, 3, 4, 5, 6, 7, 8, 9] := by
  decide

theorem add_shared_event_start_time (s : SharedData) (now : Int) (text : List Char) :
    (add_shared_event s now text).start_time = s.start_time := rfl

theorem add_shared_event_head_lt (s : SharedData) (now : Int) (text : List Char) :
    (add_shared_event s now text).event_head < MAX_EVENTS := by
  simp only [add_shared_event, MAX_EVENTS]
  omega

/-- One append rotates the ring order by one slot and puts the new entry last. -/
theorem ring_order_add (s : SharedData) (now : Int) (text : List Char)
    (h : s.event_head < MAX_EVENTS) :
    ring_order (add_shared_event s now text)
      = (ring_order s).tail ++ [event_entry s.start_time now text] := by
  simp only [ring_order, range_max_events, add_shared_event]
  simp only [MAX_EVENTS] at h ⊢
  generalize event_entry s.start_time now text = e
  generalize s.recent_events = ev
  generalize s.event_head = hd at h
  interval_cases hd <;> simp [setSlot]

theorem ring_order_length (s : SharedData) : (ring_order s).length = MAX_EVENTS := by
  simp [ring_order]

/-- After a run of appends the ring order is the last `MAX_EVENTS` elements of
the old ring order followed by the new entries. -/
theorem ring_order_add_events (ws : List (Int × List Char)) :
    ∀ s : SharedData, s.event_head < MAX_EVENTS →
      ring_order (add_shared_events s ws)
          = (ring_order s ++ ws.map (fun w => event_entry s.start_time w.1 w.2)).drop ws.length
        ∧ (add_shared_events s ws).event_head = (s.event_head + ws.length) % MAX_EVENTS := by
  induction ws with
  | nil =>
    intro s h
    simp [add_shared_events, Nat.mod_eq_of_lt h]
  | cons w rest ih =>
    intro s h
    have hstep := ih (add_shared_event s w.1 w.2) (add_shared_event_head_lt s w.1 w.2)
    have hfold : add_shared_events s (w :: rest)
        = add_shared_events (add_shared_event s w.1 w.2) rest := rfl
    rw [hfold, hstep.1, hstep.2, ring_order_add s w.1 w.2 h, add_shared_event_start_time]
    constructor
    · have hlen := ring_order_length s
      cases hr : ring_order s with
      | nil => rw [hr] at hlen; simp [MAX_EVENTS] at hlen
      | cons a t => simp
    · simp only [add_shared_event, MAX_EVENTS, List.length_cons]
      omega

theorem stored_message_isEmpty (text : List Char) (h : text ≠ []) :
    (stored_message text).isEmpty = false := by
  cases text with
  | nil => exact absurd rfl h
  | cons c t => simp [stored_message, MAX_EVENT_LEN]

theorem filter_nonempty_entries (start : Int) (ws : List (Int × List Char))
    (hne : ∀ w ∈ ws, w.2 ≠ []) (n : Nat) :
    ((ws.map (fun w => event_entry start w.1 w.2)).drop n).filter
        (fun e => !e.message.isEmpty)
      = (ws.map (fun w => event_entry start w.1 w.2)).drop n := by
  rw [List.filter_eq_self]
  intro e he
  have he2 := List.mem_of_mem_drop he
  rw [List.mem_map] at he2
  obtain ⟨w, hw, rfl⟩ := he2
  simp [event_entry, stored_message_isEmpty w.2 (hne w hw)]

theorem filter_empty_entries (l : List EventEntry) (h : ∀ e ∈ l, e.message = [])
    (n : Nat) : (l.drop n).filter (fun e => !e.message.isEmpty) = [] := by
  rw [List.filter_eq_nil_iff]
  intro e he
  simp [h e (List.mem_of_mem_drop he)]

/-- C10. Ring buffer correctness: starting from a buffer whose slots all hold
the empty message and `event_head = 0`, after `k` appends of non-empty texts
through `add_shared_event` the reader loop of `display_thread` yields the
entries of the last `min k MAX_EVENTS` writes, oldest first (each entry being
what `add_shared_event` stored: the text as cut by `vsnprintf` and the time
stamp), so exactly `MAX_EVENTS` entries when `k > MAX_EVENTS`, and
`event_head = k % MAX_EVENTS`; a text of at most `MAX_EVENT_LEN - 2`
characters is read back unchanged. -/
theorem ring_buffer_correct (s0 : SharedData)
    (hzero : ∀ i, (s0.recent_events i).message = [])
    (hhead : s0.event_head = 0)
    (ws : List (Int × List Char)) (hne : ∀ w ∈ ws, w.2 ≠ []) :
    display_events (add_shared_events s0 ws)
        = (ws.map (fun w => event_entry s0.start_time w.1 w.2)).drop
            (ws.length - MAX_EVENTS)
      ∧ (display_events (add_shared_events s0 ws)).length = min ws.length MAX_EVENTS
      ∧ (MAX_EVENTS < ws.length →
          (display_events (add_shared_events s0 ws)).length = MAX_EVENTS)
      ∧ (add_shared_events s0 ws).event_head = ws.length % MAX_EVENTS
      ∧ (∀ w ∈ ws, w.2.length ≤ MAX_EVENT_LEN - 2 →
          (event_entry s0.start_time w.1 w.2).message = w.2) := by
  have h0 : s0.event_head < MAX_EVENTS := by rw [hhead]; decide
  obtain ⟨hring, hhd⟩ := ring_order_add_events ws s0 h0
  have hdisp : display_events (add_shared_events s0 ws)
      = (ws.map (fun w => event_entry s0.start_time w.1 w.2)).drop
          (ws.length - MAX_EVENTS) := by
    unfold display_events
    rw [hring, List.drop_append_eq_append_drop, List.filter_append, ring_order_length,
      filter_nonempty_entries s0.start_time ws hne, filter_empty_entries, List.nil_append]
    intro e he
    simp only [ring_order, List.mem_map] at he
    obtain ⟨i, _, rfl⟩ := he
    exact hzero _
  have hlen : (display_events (add_shared_events s0 ws)).length = min ws.length MAX_EVENTS := by
    rw [hdisp]
    simp only [List.length_drop, List.length_map]
    omega
  refine ⟨hdisp, hlen, ?_, ?_, ?_⟩
  · intro hk
    rw [hlen]
    omega
  · rw [hhd, hhead, Nat.zero_add]
  · intro w _ hw
    simp only [event_entry, stored_message]
    exact List.take_of_length_le hw

theorem male_fight_signal_basket (my_id opponent_id now : Int) (v : View) (k : Int) :
    ((male_fight_signal my_id opponent_id now v).sh.families k).basket_bananas
      = (v.sh.families k).basket_bananas := by
  simp only [male_fight_signal]
  simp
  split_ifs <;> simp_all

/-- What `male_fight_start` did when it reports that the fight goes on. -/
theorem male_fight_start_go (opponent_id now : Int) (e1 e2 : Interference) (v : View)
    (hgo : (male_fight_start opponent_id now e1 e2 v).1 = true) :
    should_continue v = true ∧ (v.sh.families opponent_id).is_active ≠ 0
      ∧ should_continue (e1 v) = true ∧ should_continue (e2 (e1 v)) = true
      ∧ (male_fight_start opponent_id now e1 e2 v).2.1
          = male_fight_signal v.loc.family_id opponent_id now (e2 (e1 v)) := by
  unfold male_fight_start at hgo ⊢
  by_cases h0 : should_continue v = true
  · by_cases ha : (v.sh.families opponent_id).is_active = 0
    · simp [h0, ha] at hgo
    · by_cases h1 : should_continue (e1 v) = true
      · by_cases h2 : should_continue (e2 (e1 v)) = true
        · simp [h0, ha, h1, h2]
        · simp [h0, ha, h1, h2] at hgo
      · simp [h0, ha, h1] at hgo
  · simp [h0] at hgo

/-- C3. Guard fight outcome on baskets: when `male_fight` between two
distinct families goes through (its checks pass), then for either outcome of
the coin the loser's shared basket is 0 afterwards, the winner's shared
basket is the sum of the two baskets as read again after the sleep, which is
the sum of the snapshot taken before the sleep when the two baskets were not
touched during the window, and the basket of every third family is what the
fight found after the window; the first half of the fight changes no basket. -/
theorem male_fight_basket_outcome (config : SimConfig) (opponent_id now now2 : Int)
    (i_win : Bool) (e1 e2 window : Interference) (v : View)
    (hne : v.loc.family_id ≠ opponent_id)
    (hgo : (male_fight_start opponent_id now e1 e2 v).1 = true) :
    let my_id := v.loc.family_id
    let snap := (male_fight_start opponent_id now e1 e2 v).2.1
    let seen := window snap
    let out := (male_fight config opponent_id now now2 i_win e1 e2 window v).1
    let winner := if i_win then my_id else opponent_id
    let loser := if i_win then opponent_id else my_id
    (out.sh.families loser).basket_bananas = 0
      ∧ (out.sh.families winner).basket_bananas
          = (seen.sh.families my_id).basket_bananas
            + (seen.sh.families opponent_id).basket_bananas
      ∧ ((seen.sh.families my_id).basket_bananas = (snap.sh.families my_id).basket_bananas →
          (seen.sh.families opponent_id).basket_bananas
            = (snap.sh.families opponent_id).basket_bananas →
          (out.sh.families winner).basket_bananas
            = (snap.sh.families my_id).basket_bananas
              + (snap.sh.families opponent_id).basket_bananas)
      ∧ (∀ k, k ≠ my_id → k ≠ opponent_id →
          (out.sh.families k).basket_bananas = (seen.sh.families k).basket_bananas)
      ∧ (∀ k, (snap.sh.families k).basket_bananas
          = ((e2 (e1 v)).sh.families k).basket_bananas) := by
  intro my_id snap seen out winner loser
  have hout : out = (male_fight_finish config my_id opponent_id now2 i_win seen).1 := by
    simp only [out, male_fight, hgo, if_true, seen, snap, my_id]
  have hne1 : my_id ≠ opponent_id := hne
  have hne2 : opponent_id ≠ my_id := fun h => hne h.symm
  have hb : ∀ k, (out.sh.families k).basket_bananas
      = ((male_fight_outcome config my_id opponent_id now2 i_win seen).sh.families
          k).basket_bananas := by
    intro k
    rw [hout, male_fight_finish_basket]
  have hwin : (out.sh.families winner).basket_bananas
      = (seen.sh.families my_id).basket_bananas
        + (seen.sh.families opponent_id).basket_bananas := by
    rw [hb, male_fight_outcome_basket _ _ _ _ _ _ _ hne1]
    cases i_win <;> simp [winner, hne1, hne2]
    omega
  refine ⟨?_, hwin, ?_, ?_, ?_⟩
  · rw [hb, male_fight_outcome_basket _ _ _ _ _ _ _ hne1]
    cases i_win <;> simp [loser, hne1, hne2]
  · intro h1 h2
    rw [hwin, h1, h2]
  · intro k hk1 hk2
    rw [hb, male_fight_outcome_basket _ _ _ _ _ _ _ hne1]
    cases i_win <;> simp [hk1, hk2]
  · intro k
    have hs := (male_fight_start_go opponent_id now e1 e2 v hgo).2.2.2.2
    simp only [snap]
    rw [hs, male_fight_signal_basket]

/-- The timeout watcher writes nothing once the simulation is stopped. -/
theorem monitor_check_stopped (config : SimConfig) (now : Int) (shared : SharedData)
    (h : shared.simulation_running = 0) : monitor_check config now shared = shared := by
  simp [monitor_check, h]

/-- C1. The code against first-writer-wins: guard 0 fights guard 1 with
baskets 30 and 25 and the timeout watcher stops the simulation during the
fight's sleep; when the fight resumes the simulation is stopped with reason
`TERM_TIMEOUT` and no winner, and the won fight then overwrites the reason
with `TERM_BASKET_THRESHOLD` and the winner with family 0.  In the stopped
state the threshold blocks of the collector and of the opportunist and the
guard's withdrawal overwrite the reason as well. -/
theorem termination_reason_overwritten :
    (timeout_window (male_fight_start 1 100 id id (basket_scene 30 25)).2.1).sh.simulation_running
        = 0
      ∧ (timeout_window (male_fight_start 1 100 id id (basket_scene 30 25)).2.1).sh.termination_reason
        = TERM_TIMEOUT
      ∧ (timeout_window (male_fight_start 1 100 id id (basket_scene 30 25)).2.1).sh.winning_family
        = -1
      ∧ (male_fight two_family_config 1 100 200 true id id timeout_window
          (basket_scene 30 25)).1.sh.termination_reason = TERM_BASKET_THRESHOLD
      ∧ (male_fight two_family_config 1 100 200 true id id timeout_window
          (basket_scene 30 25)).1.sh.winning_family = 0
      ∧ stopped_scene.sh.simulation_running = 0
      ∧ stopped_scene.sh.termination_reason = TERM_TIMEOUT
      ∧ (male_fight_check_threshold two_family_config 0 200
          (stopped_scene.setLoc (fun l => { l with basket_bananas := 55 }))).sh.termination_reason
        = TERM_BASKET_THRESHOLD
      ∧ (female_check_threshold two_family_config 55 200 stopped_scene).sh.termination_reason
        = TERM_BASKET_THRESHOLD
      ∧ (baby_check_threshold two_family_config 0 200
          (stopped_scene.setLoc (fun l => { l with baby_eaten := fun _ => 15 }))).sh.termination_reason
        = TERM_BABY_ATE_THRESHOLD
      ∧ (male_withdraw { two_family_config with max_withdrawn_families := 1 } 200
          stopped_scene).sh.termination_reason = TERM_WITHDRAWN_THRESHOLD := by
  decide

/-- C4. The code against the energy rule: with energies 100 and cost 10,
guard 0 copies its shared energy into its local mirror at the top of its
loop, guard 1 then fights guard 0 (both shared energies drop to 90, the
mirror of guard 0 still says 100), and guard 0 then fights guard 1.  In that
second fight the shared energy of guard 1 goes from 90 to 80, but the shared
energy of guard 0 is 90 before the fight and 90 after it, not 80. -/
theorem male_fight_energy_from_stale_mirror :
    small_config.male_fight_energy_cost = 10
      ∧ (energy_world_1.locals 0).male_energy = 100
      ∧ (energy_world_2.sh.families 0).male_energy = 90
      ∧ (energy_world_2.sh.families 1).male_energy = 90
      ∧ (energy_world_2.locals 0).male_energy = 100
      ∧ (male_fight_start 1 12 id id (energy_world_2.view 0)).1 = true
      ∧ (energy_world_3.sh.families 0).male_energy = 90
      ∧ (energy_world_3.sh.families 1).male_energy = 80 := by
  decide

/-- C8. The code against the check after the second acquisition: guard 0
fights guard 1 with baskets 3 and 4 and the simulation is stopped during the
sleep; `should_continue` is false when the fight holds the two locks again,
and the fight still moves the basket of family 1 to family 0, charges both
guards the energy cost and raises the flow counters. -/
theorem male_fight_no_check_after_window :
    should_continue (timeout_window (male_fight_start 1 100 id id (basket_scene 3 4)).2.1)
        = false
      ∧ ((timeout_window (male_fight_start 1 100 id id (basket_scene 3 4)).2.1).sh.families
          0).basket_bananas = 3
      ∧ ((timeout_window (male_fight_start 1 100 id id (basket_scene 3 4)).2.1).sh.families
          1).basket_bananas = 4
      ∧ ((male_fight two_family_config 1 100 200 true id id timeout_window
          (basket_scene 3 4)).1.sh.families 0).basket_bananas = 7
      ∧ ((male_fight two_family_config 1 100 200 true id id timeout_window
          (basket_scene 3 4)).1.sh.families 1).basket_bananas = 0
      ∧ ((male_fight two_family_config 1 100 200 true id id timeout_window
          (basket_scene 3 4)).1.sh.families 0).male_energy = 90
      ∧ ((male_fight two_family_config 1 100 200 true id id timeout_window
          (basket_scene 3 4)).1.sh.families 1).male_energy = 90
      ∧ ((male_fight two_family_config 1 100 200 true id id timeout_window
          (basket_scene 3 4)).1.sh.families 0).bananas_from_male_fights = 4
      ∧ ((male_fight two_family_config 1 100 200 true id id timeout_window
          (basket_scene 3 4)).1.sh.families 1).bananas_lost_male_fights = 4 := by
  decide

/-- The basket-lock operations of the two-lock operations, for distinct ids. -/
theorem two_lock_traces (config : SimConfig) (other now now2 baby_id : Int)
    (i_win eat : Bool) (r : Nat) (e1 e2 window : Interference) (v w : View)
    (hne : v.loc.family_id ≠ other) :
    let lo := min v.loc.family_id other
    let hi := max v.loc.family_id other
    lo < hi
      ∧ (∃ n, (female_fight config other now i_win e1 e2 v).2 = nested_locks lo hi n)
      ∧ (∃ n, (male_fight_start other now e1 e2 v).2.2 = nested_locks lo hi n)
      ∧ (male_fight_finish config v.loc.family_id other now2 i_win w).2 = nested_locks lo hi 2
      ∧ (∃ n, (male_fight config other now now2 i_win e1 e2 window v).2
            = nested_locks lo hi n
          ∨ (male_fight config other now now2 i_win e1 e2 window v).2
            = nested_locks lo hi 2 ++ nested_locks lo hi 2)
      ∧ (∃ n, (baby_theft config baby_id other now r eat e1 e2 v).2.2
            = nested_locks lo hi n) := by
  intro lo hi
  have hlt : v.loc.family_id < other ∨ other < v.loc.family_id := lt_or_gt_of_ne hne
  have hfirst : (if v.loc.family_id < other then v.loc.family_id else other) = lo := by
    simp only [lo]
    split_ifs with h
    · exact (min_eq_left (le_of_lt h)).symm
    · exact (min_eq_right (not_lt.mp h)).symm
  have hsecond : (if v.loc.family_id < other then other else v.loc.family_id) = hi := by
    simp only [hi]
    split_ifs with h
    · exact (max_eq_right (le_of_lt h)).symm
    · exact (max_eq_left (not_lt.mp h)).symm
  have hfirst2 : (if other < v.loc.family_id then other else v.loc.family_id) = lo := by
    simp only [lo]
    split_ifs with h
    · exact (min_eq_right (le_of_lt h)).symm
    · exact (min_eq_left (not_lt.mp h)).symm
  have hsecond2 : (if other < v.loc.family_id then v.loc.family_id else other) = hi := by
    simp only [hi]
    split_ifs with h
    · exact (max_eq_left (le_of_lt h)).symm
    · exact (max_eq_right (not_lt.mp h)).symm
  have hstart : ∃ n, (male_fight_start other now e1 e2 v).2.2 = nested_locks lo hi n := by
    simp only [male_fight_start, hfirst, hsecond]
    split_ifs
    · exact ⟨0, rfl⟩
    · exact ⟨0, rfl⟩
    · exact ⟨1, rfl⟩
    · exact ⟨2, rfl⟩
    · exact ⟨2, rfl⟩
  have hfinish : ∀ u, (male_fight_finish config v.loc.family_id other now2 i_win u).2
      = nested_locks lo hi 2 := by
    intro u
    simp only [male_fight_finish, hfirst, hsecond]
    rfl
  refine ⟨?_, ?_, hstart, hfinish w, ?_, ?_⟩
  · simp only [lo, hi]
    rcases hlt with h | h
    · rw [min_eq_left (le_of_lt h), max_eq_right (le_of_lt h)]; exact h
    · rw [min_eq_right (le_of_lt h), max_eq_left (le_of_lt h)]; exact h
  · simp only [female_fight, hfirst, hsecond]
    split_ifs
    · exact ⟨0, rfl⟩
    · exact ⟨1, rfl⟩
    · exact ⟨2, rfl⟩
    · exact ⟨2, rfl⟩
  · by_cases hgo : (male_fight_start other now e1 e2 v).1 = true
    · have htr : (male_fight_start other now e1 e2 v).2.2 = nested_locks lo hi 2 := by
        have hg := male_fight_start_go other now e1 e2 v hgo
        simp only [male_fight_start, hfirst, hsecond, hg.1, hg.2.1, hg.2.2.1, hg.2.2.2.1]
        simp [nested_locks]
      refine ⟨2, Or.inr ?_⟩
      simp only [male_fight, hgo, if_true, htr, hfinish]
    · obtain ⟨n, hn⟩ := hstart
      refine ⟨n, Or.inl ?_⟩
      simp only [male_fight, hgo]
      exact hn
  · simp only [baby_theft, hfirst2, hsecond2]
    split_ifs
    · exact ⟨0, rfl⟩
    · exact ⟨1, rfl⟩
    · exact ⟨2, rfl⟩
    · exact ⟨2, rfl⟩
    · exact ⟨0, rfl⟩

/-- C6. Ordered two-lock acquisition: for distinct family ids, with `lo` the
smaller and `hi` the larger one, every run of `female_fight`, of either half
of `male_fight` and of the opportunist's theft performs on the basket locks
nothing, or `wait lo, post lo`, or `wait lo, wait hi, post hi, post lo`; the
lock of the smaller id is taken first and released last on every path. -/
theorem basket_locks_ordered (config : SimConfig) (other now now2 baby_id : Int)
    (i_win eat : Bool) (r : Nat) (e1 e2 window : Interference) (v w : View)
    (hne : v.loc.family_id ≠ other) :
    let lo := min v.loc.family_id other
    let hi := max v.loc.family_id other
    lo < hi
      ∧ (∃ n, (female_fight config other now i_win e1 e2 v).2 = nested_locks lo hi n)
      ∧ (∃ n, (male_fight_start other now e1 e2 v).2.2 = nested_locks lo hi n)
      ∧ (male_fight_finish config v.loc.family_id other now2 i_win w).2 = nested_locks lo hi 2
      ∧ (∃ n, (male_fight config other now now2 i_win e1 e2 window v).2
            = nested_locks lo hi n
          ∨ (male_fight config other now now2 i_win e1 e2 window v).2
            = nested_locks lo hi 2 ++ nested_locks lo hi 2)
      ∧ (∃ n, (baby_theft config baby_id other now r eat e1 e2 v).2.2
            = nested_locks lo hi n) :=
  two_lock_traces config other now now2 baby_id i_win eat r e1 e2 window v w hne

/-- C7. Liveness abort is clean: when `should_continue` is false at entry or
right after the first or the second basket lock was acquired, `female_fight`,
the first half of `male_fight` and the opportunist's theft return the view
they found at that check, unchanged in every field, the local data included,
and have released, in reverse order, exactly the locks acquired up to there.
(When the guard's opponent is already inactive `male_fight` returns at entry
with no lock taken and nothing changed.) -/
theorem liveness_abort_clean (config : SimConfig) (other now baby_id : Int)
    (i_win eat : Bool) (r : Nat) (e1 e2 : Interference) (v found : View) (n : Nat)
    (h : first_failed_check e1 e2 v = some (found, n)) :
    let first := if v.loc.family_id < other then v.loc.family_id else other
    let second := if v.loc.family_id < other then other else v.loc.family_id
    let first_lock := if other < v.loc.family_id then other else v.loc.family_id
    let second_lock := if other < v.loc.family_id then v.loc.family_id else other
    female_fight config other now i_win e1 e2 v = (found, nested_locks first second n)
      ∧ ((v.sh.families other).is_active ≠ 0 ∨ n = 0 →
          male_fight_start other now e1 e2 v = (false, found, nested_locks first second n))
      ∧ ((v.sh.families other).is_active = 0 →
          male_fight_start other now e1 e2 v = (false, v, []))
      ∧ (0 ≤ other →
          (baby_theft config baby_id other now r eat e1 e2 v).2
            = (found, nested_locks first_lock second_lock n))
      ∧ (other < 0 → baby_theft config baby_id other now r eat e1 e2 v = (false, v, [])) := by
  intro first second first_lock second_lock
  unfold first_failed_check at h
  by_cases h0 : should_continue v = true
  · by_cases h1 : should_continue (e1 v) = true
    · by_cases h2 : should_continue (e2 (e1 v)) = true
      · simp [h0, h1, h2] at h
      · simp only [h0, h1, h2, Bool.not_true, Bool.not_false, if_true, Option.some.injEq,
          Prod.mk.injEq, Bool.false_eq_true, if_false] at h
        obtain ⟨rfl, rfl⟩ := h
        refine ⟨?_, ?_, ?_, ?_, ?_⟩
        · simp [female_fight, h0, h1, h2, nested_locks, first, second]
        · intro ha
          have ha2 : (v.sh.families other).is_active ≠ 0 := by
            rcases ha with ha | ha
            · exact ha
            · exact absurd ha (by decide)
          simp [male_fight_start, h0, h1, h2, ha2, nested_locks, first, second]
        · intro ha
          simp [male_fight_start, h0, ha]
        · intro ht
          simp [baby_theft, h0, h1, h2, ht, nested_locks, first_lock, second_lock]
        · intro ht
          have : ¬ (other ≥ 0) := by omega
          simp [baby_theft, this]
    · simp only [h0, h1, Bool.not_true, Bool.not_false, if_true, Option.some.injEq,
        Prod.mk.injEq, Bool.false_eq_true, if_false] at h
      obtain ⟨rfl, rfl⟩ := h
      refine ⟨?_, ?_, ?_, ?_, ?_⟩
      · simp [female_fight, h0, h1, nested_locks, first]
      · intro ha
        have ha2 : (v.sh.families other).is_active ≠ 0 := by
          rcases ha with ha | ha
          · exact ha
          · exact absurd ha (by decide)
        simp [male_fight_start, h0, h1, ha2, nested_locks, first]
      · intro ha
        simp [male_fight_start, h0, ha]
      · intro ht
        simp [baby_theft, h0, h1, ht, nested_locks, first_lock]
      · intro ht
        have : ¬ (other ≥ 0) := by omega
        simp [baby_theft, this]
  · simp only [h0, Bool.not_false, if_true, Option.some.injEq, Prod.mk.injEq,
      Bool.false_eq_true] at h
    obtain ⟨rfl, rfl⟩ := h
    refine ⟨?_, ?_, ?_, ?_, ?_⟩
    · simp [female_fight, h0, nested_locks]
    · intro _
      simp [male_fight_start, h0, nested_locks]
    · intro _
      simp [male_fight_start, h0]
    · intro _
      simp [baby_theft, h0, nested_locks]
    · intro _
      simp [baby_theft, h0]

/-! ### Thefts and fights -/

theorem LiveLe.refl (v : View) : LiveLe v v :=
  ⟨Or.inl rfl, rfl, rfl, fun _ => rfl⟩

theorem LiveLe.trans {a b c : View} (h1 : LiveLe a b) (h2 : LiveLe b c) : LiveLe a c := by
  obtain ⟨r1, w1, f1, a1⟩ := h1
  obtain ⟨r2, w2, f2, a2⟩ := h2
  refine ⟨?_, w2.trans w1, f2.trans f1, fun k => (a2 k).trans (a1 k)⟩
  rcases r2 with r2 | r2
  · rcases r1 with r1 | r1
    · exact Or.inl (r2.trans r1)
    · exact Or.inr (r2.trans r1)
  · exact Or.inr r2

theorem LiveLe.stays_stopped {v v2 : View} (h : LiveLe v v2)
    (hs : should_continue v = false) : should_continue v2 = false := by
  obtain ⟨r, w, f, a⟩ := h
  simp only [should_continue, Bool.and_eq_false_iff, decide_eq_false_iff_not, not_not,
    ne_eq] at hs ⊢
  rw [w, f, a]
  rcases hs with (hs | hs) | hs
  · rcases r with r | r
    · exact Or.inl (Or.inl (r.trans hs))
    · exact Or.inl (Or.inl r)
  · exact Or.inl (Or.inr hs)
  · exact Or.inr hs

theorem setFam_is_active (v : View) (i k : Int) (f : FamilyStatus → FamilyStatus)
    (hf : ∀ x, (f x).is_active = x.is_active) :
    ((v.setFam i f).sh.families k).is_active = (v.sh.families k).is_active := by
  rw [setFam_families]
  split_ifs with h
  · rw [hf, h]
  · rfl

theorem liveLe_setFam {a v : View} {i : Int} {f : FamilyStatus → FamilyStatus}
    (hf : ∀ x, (f x).is_active = x.is_active) (h : LiveLe a v) : LiveLe a (v.setFam i f) :=
  LiveLe.trans h ⟨Or.inl rfl, rfl, rfl, fun k => setFam_is_active v i k f hf⟩

theorem liveLe_setLoc {a v : View} {f : FamilyLocal → FamilyLocal}
    (h1 : (f v.loc).should_withdraw = v.loc.should_withdraw)
    (h2 : (f v.loc).family_id = v.loc.family_id) (h : LiveLe a v) : LiveLe a (v.setLoc f) :=
  LiveLe.trans h ⟨Or.inl rfl, h1, h2, fun _ => rfl⟩

theorem liveLe_event {a v : View} {now : Int} {fmt : String} {args : List Int}
    (h : LiveLe a v) : LiveLe a (v.event now fmt args) :=
  LiveLe.trans h ⟨Or.inl rfl, rfl, rfl, fun _ => rfl⟩

theorem liveLe_ite {a x y : View} {c : Prop} [Decidable c]
    (hx : LiveLe a x) (hy : LiveLe a y) : LiveLe a (if c then x else y) := by
  split
  · exact hx
  · exact hy

theorem liveLe_male_fight_check_threshold {a v : View} {config : SimConfig} {my_id now : Int}
    (h : LiveLe a v) : LiveLe a (male_fight_check_threshold config my_id now v) := by
  refine LiveLe.trans h ?_
  unfold male_fight_check_threshold
  split
  · exact ⟨Or.inr rfl, rfl, rfl, fun _ => rfl⟩
  · exact LiveLe.refl v

theorem liveLe_male_fight_outcome (config : SimConfig) (my_id opponent_id now : Int)
    (i_win : Bool) (v : View) :
    LiveLe v (male_fight_outcome config my_id opponent_id now i_win v) := by
  simp only [male_fight_outcome]
  repeat' first
    | with_reducible apply liveLe_male_fight_check_threshold
    | with_reducible apply liveLe_event
    | with_reducible apply liveLe_ite
    | with_reducible apply liveLe_setFam
    | with_reducible apply liveLe_setLoc
    | with_reducible exact LiveLe.refl _
    | (intro _; rfl)
    | rfl

theorem liveLe_male_fight_energy (config : SimConfig) (my_id opponent_id now : Int) (v : View) :
    LiveLe v (male_fight_energy config my_id opponent_id now v) := by
  simp only [male_fight_energy]
  repeat' first
    | with_reducible apply liveLe_event
    | with_reducible apply liveLe_ite
    | with_reducible apply liveLe_setFam
    | with_reducible apply liveLe_setLoc
    | with_reducible exact LiveLe.refl _
    | (intro _; rfl)
    | rfl

theorem liveLe_male_fight_end (my_id opponent_id : Int) (v : View) :
    LiveLe v (male_fight_end my_id opponent_id v) := by
  simp only [male_fight_end]
  repeat' first
    | with_reducible apply liveLe_setFam
    | with_reducible apply liveLe_setLoc
    | with_reducible exact LiveLe.refl _
    | (intro _; rfl)
    | rfl

theorem liveLe_male_fight_finish (config : SimConfig) (my_id opponent_id now : Int)
    (i_win : Bool) (v : View) :
    LiveLe v (male_fight_finish config my_id opponent_id now i_win v).1 := by
  simp only [male_fight_finish]
  exact LiveLe.trans (liveLe_male_fight_outcome config my_id opponent_id now i_win v)
    (LiveLe.trans (liveLe_male_fight_energy config my_id opponent_id now _)
      (liveLe_male_fight_end my_id opponent_id _))

theorem male_fight_finish_male_fighting (config : SimConfig) (my_id opponent_id now : Int)
    (i_win : Bool) (v : View) :
    (male_fight_finish config my_id opponent_id now i_win v).1.loc.male_fighting = 0 := by
  simp [male_fight_finish, male_fight_end]

theorem male_fight_signal_male_fighting (my_id opponent_id now : Int) (v : View) :
    (male_fight_signal my_id opponent_id now v).loc.male_fighting = 1 := by
  simp [male_fight_signal]

theorem watchInv_quiet (c : FightWatch) (v2 : View) (h : WatchInv c)
    (hm : v2.loc.male_fighting = c.v.loc.male_fighting)
    (hs : should_continue c.v = false → should_continue v2 = false) :
    WatchInv { c with v := v2 } := by
  obtain ⟨h1, h2⟩ := h
  refine ⟨h1, ?_⟩
  cases hb : c.baby <;> simp only [hb] at h2 ⊢
  · rcases h2 with h2 | h2
    · exact Or.inl (hs h2)
    · exact Or.inr (by rw [hm]; exact h2)
  · rcases h2 with h2 | h2
    · exact Or.inl (hs h2)
    · exact Or.inr (by rw [hm]; exact h2)
  · rcases h2 with h2 | h2
    · exact Or.inl (hs h2)
    · exact Or.inr h2

theorem male_fight_start_stop (opponent_id now : Int) (e1 e2 : Interference) (v : View)
    (hgo : (male_fight_start opponent_id now e1 e2 v).1 = false) :
    (male_fight_start opponent_id now e1 e2 v).2.1 = v
      ∨ (male_fight_start opponent_id now e1 e2 v).2.1 = e1 v
      ∨ (male_fight_start opponent_id now e1 e2 v).2.1 = e2 (e1 v) := by
  unfold male_fight_start at hgo ⊢
  by_cases h0 : should_continue v = true
  · by_cases ha : (v.sh.families opponent_id).is_active = 0
    · simp [h0, ha]
    · by_cases h1 : should_continue (e1 v) = true
      · by_cases h2 : should_continue (e2 (e1 v)) = true
        · simp [h0, ha, h1, h2] at hgo
        · simp [h0, ha, h1, h2]
      · simp [h0, ha, h1]
  · simp [h0]

theorem watchInv_step (config : SimConfig) (baby_id : Int) (c c2 : FightWatch)
    (h : WatchInv c) (hstep : WatchStep config baby_id c c2) : WatchInv c2 := by
  cases hstep with
  | baby inp =>
    obtain ⟨h1, h2⟩ := h
    unfold FightWatch.baby_moves baby_step
    cases hb : c.baby <;> simp only [hb] at h2 ⊢
    · -- at the head of the loop
      by_cases hs : should_continue c.v = true
      · simp only [hs, if_true]
        exact ⟨by simpa using h1, by simpa [hs] using h2⟩
      · simp only [hs]
        exact ⟨by simp only [reduceCtorEq, false_and, if_false]; exact h1, trivial⟩
    · -- in the wait for a fight to start
      by_cases hs : should_continue c.v = true
      · by_cases hm : c.v.loc.male_fighting = 0
        · simp only [hs, hm, and_self, if_true]
          exact ⟨by simpa using h1, by simp [hs, hm]⟩
        · simp only [hs, hm, false_and, if_false]
          refine ⟨by simpa using h1, ?_⟩
          simp only [reduceCtorEq, and_false, if_false]
          rcases h2 with h2 | h2
          · exact Or.inl h2
          · exact Or.inr (h2 hm)
      · have hs2 : should_continue c.v = false := by simpa using hs
        simp only [hs2, Bool.false_eq_true, and_false, if_false]
        exact ⟨by simpa using h1, Or.inl hs2⟩
    · -- past the wait, before the check
      by_cases hs : should_continue c.v = true
      · simp only [hs, Bool.not_true, Bool.false_eq_true, if_false, and_self, if_true]
        rcases h2 with h2 | h2
        · rw [hs] at h2; exact absurd h2 (by decide)
        · exact ⟨h2, trivial⟩
      · have hs2 : should_continue c.v = false := by simpa using hs
        simp only [hs2, Bool.not_false, if_true, reduceCtorEq, and_false, if_false]
        exact ⟨h1, trivial⟩
    · -- at the theft
      simp only [reduceCtorEq, false_and, if_false]
      split_ifs <;> exact ⟨h1, trivial⟩
    · -- in the wait for the fight to end
      simp only [reduceCtorEq, false_and, if_false]
      by_cases hs : should_continue c.v = true
      · by_cases hm : c.v.loc.male_fighting = 0
        · simp only [hs, hm, ne_eq, not_true_eq_false, false_and, if_false]
          exact ⟨h1, Or.inr (fun hx => absurd hm hx)⟩
        · simp only [hs, hm, ne_eq, not_false_eq_true, and_self, if_true]
          exact ⟨h1, trivial⟩
      · have hs2 : should_continue c.v = false := by simpa using hs
        simp only [hs2, Bool.false_eq_true, and_false, if_false]
        exact ⟨h1, Or.inl hs2⟩
    · -- past the loop
      exact ⟨by simpa using h1, trivial⟩
  | guard_start opponent_id now e1 e2 hg hb1 hb2 =>
    unfold FightWatch.guard_starts
    by_cases hgo : (male_fight_start opponent_id now e1 e2 c.v).1 = true
    · simp only [hgo, if_true]
      have hsig := (male_fight_start_go opponent_id now e1 e2 c.v hgo).2.2.2.2
      obtain ⟨h1, _⟩ := h
      refine ⟨Nat.le_succ_of_le h1, ?_⟩
      have hlt : c.thefts < c.fights + 1 := Nat.lt_succ_of_le h1
      cases hb : c.baby <;> simp only [hb]
      · exact Or.inr (fun _ => hlt)
      · exact Or.inr (fun _ => hlt)
      · exact Or.inr hlt
    · have hgo2 : (male_fight_start opponent_id now e1 e2 c.v).1 = false := by simpa using hgo
      simp only [hgo2, Bool.false_eq_true, if_false]
      have h1v := hb1 c.v
      have h2v := hb2 (e1 c.v)
      rcases male_fight_start_stop opponent_id now e1 e2 c.v hgo2 with hv | hv | hv
      · rw [hv]; exact watchInv_quiet c c.v h rfl (fun x => x)
      · rw [hv]; exact watchInv_quiet c _ h h1v.1 h1v.2
      · rw [hv]
        exact watchInv_quiet c _ h (h2v.1.trans h1v.1) (fun x => h2v.2 (h1v.2 x))
  | guard_finish my_id opponent_id now i_win hg =>
    unfold FightWatch.guard_finishes
    obtain ⟨h1, h2⟩ := h
    refine ⟨h1, ?_⟩
    have hmf := male_fight_finish_male_fighting config my_id opponent_id now i_win c.v
    have hlive := liveLe_male_fight_finish config my_id opponent_id now i_win c.v
    cases hb : c.baby <;> simp only [hb] at h2 ⊢
    · exact Or.inr (fun hm => absurd hmf hm)
    · exact Or.inr (fun hm => absurd hmf hm)
    · rcases h2 with h2 | h2
      · exact Or.inl (hlive.stays_stopped h2)
      · exact Or.inr h2
  | others e he => exact watchInv_quiet c (e c.v) h (he c.v).1 (he c.v).2

theorem watchInv_reachable (config : SimConfig) (baby_id : Int) (c : FightWatch)
    (h : WatchReachable config baby_id c) : WatchInv c := by
  induction h with
  | start v => exact ⟨Nat.le_refl 0, Or.inr (fun hm => absurd rfl hm)⟩
  | step c c2 _ hstep ih => exact watchInv_step config baby_id c c2 ih hstep

/-- C9. At most one theft per fight: in every state the guard and an
opportunist of a family can reach from their start, whatever the other
threads do in between, the number of thefts the opportunist has set out on is
at most the number of fights the guard has started. -/
theorem thefts_at_most_fights (config : SimConfig) (baby_id : Int) (c : FightWatch)
    (h : WatchReachable config baby_id c) : c.thefts ≤ c.fights :=
  (watchInv_reachable config baby_id c h).1

/-! ### Deadlock freedom -/

theorem orderedRest_tail (lo hi : Int) (ev : LockEv) (rest : List LockEv)
    (h : OrderedRest lo hi (ev :: rest)) : OrderedRest lo hi rest := by
  simp only [OrderedRest, nested_locks, List.tails, List.cons_append, List.nil_append,
    List.mem_cons, List.cons.injEq, List.mem_singleton, reduceCtorEq, and_false, false_and,
    or_false, false_or, List.mem_nil_iff, List.cons_ne_nil] at h ⊢
  rcases h with (h | h | h | h | h | h | h | h) | h
  all_goals
    obtain ⟨_, rfl⟩ := h
    simp

/-- What the head of an unfinished thread of a two-lock operation can be and
what the thread holds then. -/
theorem orderedRest_head (lo hi : Int) (hne : lo ≠ hi) (t : List LockEv)
    (h : OrderedRest lo hi t) :
    0 ≤ held lo t ∧ 0 ≤ held hi t
      ∧ (t = [] ∨ (∃ k rest, t = LockEv.post k :: rest)
          ∨ (∃ rest, t = LockEv.wait lo :: rest ∧ held lo t = 0 ∧ held hi t = 0)
          ∨ (∃ rest, t = LockEv.wait hi :: rest ∧ held hi t = 0)) := by
  have hne2 : hi ≠ lo := fun h => hne h.symm
  simp only [OrderedRest, nested_locks, List.tails, List.cons_append, List.nil_append,
    List.mem_cons, List.mem_singleton, List.mem_nil_iff, or_false] at h
  rcases h with (h | h | h | h | h | h | h | h | h) | h
  all_goals
    subst h
    simp [held, hne, hne2]

theorem held_nested (lo hi k : Int) (n : Nat) : held k (nested_locks lo hi n) = 0 := by
  match n with
  | 0 => simp [nested_locks, held]
  | 1 => simp [nested_locks, held]
  | n + 2 => simp only [nested_locks, held]; omega

theorem held_twice (lo hi k : Int) :
    held k (nested_locks lo hi 2 ++ nested_locks lo hi 2) = 0 := by
  simp only [nested_locks, List.cons_append, List.nil_append, held]
  omega

theorem orderedRest_nested (lo hi : Int) (n : Nat) : OrderedRest lo hi (nested_locks lo hi n) := by
  match n with
  | 0 => left; simp [nested_locks, List.tails]
  | 1 => right; rfl
  | n + 2 => left; simp [nested_locks, List.tails]

theorem orderedRest_twice (lo hi : Int) :
    OrderedRest lo hi (nested_locks lo hi 2 ++ nested_locks lo hi 2) := by
  left
  simp [nested_locks, List.tails]

theorem sum_map_set (f : List LockEv → Int) :
    ∀ (l : List (List LockEv)) (i : Nat) (old new : List LockEv), l[i]? = some old →
      ((l.set i new).map f).sum = (l.map f).sum - f old + f new := by
  intro l
  induction l with
  | nil => intro i old new h; simp at h
  | cons a rest ih =>
    intro i old new h
    cases i with
    | zero =>
      simp only [List.getElem?_cons_zero, Option.some.injEq] at h
      subst h
      simp only [List.set_cons_zero, List.map_cons, List.sum_cons]
      omega
    | succ j =>
      simp only [List.getElem?_cons_succ] at h
      simp only [List.set_cons_succ, List.map_cons, List.sum_cons, ih j old new h]
      omega

theorem sum_length_set :
    ∀ (l : List (List LockEv)) (i : Nat) (ev : LockEv) (rest : List LockEv),
      l[i]? = some (ev :: rest) →
      ((l.set i rest).map List.length).sum + 1 = (l.map List.length).sum := by
  intro l
  induction l with
  | nil => intro i ev rest h; simp at h
  | cons a tl ih =>
    intro i ev rest h
    cases i with
    | zero =>
      simp only [List.getElem?_cons_zero, Option.some.injEq] at h
      subst h
      simp only [List.set_cons_zero, List.map_cons, List.sum_cons, List.length_cons]
      omega
    | succ j =>
      simp only [List.getElem?_cons_succ] at h
      have := ih j ev rest h
      simp only [List.set_cons_succ, List.map_cons, List.sum_cons]
      omega

theorem exists_held_pos (k : Int) :
    ∀ (l : List (List LockEv)), (∀ t ∈ l, 0 ≤ held k t) → 1 ≤ held_total k l →
      ∃ t ∈ l, 1 ≤ held k t := by
  intro l
  induction l with
  | nil => intro _ h; simp [held_total] at h
  | cons a rest ih =>
    intro hnn hsum
    by_cases ha : 1 ≤ held k a
    · exact ⟨a, List.mem_cons_self _ _, ha⟩
    · have h0 := hnn a (List.mem_cons_self _ _)
      have hrest : 1 ≤ held_total k rest := by
        simp only [held_total, List.map_cons, List.sum_cons] at hsum ⊢
        omega
      obtain ⟨t, ht, hk⟩ := ih (fun t ht => hnn t (List.mem_cons_of_mem _ ht)) hrest
      exact ⟨t, List.mem_cons_of_mem _ ht, hk⟩

/-- What a step of the lock system is. -/
theorem lock_step_some (i : Nat) (st st2 : LockSys) (h : lock_step i st = some st2) :
    ∃ ev rest, st.threads[i]? = some (ev :: rest) ∧ st2.threads = st.threads.set i rest
      ∧ ((∃ k, ev = LockEv.wait k ∧ 0 < st.sem k ∧ st2.sem = setAt st.sem k (st.sem k - 1))
        ∨ (∃ k, ev = LockEv.post k ∧ st2.sem = setAt st.sem k (st.sem k + 1))) := by
  unfold lock_step at h
  split at h
  · rename_i k rest hth
    split_ifs at h with hpos
    simp only [Option.some.injEq] at h
    subst h
    exact ⟨LockEv.wait k, rest, hth, rfl, Or.inl ⟨k, rfl, hpos, rfl⟩⟩
  · rename_i k rest hth
    simp only [Option.some.injEq] at h
    subst h
    exact ⟨LockEv.post k, rest, hth, rfl, Or.inr ⟨k, rfl, rfl⟩⟩
  · exact absurd h (by simp)

theorem lock_step_post (st : LockSys) (t : List LockEv) (k : Int) (rest : List LockEv)
    (ht : t ∈ st.threads) (hh : t = LockEv.post k :: rest) : ∃ i st2, lock_step i st = some st2 := by
  obtain ⟨i, hi⟩ := List.getElem?_of_mem ht
  have hs : lock_step i st
      = some { sem := setAt st.sem k (st.sem k + 1), threads := st.threads.set i rest } := by
    unfold lock_step
    rw [hi, hh]
  exact ⟨i, _, hs⟩

theorem lock_step_wait (st : LockSys) (t : List LockEv) (k : Int) (rest : List LockEv)
    (ht : t ∈ st.threads) (hh : t = LockEv.wait k :: rest) (hpos : 0 < st.sem k) :
    ∃ i st2, lock_step i st = some st2 := by
  obtain ⟨i, hi⟩ := List.getElem?_of_mem ht
  have hs : lock_step i st
      = some { sem := setAt st.sem k (st.sem k - 1), threads := st.threads.set i rest } := by
    unfold lock_step
    rw [hi, hh]
    simp only [hpos, if_true]
  exact ⟨i, _, hs⟩

theorem lockInv_step (lo hi : Int) (total n i : Nat) (st st2 : LockSys)
    (hinv : LockInv lo hi total n st) (hstep : lock_step i st = some st2) :
    LockInv lo hi total (n + 1) st2 := by
  obtain ⟨hshape, hsem, hrem⟩ := hinv
  obtain ⟨ev, rest, hth, hthreads, hev⟩ := lock_step_some i st st2 hstep
  have hmem : ev :: rest ∈ st.threads := List.getElem?_mem hth
  refine ⟨?_, ?_, ?_⟩
  · intro t ht
    rw [hthreads] at ht
    rcases List.mem_or_eq_of_mem_set ht with h | h
    · exact hshape t h
    · rw [h]; exact orderedRest_tail lo hi ev rest (hshape _ hmem)
  · intro k
    have hk := hsem k
    simp only [held_total] at hk ⊢
    rw [hthreads, sum_map_set (held k) st.threads i (ev :: rest) rest hth]
    rcases hev with ⟨j, rfl, _, hs⟩ | ⟨j, rfl, hs⟩
    · rw [hs]
      simp only [setAt, held]
      split_ifs with h1 h2 h2
      · subst h1; omega
      · exact absurd h1.symm h2
      · exact absurd h2.symm h1
      · omega
    · rw [hs]
      simp only [setAt, held]
      split_ifs with h1 h2 h2
      · subst h1; omega
      · exact absurd h1.symm h2
      · exact absurd h2.symm h1
      · omega
  · have := sum_length_set st.threads i ev rest hth
    simp only [remaining] at hrem ⊢
    rw [hthreads]
    omega

theorem lockInv_progress (lo hi : Int) (hne : lo ≠ hi) (total n : Nat) (st : LockSys)
    (hinv : LockInv lo hi total n st) :
    all_done st ∨ ∃ i st2, lock_step i st = some st2 := by
  obtain ⟨hshape, hsem, _⟩ := hinv
  by_cases hdone : all_done st
  · exact Or.inl hdone
  right
  simp only [all_done, not_forall] at hdone
  obtain ⟨t0, ht0, hne0⟩ := hdone
  have hnn : ∀ k, k = lo ∨ k = hi → ∀ t ∈ st.threads, 0 ≤ held k t := by
    intro k hk t ht
    have := orderedRest_head lo hi hne t (hshape t ht)
    rcases hk with rfl | rfl
    · exact this.1
    · exact this.2.1
  -- a thread blocked on the second lock: the holder of that lock can release it
  have hhi : ∀ t ∈ st.threads, ∀ rest, t = LockEv.wait hi :: rest →
      ∃ i st2, lock_step i st = some st2 := by
    intro t ht rest hh
    by_cases hpos : 0 < st.sem hi
    · exact lock_step_wait st t hi rest ht hh hpos
    · have hk := hsem hi
      obtain ⟨t2, ht2, hheld⟩ := exists_held_pos hi st.threads (hnn hi (Or.inr rfl)) (by omega)
      obtain ⟨_, _, hhead⟩ := orderedRest_head lo hi hne t2 (hshape t2 ht2)
      rcases hhead with h | ⟨k, r, h⟩ | ⟨r, _, _, h⟩ | ⟨r, _, h⟩
      · rw [h] at hheld; simp [held] at hheld
      · exact lock_step_post st t2 k r ht2 h
      · omega
      · omega
  obtain ⟨_, _, hhead⟩ := orderedRest_head lo hi hne t0 (hshape t0 ht0)
  rcases hhead with h | ⟨k, r, h⟩ | ⟨r, h, _, _⟩ | ⟨r, h, _⟩
  · exact absurd h hne0
  · exact lock_step_post st t0 k r ht0 h
  · by_cases hpos : 0 < st.sem lo
    · exact lock_step_wait st t0 lo r ht0 h hpos
    · have hk := hsem lo
      obtain ⟨t1, ht1, hheld⟩ := exists_held_pos lo st.threads (hnn lo (Or.inl rfl)) (by omega)
      obtain ⟨_, _, hhead1⟩ := orderedRest_head lo hi hne t1 (hshape t1 ht1)
      rcases hhead1 with h1 | ⟨k, r1, h1⟩ | ⟨r1, _, h1, _⟩ | ⟨r1, h1, _⟩
      · rw [h1] at hheld; simp [held] at hheld
      · exact lock_step_post st t1 k r1 ht1 h1
      · omega
      · exact hhi t1 ht1 r1 h1
  · exact hhi t0 ht0 r h

theorem remaining_zero (st : LockSys) (h : remaining st = 0) : all_done st := by
  intro t ht
  have hle : t.length ≤ remaining st :=
    List.single_le_sum (fun _ _ => Nat.zero_le _) _ (List.mem_map_of_mem List.length ht)
  exact List.eq_nil_of_length_eq_zero (by omega)

/-- The lock operations of a two-lock operation between two families are
nested acquisitions in the order of the ids. -/
theorem fightTrace_shape (a b : Int) (hab : a ≠ b) (t : List LockEv) (h : FightTrace a b t) :
    (∃ n, t = nested_locks (min a b) (max a b) n)
      ∨ t = nested_locks (min a b) (max a b) 2 ++ nested_locks (min a b) (max a b) 2 := by
  obtain ⟨config, other, now, now2, baby_id, i_win, eat, r, e1, e2, window, v, hids, ht⟩ := h
  have hne : v.loc.family_id ≠ other := by
    rcases hids with ⟨h1, h2⟩ | ⟨h1, h2⟩
    · rw [h1, h2]; exact hab
    · rw [h1, h2]; exact fun h => hab h.symm
  have hmin : min v.loc.family_id other = min a b := by
    rcases hids with ⟨h1, h2⟩ | ⟨h1, h2⟩
    · rw [h1, h2]
    · rw [h1, h2, min_comm]
  have hmax : max v.loc.family_id other = max a b := by
    rcases hids with ⟨h1, h2⟩ | ⟨h1, h2⟩
    · rw [h1, h2]
    · rw [h1, h2, max_comm]
  have htr := two_lock_traces config other now now2 baby_id i_win eat r e1 e2 window v v hne
  simp only [hmin, hmax] at htr
  obtain ⟨_, hf, _, _, hm, hb⟩ := htr
  rcases ht with ht | ht | ht
  · obtain ⟨n, hn⟩ := hf
    exact Or.inl ⟨n, ht.trans hn⟩
  · obtain ⟨n, hn | hn⟩ := hm
    · exact Or.inl ⟨n, ht.trans hn⟩
    · exact Or.inr (ht.trans hn)
  · obtain ⟨n, hn⟩ := hb
    exact Or.inl ⟨n, ht.trans hn⟩

theorem lockInv_run (a b : Int) (hab : a ≠ b) (threads : List (List LockEv))
    (hth : ∀ t ∈ threads, FightTrace a b t) (n : Nat) (st : LockSys)
    (hrun : LockRun threads n st) :
    LockInv (min a b) (max a b) (remaining (lock_start threads)) n st := by
  induction hrun with
  | start =>
    have hshape : ∀ t ∈ threads, OrderedRest (min a b) (max a b) t ∧ ∀ k, held k t = 0 := by
      intro t ht
      rcases fightTrace_shape a b hab t (hth t ht) with ⟨m, hm⟩ | hm
      · rw [hm]; exact ⟨orderedRest_nested _ _ m, fun k => held_nested _ _ k m⟩
      · rw [hm]; exact ⟨orderedRest_twice _ _, fun k => held_twice _ _ k⟩
    refine ⟨fun t ht => (hshape t ht).1, ?_, rfl⟩
    intro k
    have hz : held_total k threads = 0 := by
      simp only [held_total]
      apply List.sum_eq_zero
      intro x hx
      rw [List.mem_map] at hx
      obtain ⟨t, ht, rfl⟩ := hx
      exact (hshape t ht).2 k
    simp only [lock_start, hz]
    rfl
  | step n i st st2 _ hstep ih => exact lockInv_step _ _ _ n i st st2 ih hstep

/-- C5. Deadlock freedom: take any number of two-lock operations between two
distinct families `a` and `b` (runs of `female_fight`, `male_fight` or the
opportunist's theft, requested from either side), each thread performing its
basket-lock operations in program order on semaphores that start at 1.  Then
in every state any schedule reaches after `n` steps, either every operation
has completed or some thread can take its next step (no schedule hangs),
every step lowers the number of lock operations still to do by one, and
`n` steps plus what is still to do make up the total at the start; so after
as many steps as there are lock operations all operations have completed. -/
theorem two_lock_operations_complete (a b : Int) (hab : a ≠ b)
    (threads : List (List LockEv)) (hth : ∀ t ∈ threads, FightTrace a b t)
    (n : Nat) (st : LockSys) (hrun : LockRun threads n st) :
    (all_done st ∨ ∃ i st2, lock_step i st = some st2)
      ∧ (∀ i st2, lock_step i st = some st2 → remaining st2 + 1 = remaining st)
      ∧ remaining st + n = remaining (lock_start threads)
      ∧ (n = remaining (lock_start threads) → all_done st) := by
  have hinv := lockInv_run a b hab threads hth n st hrun
  have hne : min a b ≠ max a b := by
    rcases lt_or_gt_of_ne hab with h | h
    · rw [min_eq_left (le_of_lt h), max_eq_right (le_of_lt h)]; exact hab
    · rw [min_eq_right (le_of_lt h), max_eq_left (le_of_lt h)]; exact fun x => hab x.symm
  refine ⟨lockInv_progress _ _ hne _ n st hinv, ?_, hinv.2.2, ?_⟩
  · intro i st2 hstep
    have h2 := (lockInv_step _ _ _ n i st st2 hinv hstep).2.2
    have h1 := hinv.2.2
    omega
  · intro hn
    have h1 := hinv.2.2
    exact remaining_zero st (by omega)

/-- C2. The code against conservation: in a grid of two rows and one column
seeded with five units, collector 0 and then collector 1 each collect two
units and move to the exit cell; collector 0 fights collector 1 there, wins
the two units and deposits four; collector 1, whose local mirror still says
two, deposits two as well.  The units accounted for are 5 at the start and
after each of the first three passes, and 7 after the fourth, when no lock is
held: one in the grid, four and two in the baskets. -/
theorem conservation_broken_by_stale_mirror :
    accounted small_world = 5
      ∧ accounted small_world_1 = 5
      ∧ accounted small_world_2 = 5
      ∧ accounted small_world_3 = 5
      ∧ (small_world_3.sh.families 1).female_collected = 0
      ∧ (small_world_3.locals 1).female_collected = 2
      ∧ accounted small_world_4 = 7
      ∧ small_world_4.sh.total_bananas_in_maze = 1
      ∧ (small_world_4.sh.families 0).basket_bananas = 4
      ∧ (small_world_4.sh.families 1).basket_bananas = 2 := by
  decide

/-! ### The theorems at concrete inputs -/

theorem benign_id : Benign id :=
  fun _ => ⟨rfl, fun h => h⟩

theorem ring_buffer_correct_witness :
    (∀ i, (zeroed_shared.recent_events i).message = [])
      ∧ zeroed_shared.event_head = 0
      ∧ (∀ w ∈ sample_writes, w.2 ≠ [])
      ∧ (display_events (add_shared_events zeroed_shared sample_writes)).length = MAX_EVENTS
      ∧ display_events (add_shared_events zeroed_shared sample_writes)
          = (sample_writes.map
              (fun w => event_entry zeroed_shared.start_time w.1 w.2)).drop 2 :=
  ⟨fun _ => rfl, rfl, by decide,
    (ring_buffer_correct zeroed_shared (fun _ => rfl) rfl sample_writes (by decide)).2.2.1
      (by decide),
    (ring_buffer_correct zeroed_shared (fun _ => rfl) rfl sample_writes (by decide)).1⟩

theorem male_fight_basket_outcome_witness :
    (basket_scene 3 4).loc.family_id ≠ 1
      ∧ (male_fight_start 1 100 id id (basket_scene 3 4)).1 = true
      ∧ ((male_fight two_family_config 1 100 101 true id id id
          (basket_scene 3 4)).1.sh.families 1).basket_bananas = 0 :=
  ⟨by decide, by decide,
    (male_fight_basket_outcome two_family_config 1 100 101 true id id id (basket_scene 3 4)
      (by decide) (by decide)).1⟩

theorem basket_locks_ordered_witness :
    (basket_scene 3 4).loc.family_id ≠ 1
      ∧ (male_fight_finish two_family_config (basket_scene 3 4).loc.family_id 1 101 true
          (basket_scene 3 4)).2
        = nested_locks (min (basket_scene 3 4).loc.family_id 1)
            (max (basket_scene 3 4).loc.family_id 1) 2 :=
  ⟨by decide,
    (basket_locks_ordered two_family_config 1 100 101 0 true true 0 id id id
      (basket_scene 3 4) (basket_scene 3 4) (by decide)).2.2.2.1⟩

theorem first_failed_check_sample :
    first_failed_check timeout_window id (basket_scene 3 4)
      = some (timeout_window (basket_scene 3 4), 1) := by
  have h0 : should_continue (basket_scene 3 4) = true := by decide
  have h1 : should_continue (timeout_window (basket_scene 3 4)) = false := by decide
  simp [first_failed_check, h0, h1]

theorem liveness_abort_clean_witness :
    first_failed_check timeout_window id (basket_scene 3 4)
        = some (timeout_window (basket_scene 3 4), 1)
      ∧ female_fight two_family_config 1 100 true timeout_window id (basket_scene 3 4)
        = (timeout_window (basket_scene 3 4),
            nested_locks
              (if (basket_scene 3 4).loc.family_id < 1 then (basket_scene 3 4).loc.family_id
                else 1)
              (if (basket_scene 3 4).loc.family_id < 1 then 1
                else (basket_scene 3 4).loc.family_id) 1) :=
  ⟨first_failed_check_sample,
    (liveness_abort_clean two_family_config 1 100 0 true true 0 timeout_window id
      (basket_scene 3 4) (timeout_window (basket_scene 3 4)) 1 first_failed_check_sample).1⟩

theorem sample_watch_reachable : WatchReachable two_family_config 0 sample_watch :=
  WatchReachable.step _ _
    (WatchReachable.step _ _
      (WatchReachable.step _ _
        (WatchReachable.step _ _ (WatchReachable.start (basket_scene 3 4))
          (WatchStep.guard_start _ 1 100 id id rfl benign_id benign_id))
        (WatchStep.baby _ sample_watch_input))
      (WatchStep.baby _ sample_watch_input))
    (WatchStep.baby _ sample_watch_input)

theorem thefts_at_most_fights_witness :
    WatchReachable two_family_config 0 sample_watch
      ∧ sample_watch.thefts ≤ sample_watch.fights :=
  ⟨sample_watch_reachable,
    thefts_at_most_fights two_family_config 0 sample_watch sample_watch_reachable⟩

theorem sample_threads_fights : ∀ t ∈ sample_threads, FightTrace 0 1 t := by
  intro t ht
  simp only [sample_threads, List.mem_cons, List.mem_singleton, List.mem_nil_iff,
    or_false] at ht
  rcases ht with rfl | rfl
  · exact ⟨two_family_config, 1, 100, 101, 0, true, true, 0, id, id, id, basket_scene 3 4,
      Or.inl ⟨rfl, rfl⟩, Or.inr (Or.inl rfl)⟩
  · exact ⟨small_config, 0, 2, 2, 0, true, true, 0, id, id, id, small_world_2.view 1,
      Or.inr ⟨rfl, rfl⟩, Or.inl rfl⟩

theorem sample_lock_run : LockRun sample_threads 1 sample_lock_state :=
  LockRun.step 0 0 (lock_start sample_threads) sample_lock_state LockRun.start rfl

theorem two_lock_operations_complete_witness :
    (0 : Int) ≠ 1
      ∧ (∀ t ∈ sample_threads, FightTrace 0 1 t)
      ∧ LockRun sample_threads 1 sample_lock_state
      ∧ (all_done sample_lock_state ∨ ∃ i st2, lock_step i sample_lock_state = some st2)
      ∧ remaining sample_lock_state + 1 = remaining (lock_start sample_threads) :=
  ⟨by decide, sample_threads_fights, sample_lock_run,
    (two_lock_operations_complete 0 1 (by decide) sample_threads sample_threads_fights 1
      sample_lock_state sample_lock_run).1,
    (two_lock_operations_complete 0 1 (by decide) sample_threads sample_threads_fights 1
      sample_lock_state sample_lock_run).2.2.1⟩

/-! ### The basket and the grid -/

/-- C19. `add_to_basket` combines the delta with the shared value: when
`should_continue` holds, the family's shared basket becomes the shared value
found under the lock plus `amount`, whatever the local mirror held, the local
mirror and the returned total are that same number, and the status of every
other family is what was found; when `should_continue` does not hold, nothing
changes and the local mirror's value is returned. -/
theorem add_to_basket_combines (amount : Int) (e : Interference) (v : View) :
    (should_continue v = true →
        ((add_to_basket amount e v).1.sh.families v.loc.family_id).basket_bananas
            = ((e v).sh.families v.loc.family_id).basket_bananas + amount
          ∧ (add_to_basket amount e v).1.loc.basket_bananas
            = ((e v).sh.families v.loc.family_id).basket_bananas + amount
          ∧ (add_to_basket amount e v).2
            = ((e v).sh.families v.loc.family_id).basket_bananas + amount
          ∧ ∀ k, k ≠ v.loc.family_id →
              (add_to_basket amount e v).1.sh.families k = (e v).sh.families k)
      ∧ (should_continue v = false →
          add_to_basket amount e v = (v, v.loc.basket_bananas)) := by
  constructor
  · intro h
    simp only [add_to_basket, h, Bool.not_true, Bool.false_eq_true, if_false]
    refine ⟨?_, ?_, ?_, ?_⟩
    · simp
    · simp
    · simp
    · intro k hk
      simp [hk]
  · intro h
    simp [add_to_basket, h]

/-- C14. `take_bananas` on a valid cell: for an in-bounds cell and a count
that is not negative, `take_bananas` returns the smaller of the count and the
cell's bananas, lowers the cell's bananas and `total_bananas_in_maze` by
exactly that amount, and leaves the rest of that cell, every other cell and
every other field of the shared block unchanged. -/
theorem take_bananas_valid (shared : SharedData) (x y count : Int)
    (hv : is_valid_cell shared x y = true) (_hc : 0 ≤ count) :
    (take_bananas shared x y count).2 = min count (shared.maze x y).bananas
      ∧ ((take_bananas shared x y count).1.maze x y).bananas
          = (shared.maze x y).bananas - (take_bananas shared x y count).2
      ∧ (take_bananas shared x y count).1.total_bananas_in_maze
          = shared.total_bananas_in_maze - (take_bananas shared x y count).2
      ∧ ((take_bananas shared x y count).1.maze x y).is_obstacle
          = (shared.maze x y).is_obstacle
      ∧ ((take_bananas shared x y count).1.maze x y).females_in_cell
          = (shared.maze x y).females_in_cell
      ∧ (∀ x2 y2, x2 ≠ x ∨ y2 ≠ y →
          (take_bananas shared x y count).1.maze x2 y2 = shared.maze x2 y2)
      ∧ (take_bananas shared x y count).1
          = { shared with
              maze := (take_bananas shared x y count).1.maze
              total_bananas_in_maze :=
                (take_bananas shared x y count).1.total_bananas_in_maze } := by
  have hr : take_bananas shared x y count
      = ({ shared with
            maze := setAt shared.maze x (setAt (shared.maze x) y
              { shared.maze x y with
                bananas := (shared.maze x y).bananas - min count (shared.maze x y).bananas })
            total_bananas_in_maze :=
              shared.total_bananas_in_maze - min count (shared.maze x y).bananas },
          min count (shared.maze x y).bananas) := by
    have hmin : (if (shared.maze x y).bananas ≥ count then count else (shared.maze x y).bananas)
        = min count (shared.maze x y).bananas := by
      split_ifs with h
      · exact (min_eq_left h).symm
      · exact (min_eq_right (le_of_lt (not_le.mp h))).symm
    simp only [take_bananas, hv, Bool.not_true, Bool.false_eq_true, if_false, hmin]
  rw [hr]
  refine ⟨rfl, ?_, rfl, ?_, ?_, ?_, rfl⟩
  · simp [setAt]
  · simp [setAt]
  · simp [setAt]
  · intro x2 y2 h
    by_cases h1 : x2 = x
    · by_cases h2 : y2 = y
      · exact absurd h (by simp [h1, h2])
      · simp [setAt, h1, h2]
    · simp [setAt, h1]

/-- C15, the claim as stated fails: `take_bananas` has no obstacle test.  On
an obstacle cell that holds two units a request for one unit returns 1 and
lowers the cell and the total; on an obstacle cell that holds nothing a
request for `-1` returns `-1` and raises the cell and the total to 1. -/
theorem take_bananas_obstacle_not_rejected :
    is_valid_cell blocked_grid_seeded 1 0 = true
      ∧ is_obstacle blocked_grid_seeded 1 0 = 1
      ∧ (take_bananas blocked_grid_seeded 1 0 1).2 = 1
      ∧ ((take_bananas blocked_grid_seeded 1 0 1).1.maze 1 0).bananas = 1
      ∧ (take_bananas blocked_grid_seeded 1 0 1).1.total_bananas_in_maze = 1
      ∧ is_valid_cell blocked_grid 1 0 = true
      ∧ is_obstacle blocked_grid 1 0 = 1
      ∧ (blocked_grid.maze 1 0).bananas = 0
      ∧ (take_bananas blocked_grid 1 0 (-1)).2 = -1
      ∧ ((take_bananas blocked_grid 1 0 (-1)).1.maze 1 0).bananas = 1
      ∧ (take_bananas blocked_grid 1 0 (-1)).1.total_bananas_in_maze = 1 := by
  decide

theorem take_bananas_nothing (shared : SharedData) (x y count : Int)
    (hv : is_valid_cell shared x y = true) (hb : (shared.maze x y).bananas = 0)
    (hc : 0 ≤ count) :
    (take_bananas shared x y count).2 = 0
      ∧ (take_bananas shared x y count).1.maze = shared.maze
      ∧ (take_bananas shared x y count).1.total_bananas_in_maze
          = shared.total_bananas_in_maze := by
  have ht : (if (shared.maze x y).bananas ≥ count then count else (shared.maze x y).bananas)
      = 0 := by
    rw [hb]
    split_ifs with h
    · omega
    · rfl
  simp only [take_bananas, hv, Bool.not_true, Bool.false_eq_true, if_false, ht, sub_zero,
    true_and, and_true]
  funext x2 y2
  by_cases h1 : x2 = x
  · by_cases h2 : y2 = y
    · simp [setAt, h1, h2]
    · simp [setAt, h1, h2]
  · simp [setAt, h1]

/-- C15 as amended: for a coordinate out of bounds and every count,
`take_bananas` returns 0 and changes nothing at all; for an obstacle cell of a
grid that keeps the cell invariant (so the cell holds no bananas) and every
count that is not negative, it returns 0 and leaves the grid and
`total_bananas_in_maze` unchanged. -/
theorem take_bananas_rejects (shared : SharedData) (x y count : Int) :
    (is_valid_cell shared x y = false → take_bananas shared x y count = (shared, 0))
      ∧ (GridInv shared → is_valid_cell shared x y = true →
          (shared.maze x y).is_obstacle ≠ 0 → 0 ≤ count →
          (take_bananas shared x y count).2 = 0
            ∧ (take_bananas shared x y count).1.maze = shared.maze
            ∧ (take_bananas shared x y count).1.total_bananas_in_maze
                = shared.total_bananas_in_maze) := by
  constructor
  · intro h
    simp [take_bananas, h]
  · intro hinv hv hob hc
    exact take_bananas_nothing shared x y count hv (hinv x y hv hob).1 hc

/-- What `add_to_basket` does when its check passes. -/
theorem add_to_basket_go (amount : Int) (e : Interference) (v : View)
    (h : should_continue v = true) :
    add_to_basket amount e v
      = ((((e v).setLoc (fun l =>
              { l with basket_bananas := ((e v).sh.families v.loc.family_id).basket_bananas })).setLoc
            (fun l => { l with basket_bananas := l.basket_bananas + amount })).setFam
          v.loc.family_id
          (fun f =>
            { f with
              basket_bananas := ((e v).sh.families v.loc.family_id).basket_bananas + amount }),
        ((e v).sh.families v.loc.family_id).basket_bananas + amount) := by
  simp only [add_to_basket, h, Bool.not_true, Bool.false_eq_true, if_false]
  rfl

theorem female_check_threshold_fields (config : SimConfig) (new_total now : Int) (v : View) :
    (female_check_threshold config new_total now v).sh.families = v.sh.families
      ∧ (new_total ≥ config.winning_basket_threshold →
          (female_check_threshold config new_total now v).sh.simulation_running = 0
            ∧ (female_check_threshold config new_total now v).sh.termination_reason
                = TERM_BASKET_THRESHOLD
            ∧ (female_check_threshold config new_total now v).sh.winning_family
                = v.loc.family_id)
      ∧ (new_total < config.winning_basket_threshold →
          female_check_threshold config new_total now v = v) := by
  unfold female_check_threshold
  refine ⟨?_, ?_, ?_⟩
  · split <;> rfl
  · intro h
    simp only [h, if_true]
    exact ⟨rfl, rfl, rfl⟩
  · intro h
    have : ¬ new_total ≥ config.winning_basket_threshold := not_le.mpr h
    simp only [this, if_false]

/-- The deposit that goes through: when `should_continue` holds at the first
check of `add_to_basket` (the simulation is running, the family is active and
has not withdrawn) and the collector carries `c > 0` units, the deposit block
of `female_thread` raises the family's shared basket
to the value found under the lock plus `c`; if that total reaches
`winning_basket_threshold`, then afterwards `simulation_running = 0`,
`termination_reason = TERM_BASKET_THRESHOLD` and `winning_family` is the
family; if it is below the threshold, the three fields are what the deposit
found. -/
theorem win_on_deposit (config : SimConfig) (now : Int) (e : Interference) (family_id : Int)
    (v : View) (hsc : should_continue v = true) (hid : v.loc.family_id = family_id)
    (hid2 : (e v).loc.family_id = family_id) (_hc : v.loc.female_collected > 0) :
    ((female_deposit config now e family_id v).sh.families family_id).basket_bananas
        = ((e v).sh.families family_id).basket_bananas + v.loc.female_collected
      ∧ (((female_deposit config now e family_id v).sh.families family_id).basket_bananas
            ≥ config.winning_basket_threshold →
          (female_deposit config now e family_id v).sh.simulation_running = 0
            ∧ (female_deposit config now e family_id v).sh.termination_reason
                = TERM_BASKET_THRESHOLD
            ∧ (female_deposit config now e family_id v).sh.winning_family = family_id)
      ∧ (((female_deposit config now e family_id v).sh.families family_id).basket_bananas
            < config.winning_basket_threshold →
          (female_deposit config now e family_id v).sh.simulation_running
              = (e v).sh.simulation_running
            ∧ (female_deposit config now e family_id v).sh.termination_reason
                = (e v).sh.termination_reason
            ∧ (female_deposit config now e family_id v).sh.winning_family
                = (e v).sh.winning_family) := by
  have hd : ∃ W : View,
      female_deposit config now e family_id v
        = female_check_threshold config
            (((e v).sh.families family_id).basket_bananas + v.loc.female_collected) now W
      ∧ (W.sh.families family_id).basket_bananas
          = ((e v).sh.families family_id).basket_bananas + v.loc.female_collected
      ∧ W.sh.simulation_running = (e v).sh.simulation_running
      ∧ W.sh.termination_reason = (e v).sh.termination_reason
      ∧ W.sh.winning_family = (e v).sh.winning_family
      ∧ W.loc.family_id = (e v).loc.family_id := by
    simp only [female_deposit, add_to_basket_go _ e v hsc, hid]
    exact ⟨_, rfl, by simp, rfl, rfl, rfl, rfl⟩
  obtain ⟨W, hW, hWb, hWr, hWt, hWw, hWf⟩ := hd
  have hf := female_check_threshold_fields config
    (((e v).sh.families family_id).basket_bananas + v.loc.female_collected) now W
  have hbasket : ((female_deposit config now e family_id v).sh.families
      family_id).basket_bananas
      = ((e v).sh.families family_id).basket_bananas + v.loc.female_collected := by
    rw [hW, hf.1, hWb]
  refine ⟨hbasket, ?_, ?_⟩
  · intro h
    rw [hbasket] at h
    rw [hW]
    exact ⟨(hf.2.1 h).1, (hf.2.1 h).2.1, by rw [(hf.2.1 h).2.2, hWf, hid2]⟩
  · intro h
    rw [hbasket] at h
    rw [hW, hf.2.2 h]
    exact ⟨hWr, hWt, hWw⟩

/-- C12. The code against the transfer rule: collector 0 has just won two
units from collector 1, so the shared carried amounts are 4 and 0 while the
local mirror of collector 1 still says 2.  Collector 1 then fights collector
0 and wins: `female_fight` passes its checks, takes the own amount from the
mirror, and leaves the winner with 6 shared units where the two shared
amounts before the fight sum to 4. -/
theorem female_fight_reads_stale_mirror :
    (meet_world_1.sh.families 0).female_collected = 4
      ∧ (meet_world_1.sh.families 1).female_collected = 0
      ∧ (meet_world_1.locals 1).female_collected = 2
      ∧ check_female_collision meet_world_1.sh 0 0 1 = 0
      ∧ first_failed_check id id (meet_world_1.view 1) = none
      ∧ ((female_fight small_config 0 2 true id id (meet_world_1.view 1)).1.sh.families
          1).female_collected = 6
      ∧ ((female_fight small_config 0 2 true id id (meet_world_1.view 1)).1.sh.families
          0).female_collected = 0
      ∧ (meet_world_2.sh.families 1).female_collected = 6
      ∧ (meet_world_2.sh.families 0).female_collected = 0 := by
  refine ⟨by decide, by decide, by decide, by decide, ?_, by decide, by decide, by decide,
    by decide⟩
  have h : should_continue (meet_world_1.view 1) = true := by decide
  simp [first_failed_check, h]

/-- C13. The code against the energy rule of the collector fight: both
collectors have energy 99 and the cost is 5; collector 0 starts the fight and
wins it.  Afterwards the shared energy of collector 0 is 94, and the shared
energy of collector 1, the other participant, is still 99 and not 94. -/
theorem female_fight_charges_initiator_only :
    small_config.female_fight_energy_cost = 5
      ∧ (small_world_2.sh.families 0).female_energy = 99
      ∧ (small_world_2.sh.families 1).female_energy = 99
      ∧ first_failed_check id id (small_world_2.view 0) = none
      ∧ ((female_fight small_config 1 2 true id id (small_world_2.view 0)).1.sh.families
          0).female_energy = 94
      ∧ ((female_fight small_config 1 2 true id id (small_world_2.view 0)).1.sh.families
          1).female_energy = 99
      ∧ ((female_fight small_config 1 2 false id id (small_world_2.view 0)).1.sh.families
          1).female_energy = 99
      ∧ (meet_world_1.sh.families 0).female_energy = 94
      ∧ (meet_world_1.sh.families 1).female_energy = 99 := by
  refine ⟨by decide, by decide, by decide, ?_, by decide, by decide, by decide, by decide,
    by decide⟩
  have h : should_continue (small_world_2.view 0) = true := by decide
  simp [first_failed_check, h]

theorem gridInv_blocked_grid : GridInv blocked_grid := by
  intro x y hv _
  simp only [is_valid_cell, blocked_grid, Bool.and_eq_true, decide_eq_true_eq] at hv
  obtain ⟨⟨⟨h1, h2⟩, h3⟩, h4⟩ := hv
  have hy : y = 0 := by omega
  have hx : x = 0 ∨ x = 1 := by omega
  subst hy
  rcases hx with rfl | rfl
  · exact ⟨rfl, fun _ _ _ => rfl⟩
  · exact ⟨rfl, fun _ _ _ => rfl⟩

theorem take_bananas_valid_witness :
    is_valid_cell small_grid 1 0 = true ∧ (0 : Int) ≤ 7
      ∧ (take_bananas small_grid 1 0 7).2 = min 7 (small_grid.maze 1 0).bananas :=
  ⟨by decide, by decide, (take_bananas_valid small_grid 1 0 7 (by decide) (by decide)).1⟩

theorem take_bananas_rejects_witness :
    GridInv blocked_grid ∧ is_valid_cell blocked_grid 1 0 = true
      ∧ (blocked_grid.maze 1 0).is_obstacle ≠ 0 ∧ (0 : Int) ≤ 3
      ∧ (take_bananas blocked_grid 1 0 3).2 = 0
      ∧ is_valid_cell blocked_grid 5 0 = false
      ∧ take_bananas blocked_grid 5 0 3 = (blocked_grid, 0) :=
  ⟨gridInv_blocked_grid, by decide, by decide, by decide,
    ((take_bananas_rejects blocked_grid 1 0 3).2 gridInv_blocked_grid (by decide) (by decide)
      (by decide)).1,
    by decide, (take_bananas_rejects blocked_grid 5 0 3).1 (by decide)⟩

theorem win_on_deposit_witness :
    should_continue (small_world_2.view 0) = true
      ∧ (small_world_2.view 0).loc.family_id = 0
      ∧ (id (small_world_2.view 0)).loc.family_id = 0
      ∧ (small_world_2.view 0).loc.female_collected > 0
      ∧ ((female_deposit small_config 2 id 0 (small_world_2.view 0)).sh.families
          0).basket_bananas
        = ((id (small_world_2.view 0)).sh.families 0).basket_bananas
          + (small_world_2.view 0).loc.female_collected :=
  ⟨by decide, by decide, by decide, by decide,
    (win_on_deposit small_config 2 id 0 (small_world_2.view 0) (by decide) (by decide)
      (by decide) (by decide)).1⟩

theorem add_to_basket_combines_witness :
    should_continue (small_world_2.view 0) = true
      ∧ (add_to_basket 2 id (small_world_2.view 0)).2
        = ((id (small_world_2.view 0)).sh.families
            (small_world_2.view 0).loc.family_id).basket_bananas + 2 :=
  ⟨by decide, ((add_to_basket_combines 2 id (small_world_2.view 0)).1 (by decide)).2.2.1⟩

/-! ### The cell invariant of the grid -/

theorem setAt_apply {α : Type} (a : Int → α) (i : Int) (v : α) (j : Int) :
    setAt a i v j = if j = i then v else a j := rfl

theorem setCell_apply (maze : Int → Int → MazeCell) (i j : Int) (c : MazeCell) (a b : Int) :
    setCell maze i j c a b = if a = i then (if b = j then c else maze a b) else maze a b := by
  unfold setCell setAt
  by_cases h1 : a = i <;> by_cases h2 : b = j <;> simp [h1, h2]

theorem clear_flags_apply (n : Nat) (f : Int → Int) (k : Int) :
    ((List.range n).foldl (fun g (j : Nat) => setAt g (j : Int) 0) f) k
      = if 0 ≤ k ∧ k < (n : Int) then 0 else f k := by
  induction n with
  | zero =>
    rw [List.range_zero, List.foldl_nil, if_neg (by omega)]
  | succ n ih =>
    rw [List.range_succ, List.foldl_append, List.foldl_cons, List.foldl_nil, setAt_apply, ih]
    split_ifs <;> first | rfl | (exfalso; omega)

theorem init_cell_bananas (rnd : MazeRandom) (i j : Int) (cell : MazeCell) :
    (init_cell rnd i j cell).bananas = 0 := by
  unfold init_cell
  split_ifs <;> rfl

theorem init_cell_flags (rnd : MazeRandom) (i j : Int) (cell : MazeCell) (k : Int)
    (h0 : 0 ≤ k) (h1 : k < (MAX_FAMILIES : Int)) :
    (init_cell rnd i j cell).females_in_cell k = 0 := by
  have h : ((List.range MAX_FAMILIES).foldl (fun g (j : Nat) => setAt g (j : Int) 0)
      cell.females_in_cell) k = 0 := by
    rw [clear_flags_apply, if_pos ⟨h0, h1⟩]
  unfold init_cell
  split_ifs <;> exact h

theorem init_row_apply (rnd : MazeRandom) (maze : Int → Int → MazeCell) (i : Int) (n : Nat)
    (a b : Int) :
    ((List.range n).foldl
        (fun m (j : Nat) => setCell m i (j : Int) (init_cell rnd i (j : Int) (m i (j : Int))))
        maze) a b
      = if a = i ∧ 0 ≤ b ∧ b < (n : Int) then init_cell rnd i b (maze i b) else maze a b := by
  induction n generalizing a b with
  | zero =>
    rw [List.range_zero, List.foldl_nil, if_neg (by omega)]
  | succ n ih =>
    rw [List.range_succ, List.foldl_append, List.foldl_cons, List.foldl_nil, setCell_apply]
    simp only [ih]
    split_ifs <;> first | rfl | (exfalso; omega) | (subst_vars; rfl)

theorem init_row_eq (rnd : MazeRandom) (cols : Int) (maze : Int → Int → MazeCell) (i a b : Int) :
    init_row rnd cols maze i a b
      = if a = i ∧ 0 ≤ b ∧ b < cols then init_cell rnd i b (maze i b) else maze a b := by
  unfold init_row
  rw [init_row_apply]
  split_ifs <;> first | rfl | (exfalso; omega)

theorem init_cells_apply (rnd : MazeRandom) (cols : Int) (maze : Int → Int → MazeCell)
    (n : Nat) (a b : Int) :
    ((List.range n).foldl (fun m (i : Nat) => init_row rnd cols m (i : Int)) maze) a b
      = if (0 ≤ a ∧ a < (n : Int)) ∧ 0 ≤ b ∧ b < cols then init_cell rnd a b (maze a b)
        else maze a b := by
  induction n generalizing a b with
  | zero =>
    rw [List.range_zero, List.foldl_nil, if_neg (by omega)]
  | succ n ih =>
    rw [List.range_succ, List.foldl_append, List.foldl_cons, List.foldl_nil, init_row_eq]
    simp only [ih]
    split_ifs with h1 h2 h3 <;> first | rfl | (exfalso; omega) | (rw [h1.1])

theorem init_cells_eq (rnd : MazeRandom) (rows cols : Int) (maze : Int → Int → MazeCell)
    (a b : Int) :
    init_cells rnd rows cols maze a b
      = if (0 ≤ a ∧ a < rows) ∧ 0 ≤ b ∧ b < cols then init_cell rnd a b (maze a b)
        else maze a b := by
  unfold init_cells
  rw [init_cells_apply]
  split_ifs <;> first | rfl | (exfalso; omega)

theorem ensure_passage_bananas (rnd : MazeRandom) (cols : Int) (maze : Int → Int → MazeCell)
    (i a b : Int) :
    (ensure_passage rnd cols maze i a b).bananas = (maze a b).bananas
      ∧ (ensure_passage rnd cols maze i a b).females_in_cell = (maze a b).females_in_cell := by
  unfold ensure_passage
  split_ifs
  · exact ⟨rfl, rfl⟩
  · simp only [setCell_apply]
    split_ifs with h1 h2
    · subst h1 h2
      exact ⟨rfl, rfl⟩
    · exact ⟨rfl, rfl⟩
    · exact ⟨rfl, rfl⟩

theorem ensure_passages_apply (rnd : MazeRandom) (cols : Int) (maze : Int → Int → MazeCell)
    (n : Nat) (a b : Int) :
    (((List.range n).foldl
        (fun m (k : Nat) => ensure_passage rnd cols m ((k : Int) + 1)) maze) a b).bananas
        = (maze a b).bananas
      ∧ (((List.range n).foldl
        (fun m (k : Nat) => ensure_passage rnd cols m ((k : Int) + 1)) maze) a b).females_in_cell
        = (maze a b).females_in_cell := by
  induction n with
  | zero => exact ⟨rfl, rfl⟩
  | succ n ih =>
    rw [List.range_succ, List.foldl_append, List.foldl_cons, List.foldl_nil]
    exact ⟨(ensure_passage_bananas rnd cols _ _ a b).1.trans ih.1,
      (ensure_passage_bananas rnd cols _ _ a b).2.trans ih.2⟩

/-- After the first two loops of `init_maze` every cell of the grid is empty
and has no flag set. -/
theorem init_maze_cells_empty (rnd : MazeRandom) (rows cols : Int)
    (maze : Int → Int → MazeCell) (a b : Int)
    (ha : 0 ≤ a ∧ a < rows) (hb : 0 ≤ b ∧ b < cols) :
    (ensure_passages rnd rows cols (init_cells rnd rows cols maze) a b).bananas = 0
      ∧ ∀ k, 0 ≤ k → k < (MAX_FAMILIES : Int) →
        (ensure_passages rnd rows cols (init_cells rnd rows cols maze) a b).females_in_cell k
          = 0 := by
  unfold ensure_passages
  have h := ensure_passages_apply rnd cols (init_cells rnd rows cols maze) (rows.toNat - 1) a b
  rw [h.1, h.2, init_cells_eq, if_pos ⟨ha, hb⟩]
  exact ⟨init_cell_bananas rnd a b _, fun k h0 h1 => init_cell_flags rnd a b _ k h0 h1⟩

theorem gridInv_iff (s : SharedData) :
    GridInv s ↔ ∀ x y, (0 ≤ x ∧ x < s.maze_rows) → (0 ≤ y ∧ y < s.maze_cols) →
      (s.maze x y).is_obstacle ≠ 0 →
        (s.maze x y).bananas = 0
          ∧ ∀ k, 0 ≤ k → k < (MAX_FAMILIES : Int) → (s.maze x y).females_in_cell k = 0 := by
  unfold GridInv is_valid_cell
  constructor
  · intro h x y hx hy
    exact h x y (by simp [hx.1, hx.2, hy.1, hy.2])
  · intro h x y hv
    simp only [Bool.and_eq_true, decide_eq_true_eq, ge_iff_le] at hv
    exact h x y ⟨hv.1.1.1, hv.1.1.2⟩ ⟨hv.1.2, hv.2⟩

theorem place_banana_inv (config : SimConfig) (rnd : MazeRandom) (k : Nat)
    (st : (Int → Int → MazeCell) × Int) (x y : Int)
    (h : (st.1 x y).is_obstacle ≠ 0 →
      (st.1 x y).bananas = 0
        ∧ ∀ j, 0 ≤ j → j < (MAX_FAMILIES : Int) → (st.1 x y).females_in_cell j = 0) :
    ((place_banana config rnd k st).1 x y).is_obstacle ≠ 0 →
      ((place_banana config rnd k st).1 x y).bananas = 0
        ∧ ∀ j, 0 ≤ j → j < (MAX_FAMILIES : Int) →
          ((place_banana config rnd k st).1 x y).females_in_cell j = 0 := by
  unfold place_banana
  simp only
  split_ifs with hc
  · simp only [setCell_apply]
    split_ifs with h1 h2
    · subst h1 h2
      intro hob
      exact absurd hc.1 hob
    · exact h
    · exact h
  · exact h

theorem place_bananas_inv (config : SimConfig) (rnd : MazeRandom) (fuel : Nat) :
    ∀ (k : Nat) (st : (Int → Int → MazeCell) × Int) (x y : Int),
      ((st.1 x y).is_obstacle ≠ 0 →
        (st.1 x y).bananas = 0
          ∧ ∀ j, 0 ≤ j → j < (MAX_FAMILIES : Int) → (st.1 x y).females_in_cell j = 0) →
      ((place_bananas config rnd fuel k st).1 x y).is_obstacle ≠ 0 →
        ((place_bananas config rnd fuel k st).1 x y).bananas = 0
          ∧ ∀ j, 0 ≤ j → j < (MAX_FAMILIES : Int) →
            ((place_bananas config rnd fuel k st).1 x y).females_in_cell j = 0 := by
  induction fuel with
  | zero => intro k st x y h; exact h
  | succ fuel ih =>
    intro k st x y h
    unfold place_bananas
    split_ifs
    · exact ih (k + 1) _ x y (place_banana_inv config rnd k st x y h)
    · exact h

theorem init_maze_progress_inv (config : SimConfig) (rnd : MazeRandom) (fuel : Nat)
    (shared : SharedData) : GridInv (init_maze_progress config rnd fuel shared) := by
  rw [gridInv_iff]
  intro x y hx hy
  unfold init_maze_progress init_maze_loops
  simp only
  apply place_bananas_inv
  intro _
  exact init_maze_cells_empty rnd config.maze_rows config.maze_cols shared.maze x y hx hy

theorem gridInv_total (s : SharedData) (t : Int) (h : GridInv s) :
    GridInv { s with total_bananas_in_maze := t } := h

theorem take_bananas_inv (g : SharedData) (x y count : Int) (h : GridInv g)
    (hc : 0 ≤ count ∨ (g.maze x y).is_obstacle = 0 ∨ is_valid_cell g x y = false) :
    GridInv (take_bananas g x y count).1 := by
  unfold take_bananas
  by_cases hv : is_valid_cell g x y = true
  · simp only [hv, Bool.not_true, Bool.false_eq_true, if_false]
    intro a b hab hob
    have hab2 : is_valid_cell g a b = true := hab
    change ((setCell g.maze x y _) a b).is_obstacle ≠ 0 at hob
    change ((setCell g.maze x y _) a b).bananas = 0
      ∧ ∀ k, 0 ≤ k → k < (MAX_FAMILIES : Int) → ((setCell g.maze x y _) a b).females_in_cell k = 0
    rw [setCell_apply] at hob ⊢
    by_cases h1 : a = x
    · by_cases h2 : b = y
      · subst h1 h2
        simp only [if_true] at hob ⊢
        have hob2 : (g.maze a b).is_obstacle ≠ 0 := hob
        have hg := h a b hab2 hob2
        have hcount : 0 ≤ count := by
          rcases hc with hc | hc | hc
          · exact hc
          · exact absurd hc hob2
          · rw [hv] at hc; exact absurd hc (by decide)
        refine ⟨?_, hg.2⟩
        show (g.maze a b).bananas - (if (g.maze a b).bananas ≥ count then count
          else (g.maze a b).bananas) = 0
        rw [hg.1]
        split_ifs <;> omega
      · simp only [h1, h2, if_true, if_false] at hob ⊢
        exact h x b (h1 ▸ hab2) hob
    · simp only [h1, if_false] at hob ⊢
      exact h a b hab2 hob
  · have hv2 : is_valid_cell g x y = false := by simpa using hv
    simp only [hv2, Bool.not_false, if_true]
    exact h

theorem set_female_in_cell_inv (g : SharedData) (x y family_id present : Int) (h : GridInv g)
    (hc : present = 0 ∨ (g.maze x y).is_obstacle = 0 ∨ is_valid_cell g x y = false
      ∨ family_id < 0 ∨ family_id ≥ (MAX_FAMILIES : Int)) :
    GridInv (set_female_in_cell g x y family_id present) := by
  unfold set_female_in_cell
  by_cases hv : is_valid_cell g x y = true
  · by_cases hf : family_id < 0 ∨ family_id ≥ (MAX_FAMILIES : Int)
    · simp only [hv, Bool.not_true, Bool.false_eq_true, if_false, hf, if_true]
      exact h
    · simp only [hv, Bool.not_true, Bool.false_eq_true, if_false, hf]
      intro a b hab hob
      have hab2 : is_valid_cell g a b = true := hab
      change ((setCell g.maze x y _) a b).is_obstacle ≠ 0 at hob
      change ((setCell g.maze x y _) a b).bananas = 0
        ∧ ∀ k, 0 ≤ k → k < (MAX_FAMILIES : Int) →
          ((setCell g.maze x y _) a b).females_in_cell k = 0
      rw [setCell_apply] at hob ⊢
      by_cases h1 : a = x
      · by_cases h2 : b = y
        · subst h1 h2
          simp only [if_true] at hob ⊢
          have hob2 : (g.maze a b).is_obstacle ≠ 0 := hob
          have hg := h a b hab2 hob2
          have hp : present = 0 := by
            rcases hc with hc | hc | hc | hc
            · exact hc
            · exact absurd hc hob2
            · rw [hv] at hc; exact absurd hc (by decide)
            · exact absurd hc hf
          refine ⟨hg.1, fun k h0 hk => ?_⟩
          show setAt (g.maze a b).females_in_cell family_id present k = 0
          rw [setAt_apply]
          split_ifs
          · exact hp
          · exact hg.2 k h0 hk
        · simp only [h1, h2, if_true, if_false] at hob ⊢
          exact h x b (h1 ▸ hab2) hob
      · simp only [h1, if_false] at hob ⊢
        exact h a b hab2 hob
  · have hv2 : is_valid_cell g x y = false := by simpa using hv
    simp only [hv2, Bool.not_false, if_true]
    exact h

/-- C16, the claim as stated fails: `blocked_grid` keeps the cell invariant,
and `set_female_in_cell` with `present = 1` on its obstacle cell (1,0) sets a
flag there; `take_bananas` with the count `-1` on that cell leaves one banana
on it. -/
theorem cell_operations_break_invariant :
    GridInv blocked_grid
      ∧ ¬ GridInv (set_female_in_cell blocked_grid 1 0 0 1)
      ∧ ¬ GridInv (take_bananas blocked_grid 1 0 (-1)).1 :=
  ⟨gridInv_blocked_grid,
    fun h => absurd ((h 1 0 (by decide) (by decide)).2 0 (by decide) (by decide)) (by decide),
    fun h => absurd (h 1 0 (by decide) (by decide)).1 (by decide)⟩

/-- C16, amended. The cell invariant (an obstacle cell of the grid holds no
bananas and has no collector flag set) holds after the first two loops of
`init_maze` and after every pass of its placement loop, so also for the block
`init_maze` returns; `take_bananas` keeps it when the count is not negative
(or the cell is no obstacle, or out of bounds); `set_female_in_cell` keeps it
when `present` is 0 or the cell is no obstacle (or the arguments are rejected). -/
theorem grid_invariant_kept (config : SimConfig) (rnd : MazeRandom) (fuel : Nat)
    (shared g : SharedData) (x y count family_id present : Int) :
    GridInv (init_maze_progress config rnd fuel shared)
      ∧ (∀ s, init_maze config rnd fuel shared = some s → GridInv s)
      ∧ (GridInv g →
          (0 ≤ count ∨ (g.maze x y).is_obstacle = 0 ∨ is_valid_cell g x y = false) →
          GridInv (take_bananas g x y count).1)
      ∧ (GridInv g →
          (present = 0 ∨ (g.maze x y).is_obstacle = 0 ∨ is_valid_cell g x y = false
            ∨ family_id < 0 ∨ family_id ≥ (MAX_FAMILIES : Int)) →
          GridInv (set_female_in_cell g x y family_id present)) := by
  refine ⟨init_maze_progress_inv config rnd fuel shared, ?_,
    take_bananas_inv g x y count, set_female_in_cell_inv g x y family_id present⟩
  intro s hs
  unfold init_maze at hs
  split_ifs at hs
  cases hs
  exact gridInv_total _ _ (init_maze_progress_inv config rnd fuel shared)

theorem init_maze_small :
    init_maze small_config zero_random 5 (init_shared_data small_config) = some small_maze := by
  unfold init_maze
  rw [if_neg (by decide)]
  rfl

theorem grid_invariant_kept_witness :
    init_maze small_config zero_random 5 (init_shared_data small_config) = some small_maze
      ∧ GridInv small_maze
      ∧ GridInv blocked_grid
      ∧ GridInv (take_bananas blocked_grid 1 0 3).1
      ∧ GridInv (set_female_in_cell blocked_grid 1 0 0 0) :=
  ⟨init_maze_small,
    (grid_invariant_kept small_config zero_random 5 (init_shared_data small_config)
      blocked_grid 1 0 3 0 0).2.1 small_maze init_maze_small,
    gridInv_blocked_grid,
    (grid_invariant_kept small_config zero_random 5 (init_shared_data small_config)
      blocked_grid 1 0 3 0 0).2.2.1 gridInv_blocked_grid (Or.inl (by decide)),
    (grid_invariant_kept small_config zero_random 5 (init_shared_data small_config)
      blocked_grid 1 0 3 0 0).2.2.2 gridInv_blocked_grid (Or.inl rfl)⟩

/-! ### The scenario of one collector on a small grid -/

theorem setCell_setCell (maze : Int → Int → MazeCell) (i j : Int) (c d : MazeCell) :
    setCell (setCell maze i j c) i j d = setCell maze i j d := by
  funext a b
  simp only [setCell_apply]
  split_ifs <;> rfl

theorem setCell_same (maze : Int → Int → MazeCell) (i j : Int) :
    setCell maze i j (maze i j) = maze := by
  funext a b
  simp only [setCell_apply]
  split_ifs with h1 h2
  · rw [h1, h2]
  · rfl
  · rfl

theorem init_cell_zero (rnd : MazeRandom) (i j : Int) :
    init_cell rnd i j { bananas := 0, is_obstacle := 0, females_in_cell := fun _ => 0 }
      = { bananas := 0, is_obstacle := if i = 0 then 0 else if rnd.obstacle i j then 1 else 0,
          females_in_cell := fun _ => 0 } := by
  have h : ((List.range MAX_FAMILIES).foldl (fun g (j : Nat) => setAt g (j : Int) 0)
      (fun _ => (0 : Int))) = fun _ => 0 := by
    funext k
    rw [clear_flags_apply]
    split_ifs <;> rfl
  unfold init_cell
  simp only [h]
  split_ifs <;> rfl

theorem place_bananas_done (config : SimConfig) (rnd : MazeRandom) (fuel k : Nat)
    (st : (Int → Int → MazeCell) × Int) (h : ¬ st.2 < config.total_bananas) :
    place_bananas config rnd fuel k st = st := by
  cases fuel with
  | zero => rfl
  | succ n => unfold place_bananas; rw [if_neg h]

theorem two_cell_first_loops (rnd : MazeRandom) :
    ensure_passages rnd 2 1 (init_cells rnd 2 1 zeroed_shared.maze) = zeroed_shared.maze := by
  have hz : ∀ a b, zeroed_shared.maze a b
      = { bananas := 0, is_obstacle := 0, females_in_cell := fun _ => 0 } := fun _ _ => rfl
  have h10 : init_cells rnd 2 1 zeroed_shared.maze 1 0
      = { bananas := 0, is_obstacle := if rnd.obstacle 1 0 then 1 else 0,
          females_in_cell := fun _ => 0 } := by
    rw [init_cells_eq, if_pos (by decide), hz, init_cell_zero]
    simp
  have hrest : ∀ a b, ¬ (a = 1 ∧ b = 0) →
      init_cells rnd 2 1 zeroed_shared.maze a b = zeroed_shared.maze a b := by
    intro a b hab
    rw [init_cells_eq]
    split_ifs with h
    · have ha : a = 0 := by omega
      rw [hz, init_cell_zero, if_pos ha]
    · rfl
  show (List.range 1).foldl
    (fun m (k : Nat) => ensure_passage rnd 1 m ((k : Int) + 1))
    (init_cells rnd 2 1 zeroed_shared.maze) = _
  show ensure_passage rnd 1 (init_cells rnd 2 1 zeroed_shared.maze) 1 = _
  unfold ensure_passage
  have hr : (List.range (1 : Int).toNat) = [0] := rfl
  have hc : ∀ r, random_int 0 (1 - 1) r = 0 := fun r => by simp [random_int]
  simp only [hr, List.any_cons, List.any_nil, Bool.or_false, hc]
  show (if decide ((init_cells rnd 2 1 zeroed_shared.maze 1 0).is_obstacle = 0) = true
    then _ else _) = _
  rw [h10]
  funext a b
  by_cases ho : rnd.obstacle 1 0 = true
  · simp only [ho, if_true]
    rw [if_neg (by decide), setCell_apply]
    split_ifs with h1 h2
    · subst h1 h2
      rfl
    · exact hrest a b (fun h => h2 h.2)
    · exact hrest a b (fun h => h1 h.1)
  · simp only [ho]
    rw [if_pos (by decide)]
    by_cases hab : a = 1 ∧ b = 0
    · rw [hab.1, hab.2, h10]
      simp [ho, hz]
    · exact hrest a b hab

theorem two_cell_place (rnd : MazeRandom) (k : Nat) (b p : Int) (hb : b < 5) :
    place_banana two_cell_config rnd k
        (setCell zeroed_shared.maze 1 0
          { bananas := b, is_obstacle := 0, females_in_cell := fun _ => 0 }, p)
      = (setCell zeroed_shared.maze 1 0
          { bananas := b + 1, is_obstacle := 0, females_in_cell := fun _ => 0 }, p + 1) := by
  have hr : ∀ r, random_int 1 (two_cell_config.maze_rows - 1) r = 1 := fun r => by
    simp [random_int, two_cell_config]
  have hc : ∀ r, random_int 0 (two_cell_config.maze_cols - 1) r = 0 := fun r => by
    simp [random_int, two_cell_config, single_cell_config, set_default_config]
  unfold place_banana
  simp only [hr, hc]
  have hcell : setCell zeroed_shared.maze 1 0
      { bananas := b, is_obstacle := 0, females_in_cell := fun _ => 0 } 1 0
      = { bananas := b, is_obstacle := 0, females_in_cell := fun _ => 0 } := by
    rw [setCell_apply]; simp
  rw [hcell]
  have h5 : two_cell_config.max_bananas_per_cell = 5 := rfl
  rw [if_pos ⟨rfl, by rw [h5]; exact hb⟩, setCell_setCell]

theorem init_maze_two_cell (rnd : MazeRandom) (n : Nat) :
    init_maze two_cell_config rnd (n + 3) (init_shared_data two_cell_config)
      = some two_cell_grid := by
  have h0 : zeroed_shared.maze = setCell zeroed_shared.maze 1 0
      { bananas := 0, is_obstacle := 0, females_in_cell := fun _ => 0 } :=
    (setCell_same zeroed_shared.maze 1 0).symm
  have ht : two_cell_config.total_bananas = 3 := rfl
  have hl : init_maze_loops two_cell_config rnd (n + 3) (init_shared_data two_cell_config)
      = (setCell zeroed_shared.maze 1 0
          { bananas := 3, is_obstacle := 0, females_in_cell := fun _ => 0 }, 3) := by
    unfold init_maze_loops
    show place_bananas two_cell_config rnd (n + 3) 0
      (ensure_passages rnd 2 1 (init_cells rnd 2 1 zeroed_shared.maze), 0) = _
    rw [two_cell_first_loops]
    refine Eq.trans
      (congrArg (fun m => place_bananas two_cell_config rnd (n + 3) 0 (m, 0)) h0) ?_
    show place_bananas two_cell_config rnd (n + 3) 0 (_, 0) = _
    unfold place_bananas
    rw [if_pos (by rw [ht]; decide), two_cell_place rnd 0 0 0 (by decide)]
    unfold place_bananas
    rw [if_pos (by rw [ht]; decide), two_cell_place rnd 1 _ _ (by decide)]
    unfold place_bananas
    rw [if_pos (by rw [ht]; decide), two_cell_place rnd 2 _ _ (by decide)]
    rw [place_bananas_done _ _ _ _ _ (by rw [ht]; decide)]
    rfl
  unfold init_maze init_maze_progress
  rw [hl, if_neg (by rw [ht]; decide)]
  rfl
theorem start_position_single_column (sh : SharedData) (rand rand2 : Nat → Nat)
    (h : sh.maze_cols = 1) (fuel : Nat) :
    ∀ k, get_random_start_position sh rand fuel k = get_random_start_position sh rand2 fuel k := by
  induction fuel with
  | zero => intro k; rfl
  | succ n ih =>
    intro k
    unfold get_random_start_position
    have hc : ∀ r, random_int 0 (sh.maze_cols - 1) r = 0 := fun r => by simp [random_int, h]
    simp only [hc, ih (k + 1)]

theorem female_cycle_rand_start (config : SimConfig) (now : Int) (rs rs2 rsh : Nat → Nat)
    (w t : Bool) (v : View) (h : v.sh.maze_cols = 1) :
    female_cycle config (lone_input now rs rsh w t) v
      = female_cycle config (lone_input now rs2 rsh w t) v := by
  unfold female_cycle female_roam female_enter
  simp only [lone_input]
  rw [start_position_single_column v.sh rs rs2 h 100 0]
  rfl

theorem female_cycle_rand_shuffle (config : SimConfig) (now : Int) (rs rsh rsh2 : Nat → Nat)
    (w t : Bool) (v : View)
    (h : ∀ ve, (if v.loc.female_in_maze = 0 then female_enter (lone_input now rs rsh2 w t) v
        else some v) = some ve →
      (female_collision config now w id id ve).1.loc.female_x ≠ 0 →
      (female_collect config (lone_input now rs rsh2 w t)
          (female_collision config now w id id ve).1).loc.female_collected
        ≥ config.female_collection_goal) :
    female_cycle config (lone_input now rs rsh w t) v
      = female_cycle config (lone_input now rs rsh2 w t) v := by
  have hr : female_roam config (lone_input now rs rsh w t) v
      = female_roam config (lone_input now rs rsh2 w t) v := by
    unfold female_roam
    have he : (if v.loc.female_in_maze = 0 then female_enter (lone_input now rs rsh w t) v
        else some v)
        = (if v.loc.female_in_maze = 0 then female_enter (lone_input now rs rsh2 w t) v
        else some v) := rfl
    rw [he]
    cases hE : (if v.loc.female_in_maze = 0 then female_enter (lone_input now rs rsh2 w t) v
        else some v) with
    | none => rfl
    | some ve =>
      simp only [lone_input]
      by_cases hx : (female_collision config now w id id ve).1.loc.female_x = 0
      · rw [if_pos hx, if_pos hx]
      · rw [if_neg hx, if_neg hx]
        have hg := h ve hE hx
        have hc2 : female_collect config
            { now := now, rand_start := rs, rand_shuffle := rsh, i_win := w, try_left := t,
              e1 := id, e2 := id, e_deposit := id, e_take := id }
            (female_collision config now w id id ve).1
            = female_collect config (lone_input now rs rsh2 w t)
            (female_collision config now w id id ve).1 := rfl
        have hc3 : female_collect config
            { now := now, rand_start := rs, rand_shuffle := rsh2, i_win := w, try_left := t,
              e1 := id, e2 := id, e_deposit := id, e_take := id }
            (female_collision config now w id id ve).1
            = female_collect config (lone_input now rs rsh2 w t)
            (female_collision config now w id id ve).1 := rfl
        rw [hc2, hc3]
        unfold female_move
        simp only [if_pos (Or.inl hg : _ ∨ _)]
  unfold female_cycle
  rw [hr]
  rfl

theorem option_all_of {α : Type} (o : Option α) (p : α → Prop) [DecidablePred p]
    (h : o.all (fun a => decide (p a)) = true) : ∀ a, o = some a → p a := by
  intro a ha
  subst ha
  simpa using h

theorem two_cell_first_pass (rs rsh : Nat → Nat) (w t : Bool) :
    female_cycle two_cell_config (lone_input 1 rs rsh w t) two_cell_start
      = female_cycle two_cell_config (lone_input 1 (fun _ => 0) (fun _ => 0) w t)
          two_cell_start := by
  rw [female_cycle_rand_start two_cell_config 1 rs (fun _ => 0) rsh w t two_cell_start
    (by decide)]
  apply female_cycle_rand_shuffle
  apply option_all_of
  cases w <;> cases t <;> decide

theorem two_cell_second_pass (rs rsh : Nat → Nat) (w t w1 t1 : Bool) :
    female_cycle two_cell_config (lone_input 2 rs rsh w t)
        (female_cycle two_cell_config (lone_input 1 (fun _ => 0) (fun _ => 0) w1 t1)
          two_cell_start)
      = female_cycle two_cell_config (lone_input 2 (fun _ => 0) (fun _ => 0) w t)
        (female_cycle two_cell_config (lone_input 1 (fun _ => 0) (fun _ => 0) w1 t1)
          two_cell_start) := by
  rw [female_cycle_rand_start two_cell_config 2 rs (fun _ => 0) rsh w t _
    (by cases w1 <;> cases t1 <;> decide)]
  apply female_cycle_rand_shuffle
  apply option_all_of
  cases w <;> cases t <;> cases w1 <;> cases t1 <;> decide

theorem two_cell_outcome (w1 t1 w2 t2 : Bool) :
    (female_cycle two_cell_config (lone_input 1 (fun _ => 0) (fun _ => 0) w1 t1)
        two_cell_start).loc.female_in_maze = 1
      ∧ ((female_cycle two_cell_config (lone_input 1 (fun _ => 0) (fun _ => 0) w1 t1)
        two_cell_start).sh.families 0).basket_bananas = 0
      ∧ (female_cycle two_cell_config (lone_input 2 (fun _ => 0) (fun _ => 0) w2 t2)
        (female_cycle two_cell_config (lone_input 1 (fun _ => 0) (fun _ => 0) w1 t1)
          two_cell_start)).loc.female_in_maze = 0
      ∧ ((female_cycle two_cell_config (lone_input 2 (fun _ => 0) (fun _ => 0) w2 t2)
        (female_cycle two_cell_config (lone_input 1 (fun _ => 0) (fun _ => 0) w1 t1)
          two_cell_start)).sh.families 0).basket_bananas = 1
      ∧ (female_cycle two_cell_config (lone_input 2 (fun _ => 0) (fun _ => 0) w2 t2)
        (female_cycle two_cell_config (lone_input 1 (fun _ => 0) (fun _ => 0) w1 t1)
          two_cell_start)).sh.simulation_running = 0
      ∧ (female_cycle two_cell_config (lone_input 2 (fun _ => 0) (fun _ => 0) w2 t2)
        (female_cycle two_cell_config (lone_input 1 (fun _ => 0) (fun _ => 0) w1 t1)
          two_cell_start)).sh.termination_reason = TERM_BASKET_THRESHOLD
      ∧ (female_cycle two_cell_config (lone_input 2 (fun _ => 0) (fun _ => 0) w2 t2)
        (female_cycle two_cell_config (lone_input 1 (fun _ => 0) (fun _ => 0) w1 t1)
          two_cell_start)).sh.winning_family = 0 := by
  cases w1 <;> cases t1 <;> cases w2 <;> cases t2 <;> decide

/-- C17, the claim as stated fails.  For the grid of a single cell `init_maze`
returns a block whose cell (0,0) is passable and empty: the three units lie
on `maze[1][0]`, outside the grid.  The collector enters at (0,0), which is
the exit row, and leaves at once: after each of its first three field visits
it is outside the grid, nothing is in its basket and the termination state is
still `TERM_RUNNING` with no winner.  The same holds when three units are
laid on the cell (0,0) by hand: they are still there after three visits. -/
theorem single_cell_never_deposits :
    init_maze single_cell_config zero_random 3 (init_shared_data single_cell_config)
        = some single_cell_maze
      ∧ (single_cell_maze.maze_rows = 1 ∧ single_cell_maze.maze_cols = 1
        ∧ is_passable single_cell_maze 0 0 = true
        ∧ single_cell_maze.total_bananas_in_maze = 3
        ∧ (single_cell_maze.maze 0 0).bananas = 0
        ∧ (single_cell_maze.maze 1 0).bananas = 3)
      ∧ (∀ n ∈ [1, 2, 3],
          (lone_passes single_cell_config single_cell_maze n).loc.female_in_maze = 0
          ∧ (lone_passes single_cell_config single_cell_maze n).loc.female_collected = 0
          ∧ ((lone_passes single_cell_config single_cell_maze n).sh.families 0).basket_bananas = 0
          ∧ (lone_passes single_cell_config single_cell_maze n).sh.simulation_running = 1
          ∧ (lone_passes single_cell_config single_cell_maze n).sh.termination_reason
              = TERM_RUNNING
          ∧ (lone_passes single_cell_config single_cell_maze n).sh.winning_family = -1)
      ∧ (∀ n ∈ [1, 2, 3],
          (lone_passes single_cell_config single_cell_seeded n).loc.female_in_maze = 0
          ∧ ((lone_passes single_cell_config single_cell_seeded n).sh.maze 0 0).bananas = 3
          ∧ ((lone_passes single_cell_config single_cell_seeded n).sh.families 0).basket_bananas
              = 0
          ∧ (lone_passes single_cell_config single_cell_seeded n).sh.termination_reason
              = TERM_RUNNING) := by
  refine ⟨?_, by decide, by decide, by decide⟩
  unfold init_maze
  rw [if_neg (by decide)]
  rfl

/-- C17, amended.  On the grid of two rows and one column (the exit cell
(0,0) and one cell below it), with three units, one family, a collection goal
of one and a winning threshold of one, and with no other thread interfering:
for every outcome of the random choices `init_maze` returns the grid with the
three units on the passable cell (1,0); in its first pass the collector
enters, collects one unit and moves to the exit cell, and in its second pass
it leaves and deposits, which ends its first field visit with one unit in
the basket, the simulation stopped, `TERM_BASKET_THRESHOLD` as the reason and
family 0 as the winner. -/
theorem two_cell_scenario (rnd : MazeRandom) (n : Nat) (rs1 rsh1 rs2 rsh2 : Nat → Nat)
    (w1 t1 w2 t2 : Bool) :
    init_maze two_cell_config rnd (n + 3) (init_shared_data two_cell_config)
        = some two_cell_grid
      ∧ two_cell_start = init_family_local 0 two_cell_grid two_cell_config
      ∧ (female_cycle two_cell_config (lone_input 1 rs1 rsh1 w1 t1)
          two_cell_start).loc.female_in_maze = 1
      ∧ ((female_cycle two_cell_config (lone_input 1 rs1 rsh1 w1 t1)
          two_cell_start).sh.families 0).basket_bananas = 0
      ∧ (female_cycle two_cell_config (lone_input 2 rs2 rsh2 w2 t2)
          (female_cycle two_cell_config (lone_input 1 rs1 rsh1 w1 t1)
            two_cell_start)).loc.female_in_maze = 0
      ∧ ((female_cycle two_cell_config (lone_input 2 rs2 rsh2 w2 t2)
          (female_cycle two_cell_config (lone_input 1 rs1 rsh1 w1 t1)
            two_cell_start)).sh.families 0).basket_bananas = 1
      ∧ (female_cycle two_cell_config (lone_input 2 rs2 rsh2 w2 t2)
          (female_cycle two_cell_config (lone_input 1 rs1 rsh1 w1 t1)
            two_cell_start)).sh.simulation_running = 0
      ∧ (female_cycle two_cell_config (lone_input 2 rs2 rsh2 w2 t2)
          (female_cycle two_cell_config (lone_input 1 rs1 rsh1 w1 t1)
            two_cell_start)).sh.termination_reason = TERM_BASKET_THRESHOLD
      ∧ (female_cycle two_cell_config (lone_input 2 rs2 rsh2 w2 t2)
          (female_cycle two_cell_config (lone_input 1 rs1 rsh1 w1 t1)
            two_cell_start)).sh.winning_family = 0 := by
  rw [two_cell_first_pass rs1 rsh1 w1 t1, two_cell_second_pass rs2 rsh2 w2 t2 w1 t1]
  exact ⟨init_maze_two_cell rnd n, rfl, two_cell_outcome w1 t1 w2 t2⟩

/-! ### The configuration file -/

theorem fgets_append (n : Nat) (l : List Char) : (fgets n l).1 ++ (fgets n l).2 = l := by
  induction n generalizing l with
  | zero => cases l <;> rfl
  | succ n ih =>
    cases l with
    | nil => rfl
    | cons c rest =>
      unfold fgets
      split_ifs
      · rfl
      · simp [ih rest]

theorem fgets_rest_length (n : Nat) (c : Char) (rest : List Char) :
    (fgets (n + 1) (c :: rest)).2.length ≤ rest.length := by
  induction n generalizing c rest with
  | zero =>
    unfold fgets
    split_ifs
    · exact Nat.le_refl _
    · cases rest <;> exact Nat.le_refl _
  | succ n ih =>
    unfold fgets
    split_ifs
    · exact Nat.le_refl _
    · cases rest with
      | nil => exact Nat.le_refl _
      | cons d more => exact Nat.le_trans (ih d more) (Nat.le_succ _)

/-- The loop of `load_config` reads the whole file: the buffers `file_lines`
lists make up the content. -/
theorem file_lines_complete (fuel : Nat) (content : List Char) (h : content.length ≤ fuel) :
    (file_lines fuel content).flatten = content := by
  induction fuel generalizing content with
  | zero =>
    have : content = [] := List.length_eq_zero.mp (Nat.le_zero.mp h)
    subst this
    rfl
  | succ fuel ih =>
    unfold file_lines
    split_ifs with hc
    · rw [hc]; rfl
    · cases content with
      | nil => exact absurd rfl hc
      | cons c rest =>
        rw [List.flatten_cons, ih _ (Nat.le_trans (fgets_rest_length 254 c rest)
          (Nat.le_of_succ_le_succ h))]
        exact fgets_append 255 (c :: rest)

theorem viewInRange_ite {config : SimConfig} {x y : View} {c : Prop} [Decidable c]
    (hx : ViewInRange config x) (hy : ViewInRange config y) :
    ViewInRange config (if c then x else y) := by
  split
  · exact hx
  · exact hy

theorem set_female_in_cell_families (s : SharedData) (x y family_id present : Int) :
    (set_female_in_cell s x y family_id present).families = s.families := by
  unfold set_female_in_cell
  split_ifs <;> rfl

theorem random_int_one_two (r : Nat) : 1 ≤ random_int 1 2 r := by
  unfold random_int
  rw [if_neg (by decide)]
  have : (0 : Int) ≤ (r : Int) % (2 - 1 + 1) := Int.emod_nonneg _ (by decide)
  omega

theorem orderly_id (config : SimConfig) : Orderly config id :=
  fun _ h => h

theorem init_maze_tall :
    init_maze tall_config alternate_random 8 (init_shared_data tall_config) = some tall_grid := by
  unfold init_maze
  rw [if_neg (by decide)]
  rfl

theorem tall_world_2_reachable : RoleReachable tall_config tall_grid tall_world_2 :=
  RoleReachable.step _ 1 _
    (RoleReachable.step _ 0 _ RoleReachable.start
      (RoleOp.cycle (calm_input 1) (orderly_id _) (orderly_id _) (orderly_id _) (orderly_id _)))
    (RoleOp.cycle (calm_input 2) (orderly_id _) (orderly_id _) (orderly_id _) (orderly_id _))

/-- C21, evaluation at the failing input.  On the grid `init_maze` returns for
`tall_config` both collectors have collected their goal of two units and
stand on the cell (1,0); collector 1 has just won the fight and carries four
units, the cell holds four and `total_bananas_in_maze` is four.  The
collection step of its pass takes `-2` units: the collector carries two units
afterwards, the cell holds six and `total_bananas_in_maze` is six. -/
theorem collect_above_goal_gives_back :
    init_maze tall_config alternate_random 8 (init_shared_data tall_config) = some tall_grid
      ∧ RoleReachable tall_config tall_grid tall_world_2
      ∧ tall_config.female_collection_goal = 2
      ∧ should_continue glut_view = true
      ∧ glut_view.loc.female_collected = 4
      ∧ (glut_view.loc.female_x = 1 ∧ glut_view.loc.female_y = 0)
      ∧ get_bananas_at glut_view.sh 1 0 = 4
      ∧ glut_view.sh.total_bananas_in_maze = 4
      ∧ (female_collect tall_config (calm_input 3) glut_view).loc.female_collected = 2
      ∧ ((female_collect tall_config (calm_input 3) glut_view).sh.families 1).female_collected = 2
      ∧ get_bananas_at (female_collect tall_config (calm_input 3) glut_view).sh 1 0 = 6
      ∧ (female_collect tall_config (calm_input 3) glut_view).sh.total_bananas_in_maze = 6 :=
  ⟨init_maze_tall, tall_world_2_reachable, by decide, by decide, by decide, by decide, by decide,
    by decide, by decide, by decide, by decide, by decide⟩

/-- C22, evaluation at the failing input.  Collector 0 stands on the exit cell
carrying two units when the timeout watcher stops the simulation; it goes on
with its pass and comes to the deposit, where `add_to_basket` abandons.  The
basket still holds nothing, but the carried amount, local and shared, is
zero and `total_collected` has grown by two: the two units are in no basket,
with no collector and not in the grid. -/
theorem abandoned_deposit_drops_units :
    (late_world.sh.simulation_running = 0
        ∧ (late_world.locals 0).female_x = 0
        ∧ (late_world.locals 0).female_in_maze = 1
        ∧ (late_world.locals 0).female_collected = 2
        ∧ (late_world.sh.families 0).female_collected = 2
        ∧ (late_world.sh.families 0).basket_bananas = 0)
      ∧ ((late_world_1.sh.families 0).basket_bananas = 0
        ∧ (late_world_1.locals 0).female_collected = 0
        ∧ (late_world_1.sh.families 0).female_collected = 0
        ∧ (late_world_1.sh.families 0).total_collected = 2
        ∧ (late_world_1.locals 0).female_in_maze = 0)
      ∧ accounted late_world = 5 ∧ accounted late_world_1 = 3 := by
  decide

theorem rush_world_6_reachable : RoleReachable rush_config small_grid rush_world_6 :=
  RoleReachable.step _ 0 _
    (RoleReachable.step _ 0 _
      (RoleReachable.step _ 1 _
        (RoleReachable.step _ 1 _
          (RoleReachable.step _ 0 _
            (RoleReachable.step _ 0 _ RoleReachable.start
              (RoleOp.cycle (calm_input 1) (orderly_id _) (orderly_id _) (orderly_id _)
                (orderly_id _)))
            (RoleOp.cycle (calm_input 2) (orderly_id _) (orderly_id _) (orderly_id _)
              (orderly_id _)))
          (RoleOp.cycle (calm_input 3) (orderly_id _) (orderly_id _) (orderly_id _)
            (orderly_id _)))
        (RoleOp.cycle (calm_input 4) (orderly_id _) (orderly_id _) (orderly_id _)
          (orderly_id _)))
      (RoleOp.male_fight_start 1 5 id id (orderly_id _) (orderly_id _)))
    (RoleOp.theft 0 1 6 0 false id id (orderly_id _) (orderly_id _))

/-- C26, evaluation at the failing input.  With a winning threshold of three,
both collectors deposit two units; guard 0 starts a fight and, while it
sleeps and no basket lock is held, an opportunist of family 0 steals one unit
from the basket of family 1 and gives it to its guard.  The basket of family
0 now holds three units, the threshold, and the simulation is still running
with no reason and no winner recorded. -/
theorem basket_at_threshold_while_running :
    RoleReachable rush_config small_grid rush_world_6
      ∧ (0 < rush_config.winning_basket_threshold ∧ rush_config.winning_basket_threshold = 3)
      ∧ ((rush_world_4.sh.families 0).basket_bananas = 2
        ∧ (rush_world_4.sh.families 1).basket_bananas = 2)
      ∧ rush_world_6.sh.simulation_running = 1
      ∧ rush_world_6.sh.termination_reason = TERM_RUNNING
      ∧ rush_world_6.sh.winning_family = -1
      ∧ (rush_world_6.sh.families 0).basket_bananas = 3
      ∧ (rush_world_6.sh.families 1).basket_bananas = 1 :=
  ⟨rush_world_6_reachable, by decide, by decide, by decide, by decide, by decide, by decide,
    by decide⟩


/-! ### The opportunist's theft -/

theorem random_int_one_two_le (r : Nat) : random_int 1 2 r ≤ 2 := by
  unfold random_int
  rw [if_neg (by decide)]
  have : (r : Int) % (2 - 1 + 1) < 2 := Int.emod_lt_of_pos _ (by decide)
  omega

theorem baby_check_threshold_families (config : SimConfig) (baby_id now : Int) (v : View) :
    (baby_check_threshold config baby_id now v).sh.families = v.sh.families
      ∧ (baby_check_threshold config baby_id now v).loc = v.loc := by
  unfold baby_check_threshold
  simp only
  split_ifs <;> exact ⟨rfl, rfl⟩

/-- C24. Opportunist theft transfer: in the critical section of a theft on
another family whose basket holds `a > 0` units the stolen amount `s`, the
smaller of `random_int(1, 2)` and `a`, satisfies `1 ≤ s ≤ min(2, a)` and the
target's shared basket drops by exactly `s`; when the thief eats, its eaten
total rises by `s` and the home basket is unchanged, otherwise the home
basket rises by `s` and no eaten total changes, and exactly one of the two
happens; no other basket changes; when `a` is not positive nothing changes. -/
theorem theft_transfers (config : SimConfig) (baby_id target now : Int) (r : Nat) (eat : Bool)
    (v : View) (hne : target ≠ v.loc.family_id) :
    ((v.sh.families target).basket_bananas > 0 →
      ∃ s : Int,
        s = (if random_int 1 2 r > (v.sh.families target).basket_bananas then
            (v.sh.families target).basket_bananas else random_int 1 2 r)
        ∧ 1 ≤ s ∧ s ≤ min 2 (v.sh.families target).basket_bananas
        ∧ ((baby_theft_body config baby_id target now r eat v).sh.families target).basket_bananas
            = (v.sh.families target).basket_bananas - s
        ∧ (∀ k, k ≠ target → k ≠ v.loc.family_id →
            ((baby_theft_body config baby_id target now r eat v).sh.families k).basket_bananas
              = (v.sh.families k).basket_bananas)
        ∧ (eat = true →
            (baby_theft_body config baby_id target now r eat v).loc.baby_eaten baby_id
                = v.loc.baby_eaten baby_id + s
              ∧ ((baby_theft_body config baby_id target now r eat v).sh.families
                  v.loc.family_id).basket_bananas
                = (v.sh.families v.loc.family_id).basket_bananas)
        ∧ (eat = false →
            ((baby_theft_body config baby_id target now r eat v).sh.families
                  v.loc.family_id).basket_bananas
                = (v.sh.families v.loc.family_id).basket_bananas + s
              ∧ (baby_theft_body config baby_id target now r eat v).loc.baby_eaten
                = v.loc.baby_eaten)
        ∧ ¬ ((baby_theft_body config baby_id target now r eat v).loc.baby_eaten baby_id
                = v.loc.baby_eaten baby_id + s
              ∧ ((baby_theft_body config baby_id target now r eat v).sh.families
                  v.loc.family_id).basket_bananas
                = (v.sh.families v.loc.family_id).basket_bananas + s))
      ∧ (¬ (v.sh.families target).basket_bananas > 0 →
          baby_theft_body config baby_id target now r eat v = v) := by
  have hne2 : v.loc.family_id ≠ target := fun h => hne h.symm
  constructor
  · intro ha
    have hr1 := random_int_one_two r
    have hr2 := random_int_one_two_le r
    refine ⟨_, rfl, ?_, ?_, ?_⟩
    · split_ifs <;> omega
    · rw [le_min_iff]
      constructor <;> split_ifs <;> omega
    · generalize hst : (if random_int 1 2 r > (v.sh.families target).basket_bananas then
        (v.sh.families target).basket_bananas else random_int 1 2 r) = s
      have hs1 : 1 ≤ s := by rw [← hst]; split_ifs <;> omega
      have hbody : baby_theft_body config baby_id target now r eat v
          = (if eat = true then
              baby_check_threshold config baby_id now
                ((((v.setFam target
                  (fun f => { f with basket_bananas := f.basket_bananas - s })).setLoc
                  (fun l => { l with
                    baby_eaten := setAt l.baby_eaten baby_id (l.baby_eaten baby_id + s) }))).event
                  now "Baby%d Fam%d stole %d from Fam%d & ATE (total eaten: %d)"
                  [baby_id, v.loc.family_id, s, target, v.loc.baby_eaten baby_id + s])
            else
              ((((v.setFam target
                  (fun f => { f with basket_bananas := f.basket_bananas - s })).setLoc
                  (fun l => { l with
                    basket_bananas := (v.sh.families v.loc.family_id).basket_bananas })).setLoc
                  (fun l => { l with basket_bananas := l.basket_bananas + s })).setFam
                  v.loc.family_id
                  (fun f => { f with
                    basket_bananas := (v.sh.families v.loc.family_id).basket_bananas + s })).event
                  now "Baby%d Fam%d stole %d from Fam%d, gave to Dad (basket=%d)"
                  [baby_id, v.loc.family_id, s, target,
                    (v.sh.families v.loc.family_id).basket_bananas + s]) := by
        unfold baby_theft_body
        simp only [ha, if_true, hst, setFam_loc, setLoc_loc, setFam_families, if_neg hne2,
          setAt_apply]
      rw [hbody]
      cases eat with
      | true =>
        simp only [if_true, (baby_check_threshold_families _ _ _ _).1,
          (baby_check_threshold_families _ _ _ _).2, event_families, event_loc, setLoc_sh,
          setLoc_loc, setFam_families, setFam_loc, if_true, if_neg hne2, setAt_apply]
        refine ⟨trivial, fun k hk _ => by rw [if_neg hk], fun _ => ⟨trivial, trivial⟩,
          fun h => absurd h (by decide), fun h => ?_⟩
        have h2 := h.2
        omega
      | false =>
        simp only [Bool.false_eq_true, if_false, event_families, event_loc, setLoc_sh,
          setLoc_loc, setFam_families, setFam_loc, if_true, if_neg hne, if_neg hne2]
        refine ⟨trivial, fun k hk hk2 => by rw [if_neg hk2, if_neg hk],
          fun h => h.elim, fun _ => ⟨trivial, trivial⟩, fun h => ?_⟩
        have h1 := h.1
        omega
  · intro ha
    unfold baby_theft_body
    simp only [if_neg ha]

theorem theft_transfers_witness :
    (1 : Int) ≠ (basket_scene 3 4).loc.family_id
      ∧ ((basket_scene 3 4).sh.families 1).basket_bananas > 0
      ∧ ((baby_theft_body two_family_config 0 1 7 0 false (basket_scene 3 4)).sh.families
          1).basket_bananas = 3
      ∧ ((baby_theft_body two_family_config 0 1 7 0 false (basket_scene 3 4)).sh.families
          0).basket_bananas = 4
      ∧ ∃ s : Int, 1 ≤ s ∧ s ≤ min 2 ((basket_scene 3 4).sh.families 1).basket_bananas
        ∧ ((baby_theft_body two_family_config 0 1 7 0 false (basket_scene 3 4)).sh.families
            1).basket_bananas = ((basket_scene 3 4).sh.families 1).basket_bananas - s :=
  ⟨by decide, by decide, by decide, by decide,
    match (theft_transfers two_family_config 0 1 7 0 false (basket_scene 3 4) (by decide)).1
        (by decide) with
    | ⟨s, _, h1, h2, h3, _⟩ => ⟨s, h1, h2, h3⟩⟩

/-! ### The exploration direction -/

theorem random_int_zero_range (n : Int) (hn : 0 < n) (r : Nat) :
    0 ≤ random_int 0 n r ∧ random_int 0 n r ≤ n := by
  unfold random_int
  rw [if_neg (by omega)]
  have h1 : (0 : Int) ≤ (r : Int) % (n - 0 + 1) := Int.emod_nonneg _ (by omega)
  have h2 : (r : Int) % (n - 0 + 1) < n - 0 + 1 := Int.emod_lt_of_pos _ (by omega)
  omega

theorem random_int_zero_toNat (n : Nat) (hn : 0 < n) (r : Nat) :
    (random_int 0 (n : Int) r).toNat ≤ n := by
  have h := random_int_zero_range (n : Int) (by omega) r
  omega

theorem shuffle_directions_perm (rand : Nat → Nat) :
    List.Perm (shuffle_directions rand) [0, 1, 2, 3] := by
  unfold shuffle_directions
  have h3 := random_int_zero_toNat 3 (by decide) (rand 3)
  have h2 := random_int_zero_toNat 2 (by decide) (rand 2)
  have h1 := random_int_zero_toNat 1 (by decide) (rand 1)
  simp only [Nat.cast_ofNat, Nat.cast_one] at h3 h2 h1
  generalize (random_int 0 3 (rand 3)).toNat = a at h3
  generalize (random_int 0 2 (rand 2)).toNat = b at h2
  generalize (random_int 0 1 (rand 1)).toNat = c at h1
  interval_cases a <;> interval_cases b <;> interval_cases c <;> decide

theorem shuffle_directions_mem (rand : Nat → Nat) (d : Int) :
    d ∈ shuffle_directions rand ↔ d ∈ ([0, 1, 2, 3] : List Int) :=
  (shuffle_directions_perm rand).mem_iff

theorem is_passable_valid (shared : SharedData) (x y : Int)
    (h : is_passable shared x y = true) : is_valid_cell shared x y = true := by
  unfold is_passable at h
  simp only [Bool.and_eq_true] at h
  exact h.1

theorem explore_try_best (shared : SharedData) (x y : Int) (seen : List Int) (best : Int × Int)
    (d : Int)
    (hnn : ∀ i j, is_valid_cell shared i j = true → 0 ≤ (shared.maze i j).bananas)
    (hd : 0 ≤ d) (h : BestAmong shared x y seen best) :
    BestAmong shared x y (seen ++ [d]) (explore_try shared x y best d) := by
  unfold explore_try
  simp only
  by_cases hp : is_passable shared (x + dir_dx d) (y + dir_dy d) = true
  · rw [if_pos hp]
    have hb := hnn _ _ (is_passable_valid _ _ _ hp)
    rcases h with ⟨hbest, hnone⟩ | ⟨h0, hmem, hpass, hcount, hmax⟩
    · subst hbest
      rw [if_pos (by show (shared.maze (x + dir_dx d) (y + dir_dy d)).bananas > -1; omega)]
      refine Or.inr ⟨hd, List.mem_append_right _ (List.mem_singleton_self d), hp, rfl, ?_⟩
      intro k hk hkp
      rcases List.mem_append.1 hk with hk | hk
      · rw [hnone k hk] at hkp
        exact absurd hkp (by decide)
      · rw [List.mem_singleton.1 hk]
    · by_cases hgt : (shared.maze (x + dir_dx d) (y + dir_dy d)).bananas > best.2
      · rw [if_pos hgt]
        refine Or.inr ⟨hd, List.mem_append_right _ (List.mem_singleton_self d), hp, rfl, ?_⟩
        intro k hk hkp
        rcases List.mem_append.1 hk with hk | hk
        · have := hmax k hk hkp
          show (shared.maze (x + dir_dx k) (y + dir_dy k)).bananas
            ≤ (shared.maze (x + dir_dx d) (y + dir_dy d)).bananas
          omega
        · rw [List.mem_singleton.1 hk]
      · rw [if_neg hgt, if_neg (by omega)]
        refine Or.inr ⟨h0, List.mem_append_left _ hmem, hpass, hcount, ?_⟩
        intro k hk hkp
        rcases List.mem_append.1 hk with hk | hk
        · exact hmax k hk hkp
        · rw [List.mem_singleton.1 hk]
          omega
  · rw [if_neg hp]
    have hp2 : is_passable shared (x + dir_dx d) (y + dir_dy d) = false := by
      cases hq : is_passable shared (x + dir_dx d) (y + dir_dy d)
      · rfl
      · exact absurd hq hp
    rcases h with ⟨hbest, hnone⟩ | ⟨h0, hmem, hpass, hcount, hmax⟩
    · refine Or.inl ⟨hbest, ?_⟩
      intro k hk
      rcases List.mem_append.1 hk with hk | hk
      · exact hnone k hk
      · rw [List.mem_singleton.1 hk]
        exact hp2
    · refine Or.inr ⟨h0, List.mem_append_left _ hmem, hpass, hcount, ?_⟩
      intro k hk hkp
      rcases List.mem_append.1 hk with hk | hk
      · exact hmax k hk hkp
      · rw [List.mem_singleton.1 hk, hp2] at hkp
        exact absurd hkp (by decide)

theorem explore_fold_best (shared : SharedData) (x y : Int)
    (hnn : ∀ i j, is_valid_cell shared i j = true → 0 ≤ (shared.maze i j).bananas) :
    ∀ (l seen : List Int) (best : Int × Int), (∀ d ∈ l, 0 ≤ d) →
      BestAmong shared x y seen best →
      BestAmong shared x y (seen ++ l) (l.foldl (explore_try shared x y) best) := by
  intro l
  induction l with
  | nil =>
    intro seen best _ h
    rw [List.append_nil]
    exact h
  | cons d l ih =>
    intro seen best hl h
    have h1 := explore_try_best shared x y seen best d hnn (hl d (List.mem_cons_self d l)) h
    have h2 := ih (seen ++ [d]) _ (fun k hk => hl k (List.mem_cons_of_mem d hk)) h1
    rw [List.append_assoc] at h2
    exact h2

theorem explore_best (shared : SharedData) (x y : Int) (rand : Nat → Nat)
    (hnn : ∀ i j, is_valid_cell shared i j = true → 0 ≤ (shared.maze i j).bananas) :
    BestAmong shared x y [0, 1, 2, 3]
      ((shuffle_directions rand).foldl (explore_try shared x y) (-1, -1)) := by
  have h := explore_fold_best shared x y hnn (shuffle_directions rand) [] (-1, -1)
    (fun d hd => by
      have := (shuffle_directions_mem rand d).1 hd
      simp only [List.mem_cons, List.mem_singleton, List.not_mem_nil, or_false] at this
      omega)
    (Or.inl ⟨rfl, fun d hd => absurd hd (List.not_mem_nil d)⟩)
  rw [List.nil_append] at h
  rcases h with ⟨hb, hn⟩ | ⟨h0, hm, hp, hc, hmax⟩
  · exact Or.inl ⟨hb, fun d hd => hn d ((shuffle_directions_mem rand d).2 hd)⟩
  · exact Or.inr ⟨h0, (shuffle_directions_mem rand _).1 hm, hp, hc,
      fun d hd => hmax d ((shuffle_directions_mem rand d).2 hd)⟩

/-- C25. Exploration direction: on a grid whose cells hold non-negative
counts, for every position and every outcome of the shuffle,
`get_direction_to_explore` returns `-1` exactly when none of the four
neighbours is passable; otherwise it returns one of the four directions, the
neighbour in that direction is passable, and no passable neighbour holds more
bananas than it. -/
theorem explore_direction_is_best (shared : SharedData) (x y : Int) (rand : Nat → Nat)
    (hnn : ∀ i j, is_valid_cell shared i j = true → 0 ≤ (shared.maze i j).bananas) :
    (get_direction_to_explore shared x y rand = -1 ↔
        ∀ d ∈ ([0, 1, 2, 3] : List Int),
          is_passable shared (x + dir_dx d) (y + dir_dy d) = false)
      ∧ (get_direction_to_explore shared x y rand ≠ -1 →
          get_direction_to_explore shared x y rand ∈ ([0, 1, 2, 3] : List Int)
            ∧ is_passable shared (x + dir_dx (get_direction_to_explore shared x y rand))
                (y + dir_dy (get_direction_to_explore shared x y rand)) = true
            ∧ ∀ d ∈ ([0, 1, 2, 3] : List Int),
                is_passable shared (x + dir_dx d) (y + dir_dy d) = true →
                (shared.maze (x + dir_dx d) (y + dir_dy d)).bananas
                  ≤ (shared.maze (x + dir_dx (get_direction_to_explore shared x y rand))
                      (y + dir_dy (get_direction_to_explore shared x y rand))).bananas) := by
  have h := explore_best shared x y rand hnn
  unfold get_direction_to_explore
  generalize (shuffle_directions rand).foldl (explore_try shared x y) (-1, -1) = best at h
  rcases h with ⟨hb, hn⟩ | ⟨h0, hm, hp, hc, hmax⟩
  · subst hb
    exact ⟨⟨fun _ => hn, fun _ => rfl⟩, fun h => absurd rfl h⟩
  · refine ⟨⟨fun h => ?_, fun h => ?_⟩, fun _ => ⟨hm, hp, fun d hd hdp => ?_⟩⟩
    · omega
    · rw [h _ hm] at hp
      exact absurd hp (by decide)
    · rw [← hc]
      exact hmax d hd hdp

theorem explore_direction_is_best_witness :
    (∀ i j, is_valid_cell small_grid i j = true → 0 ≤ (small_grid.maze i j).bananas)
      ∧ get_direction_to_explore small_grid 0 0 (fun _ => 0) = 1
      ∧ get_direction_to_explore small_grid 1 0 (fun _ => 0) = 0
      ∧ (get_direction_to_explore small_grid 0 0 (fun _ => 0) ≠ -1 →
          is_passable small_grid (0 + dir_dx (get_direction_to_explore small_grid 0 0 (fun _ => 0)))
            (0 + dir_dy (get_direction_to_explore small_grid 0 0 (fun _ => 0))) = true) := by
  have hnn : ∀ i j, is_valid_cell small_grid i j = true → 0 ≤ (small_grid.maze i j).bananas := by
    intro i j hv
    simp only [is_valid_cell, small_grid, Bool.and_eq_true, decide_eq_true_eq] at hv
    obtain ⟨⟨⟨h1, h2⟩, h3⟩, h4⟩ := hv
    have hj : j = 0 := by omega
    have hi : i = 0 ∨ i = 1 := by omega
    subst hj
    rcases hi with rfl | rfl <;> decide
  exact ⟨hnn, by decide, by decide,
    fun h => ((explore_direction_is_best small_grid 0 0 (fun _ => 0) hnn).2 h).2.1⟩

/-! ### The ids of the two locks of a two-lock operation -/

theorem get_neighbors_range (id n : Int) (h0 : 0 ≤ id) (hn : id < n) :
    ((get_neighbors id n).1 = -1
        ∨ (0 ≤ (get_neighbors id n).1 ∧ (get_neighbors id n).1 < n
          ∧ (get_neighbors id n).1 ≠ id))
      ∧ ((get_neighbors id n).2 = -1
        ∨ (0 ≤ (get_neighbors id n).2 ∧ (get_neighbors id n).2 < n
          ∧ (get_neighbors id n).2 ≠ id)) := by
  unfold get_neighbors
  simp only
  constructor
  · split_ifs
    · exact Or.inr ⟨by omega, by omega, by omega⟩
    · exact Or.inl rfl
  · split_ifs
    · exact Or.inr ⟨by omega, by omega, by omega⟩
    · exact Or.inl rfl

theorem check_female_collision_range (shared : SharedData) (x y my_family_id : Int) :
    check_female_collision shared x y my_family_id = -1
      ∨ (0 ≤ check_female_collision shared x y my_family_id
        ∧ check_female_collision shared x y my_family_id < shared.num_families
        ∧ check_female_collision shared x y my_family_id ≠ my_family_id) := by
  unfold check_female_collision
  split_ifs
  · exact Or.inl rfl
  · cases hf : (List.range shared.num_families.toNat).find?
        (fun k => decide ((k : Int) ≠ my_family_id)
          && decide ((shared.maze x y).females_in_cell (k : Int) ≠ 0)) with
    | none => exact Or.inl rfl
    | some k =>
      have hmem := List.mem_of_find?_eq_some hf
      have hp := List.find?_some hf
      simp only [Bool.and_eq_true, decide_eq_true_eq] at hp
      simp at hmem
      obtain ⟨a, ha, hak⟩ := hmem
      exact Or.inr ⟨by show (0 : Int) ≤ k; omega,
        by show k < shared.num_families; omega, hp.1⟩

theorem baby_find_target_range (family_id : Int) (shared : SharedData) (rand : Nat → Nat)
    (h0 : 0 ≤ family_id) (hn : family_id < shared.num_families) :
    ∀ (fuel attempts : Nat),
      baby_find_target family_id shared rand fuel attempts = -1
        ∨ (0 ≤ baby_find_target family_id shared rand fuel attempts
          ∧ baby_find_target family_id shared rand fuel attempts < shared.num_families
          ∧ baby_find_target family_id shared rand fuel attempts ≠ family_id) := by
  intro fuel
  induction fuel with
  | zero => intro _; exact Or.inl rfl
  | succ fuel ih =>
    intro attempts
    unfold baby_find_target
    simp only
    split_ifs with h
    · refine Or.inr ⟨?_, ?_, h.1⟩
      · unfold random_int
        split_ifs
        · exact le_refl _
        · have := Int.emod_nonneg (rand attempts : Int)
            (show shared.num_families - 1 - 0 + 1 ≠ 0 by omega)
          omega
      · unfold random_int
        split_ifs
        · omega
        · have := Int.emod_lt_of_pos (rand attempts : Int)
            (show 0 < shared.num_families - 1 - 0 + 1 by omega)
          omega
    · exact ih (attempts + 1)

theorem waits_on_held_nested (lo hi : Int) (h : lo ≠ hi) (n : Nat) :
    waits_on_held [] (nested_locks lo hi n) = false
      ∧ waits_on_held [] (nested_locks lo hi 2 ++ nested_locks lo hi 2) = false
      ∧ ∀ k, waits_on_held [] ([LockEv.wait k, LockEv.post k] ++ nested_locks lo hi n) = false
      ∧ waits_on_held []
          ([LockEv.wait k, LockEv.post k] ++ (nested_locks lo hi 2 ++ nested_locks lo hi 2))
          = false := by
  have h2 : hi ≠ lo := fun x => h x.symm
  have hb : (hi == lo) = false := by
    rw [beq_eq_false_iff_ne]; exact h2
  have hc : (lo == hi) = false := by
    rw [beq_eq_false_iff_ne]; exact h
  refine ⟨?_, ?_, fun k => ⟨?_, ?_⟩⟩
  · match n with
    | 0 => rfl
    | 1 => simp [nested_locks, waits_on_held]
    | n + 2 => simp [nested_locks, waits_on_held, List.erase_cons, hb, hc, h, h2]
  · simp [nested_locks, waits_on_held, List.erase_cons, hb, hc, h, h2]
  · match n with
    | 0 => simp [nested_locks, waits_on_held]
    | 1 => simp [nested_locks, waits_on_held]
    | n + 2 => simp [nested_locks, waits_on_held, List.erase_cons, hb, hc, h, h2]
  · simp [nested_locks, waits_on_held, List.erase_cons, hb, hc, h, h2]
theorem male_decide_loc (left_neighbor right_neighbor : Int) (inp : MaleInput) (v : View) :
    (male_decide left_neighbor right_neighbor inp v).1.loc = v.loc
      ∧ ((male_decide left_neighbor right_neighbor inp v).2 = left_neighbor
        ∨ (male_decide left_neighbor right_neighbor inp v).2 = right_neighbor
        ∨ (male_decide left_neighbor right_neighbor inp v).2 = -1) := by
  unfold male_decide
  simp only
  split_ifs <;> exact ⟨rfl, by simp⟩

theorem male_attack_no_rewait (config : SimConfig) (left_neighbor right_neighbor : Int)
    (inp : MaleInput) (v : View) (k : Int)
    (hl : left_neighbor ≠ v.loc.family_id ∨ left_neighbor = -1)
    (hr : right_neighbor ≠ v.loc.family_id ∨ right_neighbor = -1) :
    waits_on_held [] (male_attack config left_neighbor right_neighbor inp v).2 = false
      ∧ waits_on_held []
          ([LockEv.wait k, LockEv.post k]
            ++ (male_attack config left_neighbor right_neighbor inp v).2) = false := by
  unfold male_attack
  simp only
  have hd := male_decide_loc left_neighbor right_neighbor inp v
  split_ifs with h
  · have hne : (male_decide left_neighbor right_neighbor inp v).1.loc.family_id
        ≠ (male_decide left_neighbor right_neighbor inp v).2 := by
      rw [hd.1]
      rcases hd.2 with h2 | h2 | h2
      · rw [h2]
        rcases hl with hl | hl
        · exact fun x => hl x.symm
        · rw [h2, hl] at h; exact absurd h.1 (by decide)
      · rw [h2]
        rcases hr with hr | hr
        · exact fun x => hr x.symm
        · rw [h2, hr] at h; exact absurd h.1 (by decide)
      · rw [h2] at h; exact absurd h.1 (by decide)
    have ht := two_lock_traces config (male_decide left_neighbor right_neighbor inp v).2
      inp.now inp.now2 0 inp.i_win false 0 inp.e1 inp.e2 inp.window
      (male_decide left_neighbor right_neighbor inp v).1
      (male_decide left_neighbor right_neighbor inp v).1 hne
    obtain ⟨hlt, _, _, _, ⟨n, hm⟩, _⟩ := ht
    have hw := waits_on_held_nested _ _ (ne_of_lt hlt)
    rcases hm with hm | hm
    · rw [hm]
      exact ⟨(hw n).1, ((hw n).2.2 k).1⟩
    · rw [hm]
      exact ⟨(hw 0).2.1, ((hw 0).2.2 k).2⟩
  · exact ⟨rfl, by simp [waits_on_held]⟩

theorem get_basket_count_shape (e : Interference) (v : View)
    (he : (e v).loc.family_id = v.loc.family_id) :
    (get_basket_count e v).1.loc.family_id = v.loc.family_id
      ∧ ((get_basket_count e v).2.2 = []
        ∨ (get_basket_count e v).2.2
          = [LockEv.wait v.loc.family_id, LockEv.post v.loc.family_id]) := by
  unfold get_basket_count
  simp only
  split_ifs
  · exact ⟨rfl, Or.inl rfl⟩
  · exact ⟨he, Or.inr rfl⟩

theorem male_pass_no_rewait (config : SimConfig) (inp : MaleInput) (v : View)
    (he : ∀ u, (inp.e_count u).loc.family_id = u.loc.family_id) :
    waits_on_held [] (male_pass config inp v).2.2 = false := by
  unfold male_pass male_cycle
  simp only
  have hs := get_basket_count_shape inp.e_count (male_sync_energy v) (he _)
  have hid : (get_basket_count inp.e_count (male_sync_energy v)).1.loc.family_id
      = v.loc.family_id := hs.1
  have hc : (get_basket_count inp.e_count (male_sync_energy v)).2.2 = []
      ∨ (get_basket_count inp.e_count (male_sync_energy v)).2.2
        = [LockEv.wait v.loc.family_id, LockEv.post v.loc.family_id] := hs.2
  split_ifs
  · rfl
  · rfl
  · rcases hc with hc | hc
    · rw [hc]; rfl
    · rw [hc]; simp [waits_on_held]
  · have hl : (get_neighbors v.loc.family_id v.sh.num_families).1
        ≠ (get_basket_count inp.e_count (male_sync_energy v)).1.loc.family_id
        ∨ (get_neighbors v.loc.family_id v.sh.num_families).1 = -1 := by
      rw [hid]
      unfold get_neighbors
      simp only
      split_ifs
      · exact Or.inl (by omega)
      · exact Or.inr rfl
    have hr : (get_neighbors v.loc.family_id v.sh.num_families).2
        ≠ (get_basket_count inp.e_count (male_sync_energy v)).1.loc.family_id
        ∨ (get_neighbors v.loc.family_id v.sh.num_families).2 = -1 := by
      rw [hid]
      unfold get_neighbors
      simp only
      split_ifs
      · exact Or.inl (by omega)
      · exact Or.inr rfl
    have ha := male_attack_no_rewait config _ _ inp _ v.loc.family_id hl hr
    rcases hc with hc | hc
    · rw [hc, List.nil_append]
      exact ha.1
    · rw [hc]
      exact ha.2

theorem female_collision_no_rewait (config : SimConfig) (now : Int) (i_win : Bool)
    (e1 e2 : Interference) (v : View) :
    waits_on_held [] (female_collision config now i_win e1 e2 v).2 = false := by
  unfold female_collision
  simp only
  split_ifs with h1 h2 h3 h4
  · rfl
  · have hc := check_female_collision_range v.sh v.loc.female_x v.loc.female_y v.loc.family_id
    have hne : v.loc.family_id
        ≠ check_female_collision v.sh v.loc.female_x v.loc.female_y v.loc.family_id := by
      rcases hc with hc | hc
      · rw [hc] at h2; exact absurd h2.1 (by decide)
      · exact fun x => hc.2.2 x.symm
    obtain ⟨hlt, ⟨n, hf⟩, _⟩ := two_lock_traces config
      (check_female_collision v.sh v.loc.female_x v.loc.female_y v.loc.family_id)
      now now 0 i_win false 0 e1 e2 id v v hne
    rw [hf]
    exact (waits_on_held_nested _ _ (ne_of_lt hlt) n).1
  · rfl
  · rfl
  · rfl

theorem baby_theft_no_rewait (config : SimConfig) (baby_id target now : Int) (r : Nat)
    (eat : Bool) (e1 e2 : Interference) (v : View)
    (h : target = -1 ∨ target ≠ v.loc.family_id) :
    waits_on_held [] (baby_theft config baby_id target now r eat e1 e2 v).2.2 = false := by
  by_cases hne : v.loc.family_id = target
  · have ht : target = -1 := by
      rcases h with h | h
      · exact h
      · exact absurd hne.symm h
    subst ht
    unfold baby_theft
    simp only
    rw [if_neg (fun x => absurd x.1 (by decide))]
    rfl
  · obtain ⟨hlt, _, _, _, _, ⟨n, hf⟩⟩ := two_lock_traces config target now now baby_id
      true eat r e1 e2 id v v hne
    rw [hf]
    exact (waits_on_held_nested _ _ (ne_of_lt hlt) n).1

/-- C29. The two locks of a two-lock operation are distinct and in range: for
a family id with `0 ≤ id < n`, each neighbour `get_neighbors` yields is `-1`
or an id of `[0, n)` other than `id`; `check_female_collision` returns `-1`
or an id of `[0, num_families)` other than `my_family_id`; the target the
opportunist's search yields is `-1` (no theft follows) or an id of
`[0, num_families)` other than its own family's; so in the collector's
collision step, in a pass of the guard's loop and in the opportunist's theft
no thread waits on a basket lock it holds. -/
theorem two_locks_distinct_in_range (n id : Int) (h0 : 0 ≤ id) (hn : id < n) :
    ((get_neighbors id n).1 = -1
        ∨ (0 ≤ (get_neighbors id n).1 ∧ (get_neighbors id n).1 < n
          ∧ (get_neighbors id n).1 ≠ id))
      ∧ ((get_neighbors id n).2 = -1
        ∨ (0 ≤ (get_neighbors id n).2 ∧ (get_neighbors id n).2 < n
          ∧ (get_neighbors id n).2 ≠ id))
      ∧ (∀ (shared : SharedData) (x y : Int), shared.num_families = n →
          check_female_collision shared x y id = -1
            ∨ (0 ≤ check_female_collision shared x y id
              ∧ check_female_collision shared x y id < n
              ∧ check_female_collision shared x y id ≠ id))
      ∧ (∀ (shared : SharedData) (rand : Nat → Nat) (fuel attempts : Nat),
          shared.num_families = n →
          baby_find_target id shared rand fuel attempts = -1
            ∨ (0 ≤ baby_find_target id shared rand fuel attempts
              ∧ baby_find_target id shared rand fuel attempts < n
              ∧ baby_find_target id shared rand fuel attempts ≠ id))
      ∧ (∀ (config : SimConfig) (v : View), v.loc.family_id = id → v.sh.num_families = n →
          (∀ (now : Int) (i_win : Bool) (e1 e2 : Interference),
            waits_on_held [] (female_collision config now i_win e1 e2 v).2 = false)
          ∧ (∀ (inp : MaleInput), (∀ u, (inp.e_count u).loc.family_id = u.loc.family_id) →
            waits_on_held [] (male_pass config inp v).2.2 = false)
          ∧ (∀ (baby_id now : Int) (r : Nat) (eat : Bool) (rand : Nat → Nat)
              (fuel attempts : Nat) (e1 e2 : Interference),
            waits_on_held []
              (baby_theft config baby_id (baby_find_target id v.sh rand fuel attempts)
                now r eat e1 e2 v).2.2 = false)) := by
  have hnb := get_neighbors_range id n h0 hn
  refine ⟨hnb.1, hnb.2, ?_, ?_, ?_⟩
  · intro shared x y hs
    rw [← hs]
    exact check_female_collision_range shared x y id
  · intro shared rand fuel attempts hs
    rw [← hs]
    exact baby_find_target_range id shared rand h0 (by rw [hs]; exact hn) fuel attempts
  · intro config v hid hs
    refine ⟨fun now i_win e1 e2 => female_collision_no_rewait config now i_win e1 e2 v,
      fun inp he => male_pass_no_rewait config inp v he, ?_⟩
    intro baby_id now r eat rand fuel attempts e1 e2
    refine baby_theft_no_rewait config baby_id _ now r eat e1 e2 v ?_
    rcases baby_find_target_range id v.sh rand h0 (by rw [hs]; exact hn) fuel attempts
      with h | h
    · exact Or.inl h
    · rw [hid]
      exact Or.inr h.2.2

theorem two_locks_distinct_in_range_witness :
    (0 : Int) ≤ 0 ∧ (0 : Int) < 2
      ∧ get_neighbors 0 2 = (-1, 1)
      ∧ (male_pass two_family_config bold_input (basket_scene 3 4)).2.2
        = [LockEv.wait 0, LockEv.post 0, LockEv.wait 0, LockEv.wait 1, LockEv.post 1,
            LockEv.post 0, LockEv.wait 0, LockEv.wait 1, LockEv.post 1, LockEv.post 0]
      ∧ waits_on_held [] (male_pass two_family_config bold_input (basket_scene 3 4)).2.2
        = false :=
  ⟨by decide, by decide, by decide, by decide,
    ((two_locks_distinct_in_range 2 0 (by decide) (by decide)).2.2.2.2
      two_family_config (basket_scene 3 4) (by decide) (by decide)).2.1 bold_input
        (fun _ => rfl)⟩

/-! ### The guard's withdrawal -/

theorem guardKept_refl (p : Prop) (v : View) : GuardKept p v v :=
  ⟨rfl, rfl, fun _ => rfl, rfl, Or.inl ⟨rfl, rfl⟩⟩

theorem guardKept_mono {p q : Prop} {v w : View} (hpq : p → q) (h : GuardKept p v w) :
    GuardKept q v w := by
  obtain ⟨h1, h2, h3, h4, h5⟩ := h
  refine ⟨h1, h2, h3, h4, ?_⟩
  rcases h5 with h5 | h5
  · exact Or.inl h5
  · exact Or.inr ⟨hpq h5.1, h5.2⟩

theorem guardKept_setFam {p : Prop} {v w : View} {i : Int} {f : FamilyStatus → FamilyStatus}
    (hf : ∀ x, (f x).is_active = x.is_active) (h : GuardKept p v w) :
    GuardKept p v (w.setFam i f) := by
  obtain ⟨h1, h2, h3, h4, h5⟩ := h
  refine ⟨h1, h2, fun k => ?_, h4, h5⟩
  rw [setFam_families]
  split_ifs with hk
  · rw [hf, hk]; exact h3 i
  · exact h3 k

theorem guardKept_setLoc {p : Prop} {v w : View} {f : FamilyLocal → FamilyLocal}
    (hf : ∀ x, (f x).family_id = x.family_id ∧ (f x).should_withdraw = x.should_withdraw)
    (h : GuardKept p v w) : GuardKept p v (w.setLoc f) := by
  obtain ⟨h1, h2, h3, h4, h5⟩ := h
  exact ⟨(hf _).1.trans h1, (hf _).2.trans h2, h3, h4, h5⟩

theorem guardKept_event {p : Prop} {v w : View} {now : Int} {fmt : String} {args : List Int}
    (h : GuardKept p v w) : GuardKept p v (w.event now fmt args) := h

theorem guardKept_text {p : Prop} {v w : View} {now : Int} {text : List Char}
    (h : GuardKept p v w) :
    GuardKept p v { w with sh := add_shared_event w.sh now text } := h

theorem guardKept_aloof {p : Prop} {v w : View} {e : Interference} (he : Aloof e)
    (h : GuardKept p v w) : GuardKept p v (e w) := by
  obtain ⟨h1, h2, h3, h4, h5⟩ := h
  obtain ⟨e1, e2, e3, e4, e5⟩ := he w
  refine ⟨by rw [e1]; exact h1, by rw [e1]; exact h2, fun k => (e2 k).trans (h3 k),
    e3.trans h4, ?_⟩
  rw [e4, e5]
  exact h5

theorem guardKept_threshold {p : Prop} {v w : View} (config : SimConfig) (my_id now : Int)
    (hp : p) (h : GuardKept p v w) :
    GuardKept p v (male_fight_check_threshold config my_id now w) := by
  obtain ⟨h1, h2, h3, h4, h5⟩ := h
  unfold male_fight_check_threshold
  split_ifs
  · exact ⟨h1, h2, h3, h4, Or.inr ⟨hp, rfl, rfl⟩⟩
  · exact ⟨h1, h2, h3, h4, h5⟩

theorem male_fight_signal_kept {p : Prop} {v0 : View} (my_id opponent_id now : Int) (v : View)
    (h : GuardKept p v0 v) : GuardKept p v0 (male_fight_signal my_id opponent_id now v) := by
  unfold male_fight_signal
  simp only
  repeat' first
    | with_reducible exact h
    | with_reducible apply guardKept_event
    | with_reducible apply guardKept_setFam
    | with_reducible apply guardKept_setLoc
    | exact fun _ => rfl
    | exact fun _ => ⟨rfl, rfl⟩

theorem male_fight_start_kept {p : Prop} {v0 : View} (opponent_id now : Int)
    (e1 e2 : Interference) (h1 : Aloof e1) (h2 : Aloof e2) (v : View)
    (h : GuardKept p v0 v) : GuardKept p v0 (male_fight_start opponent_id now e1 e2 v).2.1 := by
  have g1 : GuardKept p v0 (e1 v) := guardKept_aloof h1 h
  have g2 : GuardKept p v0 (e2 (e1 v)) := guardKept_aloof h2 g1
  have g3 := male_fight_signal_kept v.loc.family_id opponent_id now _ g2
  unfold male_fight_start
  simp only
  split_ifs <;> dsimp only <;> first
    | with_reducible exact h
    | with_reducible exact g1
    | with_reducible exact g2
    | with_reducible exact g3

theorem male_fight_outcome_kept {p : Prop} {v0 : View} (config : SimConfig)
    (my_id opponent_id now : Int) (i_win : Bool) (hp : i_win = true → p) (v : View)
    (h : GuardKept p v0 v) :
    GuardKept p v0 (male_fight_outcome config my_id opponent_id now i_win v) := by
  unfold male_fight_outcome
  simp only
  split_ifs with hw
  · apply guardKept_threshold config my_id now (hp hw)
    apply guardKept_event
    refine guardKept_setFam (fun _ => rfl) ?_
    refine guardKept_setFam (fun _ => rfl) ?_
    refine guardKept_setFam (fun _ => rfl) ?_
    refine guardKept_setFam (fun _ => rfl) ?_
    exact guardKept_setLoc (fun _ => ⟨rfl, rfl⟩) h
  · apply guardKept_event
    refine guardKept_setFam (fun _ => rfl) ?_
    refine guardKept_setFam (fun _ => rfl) ?_
    refine guardKept_setFam (fun _ => rfl) ?_
    refine guardKept_setLoc (fun _ => ⟨rfl, rfl⟩) ?_
    exact guardKept_setFam (fun _ => rfl) h

theorem male_fight_energy_kept {p : Prop} {v0 : View} (config : SimConfig)
    (my_id opponent_id now : Int) (v : View) (h : GuardKept p v0 v) :
    GuardKept p v0 (male_fight_energy config my_id opponent_id now v) := by
  unfold male_fight_energy
  simp only
  apply guardKept_event
  have g1 : GuardKept p v0 (v.setLoc (fun l =>
      { l with male_energy := l.male_energy - config.male_fight_energy_cost })) :=
    guardKept_setLoc (fun _ => ⟨rfl, rfl⟩) h
  split_ifs
  all_goals
    repeat' first
      | with_reducible exact g1
      | with_reducible apply guardKept_setFam
      | with_reducible apply guardKept_setLoc
      | exact fun _ => rfl
      | exact fun _ => ⟨rfl, rfl⟩

theorem male_fight_end_kept {p : Prop} {v0 : View} (my_id opponent_id : Int) (v : View)
    (h : GuardKept p v0 v) : GuardKept p v0 (male_fight_end my_id opponent_id v) := by
  unfold male_fight_end
  simp only
  repeat' first
    | with_reducible exact h
    | with_reducible apply guardKept_setFam
    | with_reducible apply guardKept_setLoc
    | exact fun _ => rfl
    | exact fun _ => ⟨rfl, rfl⟩

theorem male_fight_finish_kept {p : Prop} {v0 : View} (config : SimConfig)
    (my_id opponent_id now : Int) (i_win : Bool) (hp : i_win = true → p) (v : View)
    (h : GuardKept p v0 v) :
    GuardKept p v0 (male_fight_finish config my_id opponent_id now i_win v).1 :=
  male_fight_end_kept my_id opponent_id _
    (male_fight_energy_kept config my_id opponent_id now _
      (male_fight_outcome_kept config my_id opponent_id now i_win hp v h))

theorem male_fight_kept {p : Prop} {v0 : View} (config : SimConfig)
    (opponent_id now now2 : Int) (i_win : Bool) (hp : i_win = true → p)
    (e1 e2 window : Interference) (h1 : Aloof e1) (h2 : Aloof e2) (h3 : Aloof window)
    (v : View) (h : GuardKept p v0 v) :
    GuardKept p v0 (male_fight config opponent_id now now2 i_win e1 e2 window v).1 := by
  have g := male_fight_start_kept opponent_id now e1 e2 h1 h2 v h
  unfold male_fight
  simp only
  split_ifs
  · exact male_fight_finish_kept config _ opponent_id now2 i_win hp _ (guardKept_aloof h3 g)
  · exact g

theorem male_decide_kept {p : Prop} {v0 : View} (left_neighbor right_neighbor : Int)
    (inp : MaleInput) (v : View) (h : GuardKept p v0 v) :
    GuardKept p v0 (male_decide left_neighbor right_neighbor inp v).1
      ∧ ((male_decide left_neighbor right_neighbor inp v).2 ≥ 0 →
          inp.fight_left = true ∨ inp.fight_right = true) := by
  unfold male_decide
  simp only
  split_ifs with a1 a2 a3 a4 a5 a6 a7 a8 <;> dsimp only <;>
    first
    | exact ⟨h, fun _ => Or.inl a2⟩
    | exact ⟨h, fun _ => Or.inr a4⟩
    | exact ⟨h, fun _ => Or.inr a5⟩
    | exact ⟨h, fun _ => Or.inr a6⟩
    | exact ⟨h, fun _ => Or.inr a7⟩
    | exact ⟨h, fun _ => Or.inr a8⟩
    | exact ⟨h, fun x => absurd x (by decide)⟩

theorem male_attack_kept {v0 : View} (config : SimConfig) (left_neighbor right_neighbor : Int)
    (inp : MaleInput) (h1 : Aloof inp.e1) (h2 : Aloof inp.e2) (h3 : Aloof inp.window)
    (v : View)
    (h : GuardKept ((inp.fight_left = true ∨ inp.fight_right = true) ∧ inp.i_win = true) v0 v) :
    GuardKept ((inp.fight_left = true ∨ inp.fight_right = true) ∧ inp.i_win = true) v0
      (male_attack config left_neighbor right_neighbor inp v).1 := by
  have hd := male_decide_kept left_neighbor right_neighbor inp v h
  unfold male_attack
  simp only
  split_ifs with ht
  · exact male_fight_kept config _ inp.now inp.now2 inp.i_win (fun hw => ⟨hd.2 ht.1, hw⟩)
      inp.e1 inp.e2 inp.window h1 h2 h3 _ hd.1
  · exact hd.1

theorem get_basket_count_kept {p : Prop} {v0 : View} (e : Interference) (he : Aloof e)
    (v : View) (h : GuardKept p v0 v) : GuardKept p v0 (get_basket_count e v).1 := by
  unfold get_basket_count
  simp only
  split_ifs
  · exact h
  · exact guardKept_setLoc (fun _ => ⟨rfl, rfl⟩) (guardKept_aloof he h)

theorem male_cycle_kept (config : SimConfig) (left_neighbor right_neighbor : Int)
    (inp : MaleInput) (h0 : Aloof inp.e_count) (h1 : Aloof inp.e1) (h2 : Aloof inp.e2)
    (h3 : Aloof inp.window) (v : View)
    (hhigh : ¬ (v.sh.families v.loc.family_id).male_energy < config.male_withdraw_threshold) :
    GuardKept ((inp.fight_left = true ∨ inp.fight_right = true) ∧ inp.i_win = true) v
      (male_cycle config left_neighbor right_neighbor inp v).2.1 := by
  have g1 : GuardKept ((inp.fight_left = true ∨ inp.fight_right = true) ∧ inp.i_win = true) v
      (male_sync_energy v) :=
    guardKept_setLoc (fun _ => ⟨rfl, rfl⟩) (guardKept_refl _ v)
  have g2 := get_basket_count_kept inp.e_count h0 _ g1
  have g3 := male_attack_kept config left_neighbor right_neighbor inp h1 h2 h3 _ g2
  unfold male_cycle
  simp only
  rw [if_neg (by exact hhigh)]
  split_ifs
  · exact g1
  · exact g2
  · exact g3
theorem male_withdraw_fields (config : SimConfig) (now : Int) (v : View) :
    ((male_withdraw config now v).sh.families v.loc.family_id).is_active = 0
      ∧ (male_withdraw config now v).loc.should_withdraw = 1
      ∧ (male_withdraw config now v).sh.withdrawn_count = v.sh.withdrawn_count + 1
      ∧ (v.sh.withdrawn_count + 1 ≥ config.max_withdrawn_families →
          (male_withdraw config now v).sh.simulation_running = 0
            ∧ (male_withdraw config now v).sh.termination_reason = TERM_WITHDRAWN_THRESHOLD)
      ∧ (¬ v.sh.withdrawn_count + 1 ≥ config.max_withdrawn_families →
          (male_withdraw config now v).sh.simulation_running = v.sh.simulation_running)
      ∧ (∀ k, ((male_withdraw config now v).sh.families k).male_fighting
            = (v.sh.families k).male_fighting
          ∧ ((male_withdraw config now v).sh.families k).basket_bananas
            = (v.sh.families k).basket_bananas) := by
  unfold male_withdraw
  simp only
  have hf : ∀ k, ((v.setLoc (fun l => { l with should_withdraw := 1 })).setFam
      (v.setLoc (fun l => { l with should_withdraw := 1 })).loc.family_id
        (fun f => { f with is_active := 0 })).sh.families k
      = if k = v.loc.family_id then { v.sh.families k with is_active := 0 }
        else v.sh.families k := by
    intro k
    have e : (v.setLoc (fun l => { l with should_withdraw := 1 })).loc.family_id
        = v.loc.family_id := rfl
    rw [setFam_families, e]
    split_ifs with hk
    · subst hk; rfl
    · rfl
  by_cases hc : v.sh.withdrawn_count + 1 ≥ config.max_withdrawn_families
  · rw [if_pos (by exact hc)]
    refine ⟨?_, rfl, rfl, fun _ => ⟨rfl, rfl⟩, fun h => absurd hc h, fun k => ?_⟩
    · exact (congrArg FamilyStatus.is_active (hf v.loc.family_id)).trans (by rw [if_pos rfl])
    · have := hf k
      constructor
      · refine (congrArg FamilyStatus.male_fighting this).trans ?_
        split_ifs <;> rfl
      · refine (congrArg FamilyStatus.basket_bananas this).trans ?_
        split_ifs <;> rfl
  · rw [if_neg (by exact hc)]
    refine ⟨?_, rfl, rfl, fun h => absurd h hc, fun _ => rfl, fun k => ?_⟩
    · exact (congrArg FamilyStatus.is_active (hf v.loc.family_id)).trans (by rw [if_pos rfl])
    · have := hf k
      constructor
      · refine (congrArg FamilyStatus.male_fighting this).trans ?_
        split_ifs <;> rfl
      · refine (congrArg FamilyStatus.basket_bananas this).trans ?_
        split_ifs <;> rfl

theorem should_continue_running (v : View) (h : should_continue v = true) :
    v.sh.simulation_running ≠ 0 := by
  unfold should_continue at h
  simp only [Bool.and_eq_true, decide_eq_true_eq] at h
  exact h.1.1

/-- C23, the claim as stated fails.  In the world where both baskets hold two
units and the winning threshold is three, guard 0, whose energy of 100 is
above the withdrawal threshold of 15, makes a pass of its loop in which it
fights its right neighbour and wins: the pass sets `simulation_running` to 0
and `termination_reason` to `TERM_BASKET_THRESHOLD`. -/
theorem guard_pass_can_end_simulation :
    should_continue (rush_world_4.view 0) = true
      ∧ ¬ ((rush_world_4.view 0).sh.families 0).male_energy
          < rush_config.male_withdraw_threshold
      ∧ (rush_world_4.view 0).sh.simulation_running = 1
      ∧ (rush_world_4.view 0).sh.termination_reason = TERM_RUNNING
      ∧ (male_pass rush_config bold_input (rush_world_4.view 0)).2.1.sh.simulation_running = 0
      ∧ (male_pass rush_config bold_input (rush_world_4.view 0)).2.1.sh.termination_reason
        = TERM_BASKET_THRESHOLD := by
  decide

/-- C23, amended.  Take a pass of the guard's loop entered after the loop
test, the rest of the system leaving alone, while the guard is blocked or
asleep, the process's private data and the fields a withdrawal writes.  When
the guard's shared energy is below `male_withdraw_threshold` the pass is the
withdrawal block and nothing else: it leaves the loop, takes no basket lock
and starts no fight, sets the family's `is_active` to 0 and `should_withdraw`
to 1, raises `withdrawn_count` by exactly 1, and sets `simulation_running` to
0 with `termination_reason = TERM_WITHDRAWN_THRESHOLD` exactly when the new
`withdrawn_count` is at least `max_withdrawn_families`.  When the energy is at
or above the threshold, `is_active`, `should_withdraw` and `withdrawn_count`
do not change, and `simulation_running` and `termination_reason` do not
change either unless a fight was drawn in the pass and won, in which case
they are unchanged or set to 0 and `TERM_BASKET_THRESHOLD`. -/
theorem guard_withdrawal (config : SimConfig) (left_neighbor right_neighbor : Int)
    (inp : MaleInput) (v : View) (hstart : should_continue v = true)
    (h0 : Aloof inp.e_count) (h1 : Aloof inp.e1) (h2 : Aloof inp.e2)
    (h3 : Aloof inp.window) :
    ((v.sh.families v.loc.family_id).male_energy < config.male_withdraw_threshold →
        male_cycle config left_neighbor right_neighbor inp v
            = (false, male_withdraw config inp.now (male_sync_energy v), [])
          ∧ (((male_cycle config left_neighbor right_neighbor inp v).2.1).sh.families
              v.loc.family_id).is_active = 0
          ∧ ((male_cycle config left_neighbor right_neighbor inp v).2.1).loc.should_withdraw = 1
          ∧ ((male_cycle config left_neighbor right_neighbor inp v).2.1).sh.withdrawn_count
            = v.sh.withdrawn_count + 1
          ∧ ((((male_cycle config left_neighbor right_neighbor inp v).2.1).sh.simulation_running
                = 0
              ∧ ((male_cycle config left_neighbor right_neighbor inp v).2.1).sh.termination_reason
                = TERM_WITHDRAWN_THRESHOLD)
            ↔ ((male_cycle config left_neighbor right_neighbor inp v).2.1).sh.withdrawn_count
                ≥ config.max_withdrawn_families)
          ∧ (∀ k,
              (((male_cycle config left_neighbor right_neighbor inp v).2.1).sh.families
                  k).male_fighting = (v.sh.families k).male_fighting
              ∧ (((male_cycle config left_neighbor right_neighbor inp v).2.1).sh.families
                  k).basket_bananas = (v.sh.families k).basket_bananas))
      ∧ (¬ (v.sh.families v.loc.family_id).male_energy < config.male_withdraw_threshold →
          (((male_cycle config left_neighbor right_neighbor inp v).2.1).sh.families
              v.loc.family_id).is_active = (v.sh.families v.loc.family_id).is_active
          ∧ ((male_cycle config left_neighbor right_neighbor inp v).2.1).loc.should_withdraw
            = v.loc.should_withdraw
          ∧ ((male_cycle config left_neighbor right_neighbor inp v).2.1).sh.withdrawn_count
            = v.sh.withdrawn_count
          ∧ ((((male_cycle config left_neighbor right_neighbor inp v).2.1).sh.simulation_running
                = v.sh.simulation_running
              ∧ ((male_cycle config left_neighbor right_neighbor inp v).2.1).sh.termination_reason
                = v.sh.termination_reason)
            ∨ (((inp.fight_left = true ∨ inp.fight_right = true) ∧ inp.i_win = true)
              ∧ ((male_cycle config left_neighbor right_neighbor inp v).2.1).sh.simulation_running
                = 0
              ∧ ((male_cycle config left_neighbor right_neighbor inp v).2.1).sh.termination_reason
                = TERM_BASKET_THRESHOLD))) := by
  constructor
  · intro hlow
    have hc : male_cycle config left_neighbor right_neighbor inp v
        = (false, male_withdraw config inp.now (male_sync_energy v), []) := by
      unfold male_cycle
      simp only
      rw [if_pos (by exact hlow)]
    rw [hc]
    obtain ⟨w1, w2, w3, w4, w5, w6⟩ := male_withdraw_fields config inp.now (male_sync_energy v)
    refine ⟨rfl, w1, w2, w3, ⟨fun h => ?_, fun h => ?_⟩, w6⟩
    · by_contra hn
      have hn2 : ¬ v.sh.withdrawn_count + 1 ≥ config.max_withdrawn_families := by
        intro hx
        exact hn (by rw [w3]; exact hx)
      have := w5 hn2
      exact should_continue_running v hstart (this.symm.trans h.1)
    · exact w4 (by rw [w3] at h; exact h)
  · intro hhigh
    obtain ⟨_, k2, k3, k4, k5⟩ :=
      male_cycle_kept config left_neighbor right_neighbor inp h0 h1 h2 h3 v hhigh
    exact ⟨k3 _, k2, k4, k5⟩

theorem guard_withdrawal_witness :
    should_continue weary_scene = true
      ∧ (weary_scene.sh.families weary_scene.loc.family_id).male_energy
          < two_family_config.male_withdraw_threshold
      ∧ male_cycle two_family_config (-1) 1 bold_input weary_scene
          = (false, male_withdraw two_family_config 100 (male_sync_energy weary_scene), [])
      ∧ ((male_cycle two_family_config (-1) 1 bold_input weary_scene).2.1).sh.withdrawn_count
          = 1
      ∧ ((male_cycle two_family_config (-1) 1 bold_input weary_scene).2.1).sh.simulation_running
          = 1 :=
  ⟨by decide, by decide,
    ((guard_withdrawal two_family_config (-1) 1 bold_input weary_scene (by decide)
      (fun _ => ⟨rfl, fun _ => rfl, rfl, rfl, rfl⟩) (fun _ => ⟨rfl, fun _ => rfl, rfl, rfl, rfl⟩)
      (fun _ => ⟨rfl, fun _ => rfl, rfl, rfl, rfl⟩)
      (fun _ => ⟨rfl, fun _ => rfl, rfl, rfl, rfl⟩)).1 (by decide)).1,
    by decide, by decide⟩

/-! ### The flow counters -/

theorem flatMap_singleton_cast (l : List Nat) :
    (l.flatMap fun a => [(a : Int)]) = l.map (fun (a : Nat) => (a : Int)) := by
  induction l with
  | nil => rfl
  | cons a l ih =>
    rw [List.flatMap_cons, ih]
    rfl

theorem sum_upto_eq (n : Int) (g : Int → Int) :
    sum_upto n g = ((List.range n.toNat).map (fun (k : Nat) => g k)).sum := by
  unfold sum_upto
  have h : (do let a ← List.range n.toNat; pure (a : Int) : List Int)
      = (List.range n.toNat).map (fun (a : Nat) => (a : Int)) :=
    flatMap_singleton_cast _
  rw [h, List.map_map]
  rfl

theorem sum_range_update (g : Int → Int) (i x : Int) :
    ∀ m : Nat, ((List.range m).map (fun (k : Nat) => if (k : Int) = i then x else g k)).sum
      = ((List.range m).map (fun (k : Nat) => g k)).sum
        + (if 0 ≤ i ∧ i < m then x - g i else 0) := by
  intro m
  induction m with
  | zero =>
    simp only [List.range_zero, List.map_nil, List.sum_nil]
    rw [if_neg (by intro h; have := h.2; simp at this; omega)]
    rfl
  | succ m ih =>
    rw [List.range_succ, List.map_append, List.map_append, List.sum_append, List.sum_append, ih]
    simp only [List.map_cons, List.map_nil, List.sum_cons, List.sum_nil, add_zero]
    by_cases h1 : (m : Int) = i
    · rw [if_pos h1, if_neg (by omega), if_pos (by push_cast; omega), h1]
      omega
    · rw [if_neg h1]
      by_cases h2 : 0 ≤ i ∧ i < (m : Int)
      · rw [if_pos h2, if_pos (by push_cast; omega)]
        omega
      · rw [if_neg h2, if_neg (by push_cast; omega)]
        omega

theorem sum_upto_update (n i x : Int) (g : Int → Int) (h0 : 0 ≤ i) (hn : i < n) :
    sum_upto n (fun k => if k = i then x else g k) = sum_upto n g + (x - g i) := by
  rw [sum_upto_eq, sum_upto_eq, sum_range_update g i x n.toNat, if_pos (by omega)]

theorem sum_upto_sub (n : Int) (g h : Int → Int) :
    sum_upto n (fun k => g k - h k) = sum_upto n g - sum_upto n h := by
  rw [sum_upto_eq, sum_upto_eq, sum_upto_eq]
  induction n.toNat with
  | zero => rfl
  | succ m ih =>
    rw [List.range_succ, List.map_append, List.map_append, List.map_append, List.sum_append,
      List.sum_append, List.sum_append, ih]
    simp only [List.map_cons, List.map_nil, List.sum_cons, List.sum_nil, add_zero]
    omega

theorem sum_upto_congr (n : Int) (g h : Int → Int)
    (hgh : ∀ k, 0 ≤ k → k < n → g k = h k) : sum_upto n g = sum_upto n h := by
  rw [sum_upto_eq, sum_upto_eq]
  congr 1
  apply List.map_congr_left
  intro k hk
  rw [List.mem_range] at hk
  exact hgh k (by omega) (by omega)

theorem balanced_iff_flow (v : View) :
    Balanced v.sh ↔ flow net_male v = 0 ∧ flow net_female v = 0 := by
  unfold Balanced flow net_male net_female
  rw [sum_upto_sub, sum_upto_sub]
  constructor
  · intro h
    exact ⟨by rw [h.1]; exact sub_self _, by rw [h.2]; exact sub_self _⟩
  · intro h
    exact ⟨sub_eq_zero.1 h.1, sub_eq_zero.1 h.2⟩

theorem flowInv_iff (n i : Int) (v : View) : FlowInv n i v ↔ FlowAt n i 0 0 v := by
  unfold FlowInv FlowAt
  rw [balanced_iff_flow]

theorem flow_setFam (net : FamilyStatus → Int) (v : View) (j : Int)
    (f : FamilyStatus → FamilyStatus) (c : Int)
    (hf : net (f (v.sh.families j)) = net (v.sh.families j) + c)
    (hr : (0 ≤ j ∧ j < v.sh.num_families) ∨ c = 0) :
    flow net (v.setFam j f) = flow net v + c := by
  unfold flow
  have hfun : (fun k => net ((v.setFam j f).sh.families k))
      = (fun k => if k = j then net (f (v.sh.families j)) else net (v.sh.families k)) := by
    funext k
    rw [setFam_families]
    split_ifs <;> rfl
  have hnum : (v.setFam j f).sh.num_families = v.sh.num_families := rfl
  rw [hfun, hnum]
  rcases hr with hr | hr
  · rw [sum_upto_update _ _ _ _ hr.1 hr.2, hf]
    omega
  · rw [hr, add_zero]
    apply sum_upto_congr
    intro k _ _
    split_ifs with hk
    · rw [hf, hr, add_zero, hk]
    · rfl

theorem flowAt_congr {n i m f m2 f2 : Int} {v : View} (hm : m2 = m) (hf : f2 = f)
    (h : FlowAt n i m2 f2 v) : FlowAt n i m f v := by
  subst hm; subst hf; exact h

theorem flowAt_same {n i m f : Int} {v : View} {j : Int} {g : FamilyStatus → FamilyStatus}
    (hg : ∀ x, net_male (g x) = net_male x ∧ net_female (g x) = net_female x)
    (h : FlowAt n i m f v) : FlowAt n i m f (v.setFam j g) := by
  obtain ⟨h1, h2, h3, h4⟩ := h
  refine ⟨h1, h2, ?_, ?_⟩
  · rw [flow_setFam net_male v j g 0 (by rw [(hg _).1, add_zero]) (Or.inr rfl), h3, add_zero]
  · rw [flow_setFam net_female v j g 0 (by rw [(hg _).2, add_zero]) (Or.inr rfl), h4, add_zero]

theorem flowAt_setLoc {n i m f : Int} {v : View} {g : FamilyLocal → FamilyLocal}
    (hg : ∀ x, (g x).family_id = x.family_id) (h : FlowAt n i m f v) :
    FlowAt n i m f (v.setLoc g) :=
  ⟨h.1, (hg _).trans h.2.1, h.2.2.1, h.2.2.2⟩

theorem flowAt_event {n i m f : Int} {v : View} {now : Int} {fmt : String} {args : List Int}
    (h : FlowAt n i m f v) : FlowAt n i m f (v.event now fmt args) := h

theorem flowAt_threshold {n i m f : Int} {v : View} (config : SimConfig) (my_id now : Int)
    (h : FlowAt n i m f v) : FlowAt n i m f (male_fight_check_threshold config my_id now v) := by
  unfold male_fight_check_threshold
  split_ifs
  · exact h
  · exact h

theorem flowAt_gain_male {n i m f : Int} {v : View} {j d : Int} (h0 : 0 ≤ j) (hn : j < n)
    (h : FlowAt n i (m - d) f v) :
    FlowAt n i m f (v.setFam j (fun x =>
      { x with bananas_from_male_fights := x.bananas_from_male_fights + d })) := by
  obtain ⟨h1, h2, h3, h4⟩ := h
  refine ⟨h1, h2, ?_, ?_⟩
  · rw [flow_setFam net_male v j _ d (by unfold net_male; dsimp only; omega)
      (Or.inl ⟨h0, by rw [h1]; exact hn⟩), h3]
    omega
  · rw [flow_setFam net_female v j _ 0 (by unfold net_female; dsimp only; omega) (Or.inr rfl),
      h4, add_zero]

theorem flowAt_loss_male {n i m f : Int} {v : View} {j d : Int} (h0 : 0 ≤ j) (hn : j < n)
    (h : FlowAt n i (m + d) f v) :
    FlowAt n i m f (v.setFam j (fun x =>
      { x with bananas_lost_male_fights := x.bananas_lost_male_fights + d })) := by
  obtain ⟨h1, h2, h3, h4⟩ := h
  refine ⟨h1, h2, ?_, ?_⟩
  · rw [flow_setFam net_male v j _ (-d) (by unfold net_male; dsimp only; omega)
      (Or.inl ⟨h0, by rw [h1]; exact hn⟩), h3]
    omega
  · rw [flow_setFam net_female v j _ 0 (by unfold net_female; dsimp only; omega) (Or.inr rfl),
      h4, add_zero]

theorem flowAt_gain_female {n i m f : Int} {v : View} {j d : Int} (h0 : 0 ≤ j) (hn : j < n)
    (h : FlowAt n i m (f - d) v) :
    FlowAt n i m f (v.setFam j (fun x =>
      { x with bananas_from_female_fights := x.bananas_from_female_fights + d })) := by
  obtain ⟨h1, h2, h3, h4⟩ := h
  refine ⟨h1, h2, ?_, ?_⟩
  · rw [flow_setFam net_male v j _ 0 (by unfold net_male; dsimp only; omega) (Or.inr rfl),
      h3, add_zero]
  · rw [flow_setFam net_female v j _ d (by unfold net_female; dsimp only; omega)
      (Or.inl ⟨h0, by rw [h1]; exact hn⟩), h4]
    omega

theorem flowAt_loss_female {n i m f : Int} {v : View} {j d : Int} (h0 : 0 ≤ j) (hn : j < n)
    (h : FlowAt n i m (f + d) v) :
    FlowAt n i m f (v.setFam j (fun x =>
      { x with bananas_lost_female_fights := x.bananas_lost_female_fights + d })) := by
  obtain ⟨h1, h2, h3, h4⟩ := h
  refine ⟨h1, h2, ?_, ?_⟩
  · rw [flow_setFam net_male v j _ 0 (by unfold net_male; dsimp only; omega) (Or.inr rfl),
      h3, add_zero]
  · rw [flow_setFam net_female v j _ (-d) (by unfold net_female; dsimp only; omega)
      (Or.inl ⟨h0, by rw [h1]; exact hn⟩), h4]
    omega

theorem male_fight_outcome_flow {n i m f : Int} (config : SimConfig)
    (my_id opponent_id now : Int) (i_win : Bool) (v : View)
    (a0 : 0 ≤ my_id) (an : my_id < n) (b0 : 0 ≤ opponent_id) (bn : opponent_id < n)
    (h : FlowAt n i m f v) :
    FlowAt n i m f (male_fight_outcome config my_id opponent_id now i_win v) := by
  unfold male_fight_outcome
  simp only
  split_ifs
  · apply flowAt_threshold
    apply flowAt_event
    refine flowAt_loss_male b0 bn ?_
    refine flowAt_gain_male a0 an ?_
    refine flowAt_same (fun _ => ⟨rfl, rfl⟩) ?_
    refine flowAt_same (fun _ => ⟨rfl, rfl⟩) ?_
    refine flowAt_setLoc (fun _ => rfl) ?_
    exact flowAt_congr (by omega) rfl h
  · apply flowAt_event
    refine flowAt_loss_male a0 an ?_
    refine flowAt_gain_male b0 bn ?_
    refine flowAt_same (fun _ => ⟨rfl, rfl⟩) ?_
    refine flowAt_setLoc (fun _ => rfl) ?_
    refine flowAt_same (fun _ => ⟨rfl, rfl⟩) ?_
    exact flowAt_congr (by omega) rfl h

theorem male_fight_signal_flow {n i m f : Int} (my_id opponent_id now : Int) (v : View)
    (h : FlowAt n i m f v) : FlowAt n i m f (male_fight_signal my_id opponent_id now v) := by
  unfold male_fight_signal
  simp only
  repeat' first
    | with_reducible exact h
    | with_reducible apply flowAt_event
    | with_reducible apply flowAt_same
    | with_reducible apply flowAt_setLoc
    | exact fun _ => rfl
    | exact fun _ => ⟨rfl, rfl⟩

theorem male_fight_energy_flow {n i m f : Int} (config : SimConfig)
    (my_id opponent_id now : Int) (v : View) (h : FlowAt n i m f v) :
    FlowAt n i m f (male_fight_energy config my_id opponent_id now v) := by
  unfold male_fight_energy
  simp only
  apply flowAt_event
  have g1 : FlowAt n i m f (v.setLoc (fun l =>
      { l with male_energy := l.male_energy - config.male_fight_energy_cost })) :=
    flowAt_setLoc (fun _ => rfl) h
  split_ifs
  all_goals
    repeat' first
      | with_reducible exact g1
      | with_reducible apply flowAt_same
      | with_reducible apply flowAt_setLoc
      | exact fun _ => rfl
      | exact fun _ => ⟨rfl, rfl⟩

theorem male_fight_end_flow {n i m f : Int} (my_id opponent_id : Int) (v : View)
    (h : FlowAt n i m f v) : FlowAt n i m f (male_fight_end my_id opponent_id v) := by
  unfold male_fight_end
  simp only
  repeat' first
    | with_reducible exact h
    | with_reducible apply flowAt_same
    | with_reducible apply flowAt_setLoc
    | exact fun _ => rfl
    | exact fun _ => ⟨rfl, rfl⟩

theorem fair_step {n i : Int} {e : Interference} {v : View} (he : Fair n e)
    (h : FlowAt n i 0 0 v) : FlowAt n i 0 0 (e v) :=
  (flowInv_iff n i _).1 (he i v ((flowInv_iff n i v).2 h))

theorem male_fight_start_flow {n i : Int} (opponent_id now : Int)
    (e1 e2 : Interference) (h1 : Fair n e1) (h2 : Fair n e2) (v : View)
    (h : FlowAt n i 0 0 v) :
    FlowAt n i 0 0 (male_fight_start opponent_id now e1 e2 v).2.1 := by
  have g1 : FlowAt n i 0 0 (e1 v) := fair_step h1 h
  have g2 : FlowAt n i 0 0 (e2 (e1 v)) := fair_step h2 g1
  have g3 := male_fight_signal_flow v.loc.family_id opponent_id now _ g2
  unfold male_fight_start
  simp only
  split_ifs <;> dsimp only <;> first
    | with_reducible exact h
    | with_reducible exact g1
    | with_reducible exact g2
    | with_reducible exact g3

theorem male_fight_flow {n i : Int} (config : SimConfig) (opponent_id now now2 : Int)
    (i_win : Bool) (e1 e2 window : Interference) (h1 : Fair n e1) (h2 : Fair n e2)
    (h3 : Fair n window) (a0 : 0 ≤ i) (an : i < n) (b0 : 0 ≤ opponent_id)
    (bn : opponent_id < n) (v : View) (h : FlowAt n i 0 0 v) :
    FlowAt n i 0 0 (male_fight config opponent_id now now2 i_win e1 e2 window v).1 := by
  have g := male_fight_start_flow opponent_id now e1 e2 h1 h2 v h
  have hid : v.loc.family_id = i := h.2.1
  unfold male_fight
  simp only
  split_ifs
  · exact male_fight_end_flow _ opponent_id _
      (male_fight_energy_flow config _ opponent_id now2 _
        (male_fight_outcome_flow config _ opponent_id now2 i_win _ (by rw [hid]; exact a0)
          (by rw [hid]; exact an) b0 bn (fair_step h3 g)))
  · exact g

theorem female_fight_outcome_flow {n i m f : Int} (my_id other_family_id now : Int)
    (i_win : Bool) (v : View)
    (a0 : 0 ≤ my_id) (an : my_id < n) (b0 : 0 ≤ other_family_id) (bn : other_family_id < n)
    (h : FlowAt n i m f v) :
    FlowAt n i m f (female_fight_outcome my_id other_family_id now i_win v) := by
  have g : FlowAt n i m f
      ((((((v.setFam my_id (fun f => { f with female_fighting := 1 })).setFam my_id
        (fun f => { f with female_opponent := other_family_id })).setFam other_family_id
        (fun f => { f with female_fighting := 1 })).setFam other_family_id
        (fun f => { f with female_opponent := my_id }))).event now
        "FEMALE FIGHT: Fam%d vs Fam%d (carrying %d vs %d)"
        [my_id, other_family_id, v.loc.female_collected,
          (v.sh.families other_family_id).female_collected]) := by
    apply flowAt_event
    refine flowAt_same (fun _ => ⟨rfl, rfl⟩) ?_
    refine flowAt_same (fun _ => ⟨rfl, rfl⟩) ?_
    refine flowAt_same (fun _ => ⟨rfl, rfl⟩) ?_
    exact flowAt_same (fun _ => ⟨rfl, rfl⟩) h
  unfold female_fight_outcome
  simp only
  split_ifs
  · apply flowAt_event
    refine flowAt_loss_female b0 bn ?_
    refine flowAt_gain_female a0 an ?_
    refine flowAt_same (fun _ => ⟨rfl, rfl⟩) ?_
    refine flowAt_setLoc (fun _ => rfl) ?_
    exact flowAt_congr (by omega) (by omega) g
  · apply flowAt_event
    refine flowAt_gain_female b0 bn ?_
    refine flowAt_loss_female a0 an ?_
    refine flowAt_setLoc (fun _ => rfl) ?_
    refine flowAt_same (fun _ => ⟨rfl, rfl⟩) ?_
    exact flowAt_congr (by omega) (by omega) g

theorem female_fight_settle_flow {n i m f : Int} (config : SimConfig)
    (my_id other_family_id : Int) (v : View) (h : FlowAt n i m f v) :
    FlowAt n i m f (female_fight_settle config my_id other_family_id v) := by
  unfold female_fight_settle
  simp only
  have g1 : FlowAt n i m f ((v.setFam my_id
      (fun f => { f with female_collected := v.loc.female_collected })).setLoc (fun l =>
      { l with female_energy := l.female_energy - config.female_fight_energy_cost })) :=
    flowAt_setLoc (fun _ => rfl) (flowAt_same (fun _ => ⟨rfl, rfl⟩) h)
  split_ifs
  all_goals
    repeat' first
      | with_reducible exact g1
      | with_reducible apply flowAt_same
      | with_reducible apply flowAt_setLoc
      | exact fun _ => rfl
      | exact fun _ => ⟨rfl, rfl⟩

theorem female_fight_flow {n i : Int} (config : SimConfig) (other now : Int) (i_win : Bool)
    (e1 e2 : Interference) (h1 : Fair n e1) (h2 : Fair n e2) (a0 : 0 ≤ i) (an : i < n)
    (b0 : 0 ≤ other) (bn : other < n) (v : View) (h : FlowAt n i 0 0 v) :
    FlowAt n i 0 0 (female_fight config other now i_win e1 e2 v).1 := by
  have g1 : FlowAt n i 0 0 (e1 v) := fair_step h1 h
  have g2 : FlowAt n i 0 0 (e2 (e1 v)) := fair_step h2 g1
  have hid : v.loc.family_id = i := h.2.1
  have g3 : FlowAt n i 0 0 (female_fight_body config v.loc.family_id other now i_win
      (e2 (e1 v))) :=
    female_fight_settle_flow config _ other _
      (female_fight_outcome_flow _ other now i_win _ (by rw [hid]; exact a0)
        (by rw [hid]; exact an) b0 bn g2)
  unfold female_fight
  simp only
  split_ifs <;> dsimp only <;> first
    | with_reducible exact h
    | with_reducible exact g1
    | with_reducible exact g2
    | with_reducible exact g3

theorem female_collision_flow {n i : Int} (config : SimConfig) (now : Int) (i_win : Bool)
    (e1 e2 : Interference) (h1 : Fair n e1) (h2 : Fair n e2) (a0 : 0 ≤ i) (an : i < n)
    (v : View) (h : FlowAt n i 0 0 v) :
    FlowAt n i 0 0 (female_collision config now i_win e1 e2 v).1 := by
  have hid : v.loc.family_id = i := h.2.1
  have hnum : v.sh.num_families = n := h.1
  have hc := check_female_collision_range v.sh v.loc.female_x v.loc.female_y v.loc.family_id
  unfold female_collision
  simp only
  split_ifs with c1 c2 c3 c4
  · have b0 : 0 ≤ check_female_collision v.sh v.loc.female_x v.loc.female_y v.loc.family_id :=
      c2.1
    have bn : check_female_collision v.sh v.loc.female_x v.loc.female_y v.loc.family_id < n := by
      rcases hc with hc | hc
      · omega
      · rw [← hnum]; exact hc.2.1
    apply flowAt_event
    refine flowAt_loss_female b0 bn ?_
    refine flowAt_same (fun _ => ⟨rfl, rfl⟩) ?_
    refine flowAt_gain_female (by rw [hid]; exact a0) (by rw [hid]; exact an) ?_
    refine flowAt_same (fun _ => ⟨rfl, rfl⟩) ?_
    refine flowAt_setLoc (fun _ => rfl) ?_
    exact flowAt_congr (by omega) (by omega) h
  · have b0 : 0 ≤ check_female_collision v.sh v.loc.female_x v.loc.female_y v.loc.family_id :=
      c2.1
    have bn : check_female_collision v.sh v.loc.female_x v.loc.female_y v.loc.family_id < n := by
      rcases hc with hc | hc
      · omega
      · rw [← hnum]; exact hc.2.1
    exact female_fight_flow config _ now i_win e1 e2 h1 h2 a0 an b0 bn v h
  · exact h
  · exact h
  · exact h
theorem flowOp_keeps {n i : Int} {op : View → View} (hop : FlowOp n op) (a0 : 0 ≤ i)
    (an : i < n) (v : View) (h : FlowAt n i 0 0 v) : FlowAt n i 0 0 (op v) := by
  cases hop with
  | collision config now i_win e1 e2 h1 h2 =>
    exact female_collision_flow config now i_win e1 e2 h1 h2 a0 an v h
  | female_fight config other now i_win e1 e2 b0 bn h1 h2 =>
    exact female_fight_flow config other now i_win e1 e2 h1 h2 a0 an b0 bn v h
  | male_fight config opponent_id now now2 i_win e1 e2 window b0 bn h1 h2 h3 =>
    exact male_fight_flow config opponent_id now now2 i_win e1 e2 window h1 h2 h3 a0 an b0 bn
      v h
  | silent _ h1 h2 h3 =>
    obtain ⟨g1, g2, g3, g4⟩ := h
    refine ⟨(h1 v).trans g1, (h2 v).trans g2, ?_, ?_⟩
    · rw [← g3]
      unfold flow
      rw [h1 v]
      apply sum_upto_congr
      intro k _ _
      unfold net_male
      rw [(h3 v k).1, (h3 v k).2.1]
    · rw [← g4]
      unfold flow
      rw [h1 v]
      apply sum_upto_congr
      intro k _ _
      unfold net_female
      rw [(h3 v k).2.2.1, (h3 v k).2.2.2]

theorem init_fold_counters (config : SimConfig) (shared : SharedData) :
    ∀ m : Nat,
      ((List.range m).foldl (fun s (k : Nat) => (init_family_local (k : Int) s config).sh)
          shared).num_families = shared.num_families
        ∧ ∀ k : Nat, k < m →
          net_male (((List.range m).foldl
              (fun s (k : Nat) => (init_family_local (k : Int) s config).sh)
              shared).families k) = 0
            ∧ net_female (((List.range m).foldl
              (fun s (k : Nat) => (init_family_local (k : Int) s config).sh)
              shared).families k) = 0 := by
  intro m
  induction m with
  | zero => exact ⟨rfl, fun k hk => absurd hk (Nat.not_lt_zero k)⟩
  | succ m ih =>
    rw [List.range_succ, List.foldl_append]
    simp only [List.foldl_cons, List.foldl_nil]
    refine ⟨ih.1, fun k hk => ?_⟩
    by_cases hkm : k = m
    · subst hkm
      unfold init_family_local net_male net_female
      simp only [setAt_apply, if_true]
      exact ⟨rfl, rfl⟩
    · have h := ih.2 k (by omega)
      unfold init_family_local
      simp only [setAt_apply]
      rw [if_neg (by omega)]
      exact h

theorem start_world_flow (config : SimConfig) (shared : SharedData)
    (hs : shared.num_families = config.num_families) (i : Int) :
    FlowAt config.num_families i 0 0 ((start_world config shared).view i) := by
  have h := init_fold_counters config shared config.num_families.toNat
  refine ⟨h.1.trans hs, rfl, ?_, ?_⟩
  · unfold flow
    rw [sum_upto_eq]
    have hz : ∀ l : List Nat, (∀ k ∈ l, k < config.num_families.toNat) →
        (l.map (fun (k : Nat) => net_male
          (((start_world config shared).view i).sh.families (k : Int)))).sum = 0 := by
      intro l
      induction l with
      | nil => intro _; rfl
      | cons a l ih =>
        intro hl
        rw [List.map_cons, List.sum_cons, ih (fun k hk => hl k (List.mem_cons_of_mem a hk))]
        have := (h.2 a (hl a (List.mem_cons_self a l))).1
        rw [add_zero]
        exact this
    exact hz _ (fun k hk => by
      rw [List.mem_range] at hk
      have e : ((start_world config shared).view i).sh.num_families.toNat
          = config.num_families.toNat := by
        have e1 : ((start_world config shared).view i).sh.num_families
            = config.num_families := h.1.trans hs
        rw [e1]
      omega)
  · unfold flow
    rw [sum_upto_eq]
    have hz : ∀ l : List Nat, (∀ k ∈ l, k < config.num_families.toNat) →
        (l.map (fun (k : Nat) => net_female
          (((start_world config shared).view i).sh.families (k : Int)))).sum = 0 := by
      intro l
      induction l with
      | nil => intro _; rfl
      | cons a l ih =>
        intro hl
        rw [List.map_cons, List.sum_cons, ih (fun k hk => hl k (List.mem_cons_of_mem a hk))]
        have := (h.2 a (hl a (List.mem_cons_self a l))).2
        rw [add_zero]
        exact this
    exact hz _ (fun k hk => by
      rw [List.mem_range] at hk
      have e : ((start_world config shared).view i).sh.num_families.toNat
          = config.num_families.toNat := by
        have e1 : ((start_world config shared).view i).sh.num_families
            = config.num_families := h.1.trans hs
        rw [e1]
      omega)

theorem flowReachable_inv (config : SimConfig) (shared : SharedData)
    (hs : shared.num_families = config.num_families) (w : World)
    (hw : FlowReachable config shared w) :
    ∀ i, FlowAt config.num_families i 0 0 (w.view i) := by
  induction hw with
  | start => exact start_world_flow config shared hs
  | step w j op _ h0 hn hop ih =>
    intro i
    have hj := flowOp_keeps hop h0 hn (w.view j) (ih j)
    obtain ⟨g1, g2, g3, g4⟩ := hj
    refine ⟨g1, ?_, g3, g4⟩
    show (setAt w.locals j (op (w.view j)).loc i).family_id = i
    rw [setAt_apply]
    split_ifs with hij
    · rw [hij]; exact g2
    · exact (ih i).2.1

/-- C27. Flow counters are zero-sum: start from a shared block set up for the
configured number of families in which every family process has run
`init_family_local`, and let threads of the families `0 .. num_families - 1`
take steps in any order: the collector's collision step (the steal or
`female_fight`), `female_fight` and `male_fight` against a family of the
system, and any step that writes no flow counter.  In every world so reached
the sum over the families of `bananas_from_male_fights` equals that of
`bananas_lost_male_fights`, and the sum of `bananas_from_female_fights` equals
that of `bananas_lost_female_fights`. -/
theorem flow_counters_zero_sum (config : SimConfig) (shared : SharedData) (w : World)
    (hs : shared.num_families = config.num_families)
    (hw : FlowReachable config shared w) :
    sum_upto w.sh.num_families (fun k => (w.sh.families k).bananas_from_male_fights)
        = sum_upto w.sh.num_families (fun k => (w.sh.families k).bananas_lost_male_fights)
      ∧ sum_upto w.sh.num_families (fun k => (w.sh.families k).bananas_from_female_fights)
        = sum_upto w.sh.num_families
            (fun k => (w.sh.families k).bananas_lost_female_fights) :=
  ((flowInv_iff config.num_families 0 (w.view 0)).2
    (flowReachable_inv config shared hs w hw 0)).2.2

theorem fair_id (n : Int) : Fair n id := fun _ _ h => h

theorem add_to_basket_silent (amount : Int) (v : View) :
    (add_to_basket amount id v).1.sh.num_families = v.sh.num_families
      ∧ (add_to_basket amount id v).1.loc.family_id = v.loc.family_id
      ∧ ∀ k, ((add_to_basket amount id v).1.sh.families k).bananas_from_male_fights
            = (v.sh.families k).bananas_from_male_fights
          ∧ ((add_to_basket amount id v).1.sh.families k).bananas_lost_male_fights
            = (v.sh.families k).bananas_lost_male_fights
          ∧ ((add_to_basket amount id v).1.sh.families k).bananas_from_female_fights
            = (v.sh.families k).bananas_from_female_fights
          ∧ ((add_to_basket amount id v).1.sh.families k).bananas_lost_female_fights
            = (v.sh.families k).bananas_lost_female_fights := by
  unfold add_to_basket
  simp only
  split_ifs
  · exact ⟨rfl, rfl, fun _ => ⟨rfl, rfl, rfl, rfl⟩⟩
  · refine ⟨rfl, rfl, fun k => ?_⟩
    simp only [setFam_families, id]
    split_ifs with hk
    · rw [hk]; exact ⟨rfl, rfl, rfl, rfl⟩
    · exact ⟨rfl, rfl, rfl, rfl⟩

theorem flow_counters_zero_sum_witness :
    small_grid.num_families = small_config.num_families
      ∧ FlowReachable small_config small_grid fought_world
      ∧ (fought_world.sh.families 0).bananas_from_male_fights = 4
      ∧ (fought_world.sh.families 1).bananas_lost_male_fights = 4
      ∧ sum_upto fought_world.sh.num_families
            (fun k => (fought_world.sh.families k).bananas_from_male_fights)
          = sum_upto fought_world.sh.num_families
            (fun k => (fought_world.sh.families k).bananas_lost_male_fights) :=
  have hr : FlowReachable small_config small_grid fought_world :=
    FlowReachable.step _ 0 _
      (FlowReachable.step _ 1 _ FlowReachable.start (by decide) (by decide)
        (FlowOp.silent _ (fun v => (add_to_basket_silent 4 v).1)
          (fun v => (add_to_basket_silent 4 v).2.1)
          (fun v k => (add_to_basket_silent 4 v).2.2 k)))
      (by decide) (by decide)
      (FlowOp.male_fight small_config 1 1 2 true id id id (by decide) (by decide)
        (fair_id _) (fair_id _) (fair_id _))
  ⟨by decide, hr, by decide, by decide,
    (flow_counters_zero_sum small_config small_grid fought_world (by decide) hr).1⟩

/-! ### The collector's place in the grid -/

theorem sameSpot_refl (v : View) : SameSpot v v :=
  ⟨rfl, rfl, fun _ _ => ⟨rfl, rfl⟩, rfl, rfl, rfl, rfl⟩

theorem sameSpot_trans {v w u : View} (h1 : SameSpot v w) (h2 : SameSpot w u) :
    SameSpot v u := by
  obtain ⟨a1, a2, a3, a4, a5, a6, a7⟩ := h1
  obtain ⟨b1, b2, b3, b4, b5, b6, b7⟩ := h2
  refine ⟨b1.trans a1, b2.trans a2, fun x y => ⟨(b3 x y).1.trans (a3 x y).1, ?_⟩,
    b4.trans a4, b5.trans a5, b6.trans a6, b7.trans a7⟩
  have := (b3 x y).2
  rw [a4] at this
  exact this.trans (a3 x y).2

theorem sameSpot_setFam {v w : View} {i : Int} {f : FamilyStatus → FamilyStatus}
    (h : SameSpot v w) : SameSpot v (w.setFam i f) := h

theorem sameSpot_setLoc {v w : View} {f : FamilyLocal → FamilyLocal}
    (hf : ∀ x, (f x).family_id = x.family_id ∧ (f x).female_x = x.female_x
      ∧ (f x).female_y = x.female_y ∧ (f x).female_in_maze = x.female_in_maze)
    (h : SameSpot v w) : SameSpot v (w.setLoc f) := by
  obtain ⟨a1, a2, a3, a4, a5, a6, a7⟩ := h
  exact ⟨a1, a2, a3, (hf _).1.trans a4, (hf _).2.1.trans a5, (hf _).2.2.1.trans a6,
    (hf _).2.2.2.trans a7⟩

theorem sameSpot_event {v w : View} {now : Int} {fmt : String} {args : List Int}
    (h : SameSpot v w) : SameSpot v (w.event now fmt args) := h

theorem sameSpot_settled {v w : View} {e : Interference} (he : Settled e)
    (h : SameSpot v w) : SameSpot v (e w) :=
  sameSpot_trans h (he w)

theorem sameSpot_take {v w : View} {x y count : Int} (h : SameSpot v w) :
    SameSpot v { w with sh := (take_bananas w.sh x y count).1 } := by
  obtain ⟨a1, a2, a3, a4, a5, a6, a7⟩ := h
  unfold take_bananas
  split_ifs
  · exact ⟨a1, a2, a3, a4, a5, a6, a7⟩
  · refine ⟨a1, a2, fun a b => ?_, a4, a5, a6, a7⟩
    have e : ∀ c : MazeCell, (setAt w.sh.maze x (setAt (w.sh.maze x) y c)) a b
        = setCell w.sh.maze x y c a b := fun _ => rfl
    show ((setAt w.sh.maze x (setAt (w.sh.maze x) y _)) a b).is_obstacle = _
      ∧ ((setAt w.sh.maze x (setAt (w.sh.maze x) y _)) a b).females_in_cell _ = _
    rw [e, setCell_apply]
    by_cases c1 : a = x
    · by_cases c2 : b = y
      · rw [if_pos c1, if_pos c2, c1, c2]
        exact a3 x y
      · rw [if_pos c1, if_neg c2]
        exact a3 a b
    · rw [if_neg c1]
      exact a3 a b

theorem female_check_threshold_sameSpot {v w : View} (config : SimConfig) (t now : Int)
    (h : SameSpot v w) : SameSpot v (female_check_threshold config t now w) := by
  unfold female_check_threshold
  simp only
  split_ifs
  · exact h
  · exact h

theorem add_to_basket_sameSpot {v w : View} (amount : Int) (e : Interference)
    (he : Settled e) (h : SameSpot v w) : SameSpot v (add_to_basket amount e w).1 := by
  have g : SameSpot v (e w) := sameSpot_settled he h
  unfold add_to_basket
  simp only
  split_ifs
  · exact h
  · refine sameSpot_setFam ?_
    refine sameSpot_setLoc (fun _ => ⟨rfl, rfl, rfl, rfl⟩) ?_
    exact sameSpot_setLoc (fun _ => ⟨rfl, rfl, rfl, rfl⟩) g

theorem female_deposit_sameSpot {v w : View} (config : SimConfig) (now : Int)
    (e : Interference) (family_id : Int) (he : Settled e) (h : SameSpot v w) :
    SameSpot v (female_deposit config now e family_id w) := by
  have g := add_to_basket_sameSpot w.loc.female_collected e he h
  unfold female_deposit
  simp only
  apply female_check_threshold_sameSpot
  apply sameSpot_event
  refine sameSpot_setFam ?_
  refine sameSpot_setFam ?_
  exact sameSpot_setLoc (fun _ => ⟨rfl, rfl, rfl, rfl⟩) g

theorem female_rest_sameSpot (config : SimConfig) (now : Int) (v : View) :
    SameSpot v (female_rest config now v) := by
  have h := sameSpot_refl v
  unfold female_rest
  simp only
  apply sameSpot_event
  refine sameSpot_setFam ?_
  refine sameSpot_setFam ?_
  refine sameSpot_setLoc (fun _ => ⟨rfl, rfl, rfl, rfl⟩) ?_
  split_ifs
  · refine sameSpot_setLoc (fun _ => ⟨rfl, rfl, rfl, rfl⟩) ?_
    exact sameSpot_setLoc (fun _ => ⟨rfl, rfl, rfl, rfl⟩) h
  · exact sameSpot_setLoc (fun _ => ⟨rfl, rfl, rfl, rfl⟩) h

theorem female_fight_outcome_sameSpot {v0 : View} (my_id other now : Int) (i_win : Bool)
    (v : View) (h : SameSpot v0 v) :
    SameSpot v0 (female_fight_outcome my_id other now i_win v) := by
  unfold female_fight_outcome
  simp only
  split_ifs <;>
  repeat' first
    | with_reducible exact h
    | with_reducible apply sameSpot_event
    | with_reducible apply sameSpot_setFam
    | with_reducible apply sameSpot_setLoc
    | exact fun _ => ⟨rfl, rfl, rfl, rfl⟩

theorem female_fight_settle_sameSpot {v0 : View} (config : SimConfig) (my_id other : Int)
    (v : View) (h : SameSpot v0 v) :
    SameSpot v0 (female_fight_settle config my_id other v) := by
  unfold female_fight_settle
  simp only
  have g1 : SameSpot v0 ((v.setFam my_id
      (fun f => { f with female_collected := v.loc.female_collected })).setLoc (fun l =>
      { l with female_energy := l.female_energy - config.female_fight_energy_cost })) :=
    sameSpot_setLoc (fun _ => ⟨rfl, rfl, rfl, rfl⟩) (sameSpot_setFam h)
  split_ifs
  all_goals
    repeat' first
      | with_reducible exact g1
      | with_reducible apply sameSpot_setFam
      | with_reducible apply sameSpot_setLoc
      | exact fun _ => ⟨rfl, rfl, rfl, rfl⟩

theorem female_fight_sameSpot (config : SimConfig) (other now : Int) (i_win : Bool)
    (e1 e2 : Interference) (h1 : Settled e1) (h2 : Settled e2) (v : View) :
    SameSpot v (female_fight config other now i_win e1 e2 v).1 := by
  have h := sameSpot_refl v
  have g1 : SameSpot v (e1 v) := sameSpot_settled h1 h
  have g2 : SameSpot v (e2 (e1 v)) := sameSpot_settled h2 g1
  have g3 : SameSpot v (female_fight_body config v.loc.family_id other now i_win
      (e2 (e1 v))) :=
    female_fight_settle_sameSpot config _ other _
      (female_fight_outcome_sameSpot _ other now i_win _ g2)
  unfold female_fight
  simp only
  split_ifs <;> dsimp only <;> first
    | with_reducible exact h
    | with_reducible exact g1
    | with_reducible exact g2
    | with_reducible exact g3

theorem female_collision_sameSpot (config : SimConfig) (now : Int) (i_win : Bool)
    (e1 e2 : Interference) (h1 : Settled e1) (h2 : Settled e2) (v : View) :
    SameSpot v (female_collision config now i_win e1 e2 v).1 := by
  have h := sameSpot_refl v
  unfold female_collision
  simp only
  split_ifs <;> (try dsimp only) <;> first
    | with_reducible exact h
    | with_reducible exact female_fight_sameSpot config _ now i_win e1 e2 h1 h2 v
    | (repeat' first
        | with_reducible exact h
        | with_reducible apply sameSpot_event
        | with_reducible apply sameSpot_setFam
        | with_reducible apply sameSpot_setLoc
        | exact fun _ => ⟨rfl, rfl, rfl, rfl⟩)

theorem female_collect_sameSpot (config : SimConfig) (inp : FemaleInput)
    (h4 : Settled inp.e_take) (v : View) : SameSpot v (female_collect config inp v) := by
  have h := sameSpot_refl v
  have g : ∀ x y c, SameSpot v (inp.e_take { v with sh := (take_bananas v.sh x y c).1 }) :=
    fun x y c => sameSpot_settled h4 (sameSpot_take h)
  unfold female_collect
  simp only
  split_ifs <;> first
    | with_reducible exact h
    | with_reducible exact g _ _ _
    | (repeat' first
        | with_reducible exact g _ _ _
        | with_reducible apply sameSpot_event
        | with_reducible apply sameSpot_setFam
        | with_reducible apply sameSpot_setLoc
        | exact fun _ => ⟨rfl, rfl, rfl, rfl⟩)

theorem female_exit_after_leave (config : SimConfig) (now : Int) (e : Interference)
    (he : Settled e) (v : View) :
    SameSpot (female_leave now v) (female_exit config now e v) := by
  have h := sameSpot_refl (female_leave now v)
  unfold female_exit
  simp only
  split_ifs
  · exact female_deposit_sameSpot config now e _ he h
  · exact h

/-- A property of the collector's place that holds before a pass of the loop
of `female_thread` holds after it, once it is kept by what does not touch the
place, by the entry, by the exit and by the move. -/
theorem female_cycle_keeps (I : View → Prop) (config : SimConfig) (inp : FemaleInput)
    (h1 : Settled inp.e1) (h2 : Settled inp.e2) (h3 : Settled inp.e_deposit)
    (h4 : Settled inp.e_take)
    (hframe : ∀ v w, SameSpot v w → I v → I w)
    (henter : ∀ v w, v.loc.female_in_maze = 0 → female_enter inp v = some w → I v →
      I w ∧ w.loc.female_in_maze ≠ 0)
    (hleave : ∀ v, v.loc.female_in_maze ≠ 0 → I v → I (female_leave inp.now v))
    (hmove : ∀ v, v.loc.female_in_maze ≠ 0 → I v → I (female_move config inp v))
    (v : View) (h : I v) : I (female_cycle config inp v) := by
  have key : ∀ u, u.loc.female_in_maze ≠ 0 → I u →
      I (if (female_collision config inp.now inp.i_win inp.e1 inp.e2 u).1.loc.female_x = 0 then
          female_exit config inp.now inp.e_deposit
            (female_collision config inp.now inp.i_win inp.e1 inp.e2 u).1
        else female_move config inp
          (female_collect config inp
            (female_collision config inp.now inp.i_win inp.e1 inp.e2 u).1)) := by
    intro u hin hu
    have hs := female_collision_sameSpot config inp.now inp.i_win inp.e1 inp.e2 h1 h2 u
    have hcol := hframe _ _ hs hu
    have hin2 : (female_collision config inp.now inp.i_win inp.e1 inp.e2 u).1.loc.female_in_maze
        ≠ 0 := by
      rw [hs.2.2.2.2.2.2]; exact hin
    split_ifs
    · exact hframe _ _ (female_exit_after_leave config inp.now inp.e_deposit h3 _)
        (hleave _ hin2 hcol)
    · have hs2 := female_collect_sameSpot config inp h4
        (female_collision config inp.now inp.i_win inp.e1 inp.e2 u).1
      exact hmove _ (by rw [hs2.2.2.2.2.2.2]; exact hin2) (hframe _ _ hs2 hcol)
  have hroam : I (female_roam config inp v) := by
    unfold female_roam
    by_cases hin : v.loc.female_in_maze = 0
    · rw [if_pos hin]
      cases he : female_enter inp v with
      | none => exact h
      | some u =>
        have := henter v u hin he h
        exact key u this.2 this.1
    · rw [if_neg hin]
      exact key v hin h
  have g1 := hframe _ _ (female_rest_sameSpot config inp.now v) h
  unfold female_cycle
  simp only
  split_ifs <;> first
    | with_reducible exact g1
    | with_reducible exact hroam
    | (apply hframe v _ _ h
       repeat' first
        | with_reducible exact sameSpot_refl v
        | with_reducible apply sameSpot_event
        | with_reducible apply sameSpot_setFam
        | with_reducible apply sameSpot_setLoc
        | exact fun _ => ⟨rfl, rfl, rfl, rfl⟩)
theorem valid_of_dims (s t : SharedData) (hr : t.maze_rows = s.maze_rows)
    (hc : t.maze_cols = s.maze_cols) (a b : Int) :
    is_valid_cell t a b = is_valid_cell s a b := by
  unfold is_valid_cell
  rw [hr, hc]

theorem passable_of_dims (s t : SharedData) (hr : t.maze_rows = s.maze_rows)
    (hc : t.maze_cols = s.maze_cols)
    (ho : ∀ a b, (t.maze a b).is_obstacle = (s.maze a b).is_obstacle) (a b : Int) :
    is_passable t a b = is_passable s a b := by
  unfold is_passable is_obstacle
  rw [valid_of_dims s t hr hc, ho]

theorem set_female_in_cell_frame (s : SharedData) (x y f p : Int) :
    (set_female_in_cell s x y f p).maze_rows = s.maze_rows
      ∧ (set_female_in_cell s x y f p).maze_cols = s.maze_cols
      ∧ (∀ a b, ((set_female_in_cell s x y f p).maze a b).is_obstacle
          = (s.maze a b).is_obstacle)
      ∧ (∀ a b k, ¬ (a = x ∧ b = y ∧ k = f) →
          ((set_female_in_cell s x y f p).maze a b).females_in_cell k
            = (s.maze a b).females_in_cell k) := by
  unfold set_female_in_cell
  split_ifs
  · exact ⟨rfl, rfl, fun _ _ => rfl, fun _ _ _ _ => rfl⟩
  · exact ⟨rfl, rfl, fun _ _ => rfl, fun _ _ _ _ => rfl⟩
  · refine ⟨rfl, rfl, fun a b => ?_, fun a b k hne => ?_⟩
    · show (setCell s.maze x y _ a b).is_obstacle = _
      rw [setCell_apply]
      by_cases c1 : a = x
      · by_cases c2 : b = y
        · rw [if_pos c1, if_pos c2, c1, c2]
        · rw [if_pos c1, if_neg c2]
      · rw [if_neg c1]
    · show (setCell s.maze x y _ a b).females_in_cell k = _
      rw [setCell_apply]
      by_cases c1 : a = x
      · by_cases c2 : b = y
        · rw [if_pos c1, if_pos c2]
          show setAt (s.maze x y).females_in_cell f p k = _
          rw [setAt_apply, if_neg (fun hk => hne ⟨c1, c2, hk⟩), c1, c2]
        · rw [if_pos c1, if_neg c2]
      · rw [if_neg c1]

theorem set_female_in_cell_flag (s : SharedData) (x y f p : Int)
    (hv : is_valid_cell s x y = true) (h0 : 0 ≤ f) (hn : f < (MAX_FAMILIES : Int)) :
    ((set_female_in_cell s x y f p).maze x y).females_in_cell f = p := by
  unfold set_female_in_cell
  rw [if_neg (by rw [hv]; decide), if_neg (by omega)]
  show (setCell s.maze x y _ x y).females_in_cell f = p
  rw [setCell_apply, if_pos rfl, if_pos rfl]
  show setAt (s.maze x y).females_in_cell f p f = p
  rw [setAt_apply, if_pos rfl]

theorem set_female_in_cell_valid (s : SharedData) (x y f p a b : Int) :
    is_valid_cell (set_female_in_cell s x y f p) a b = is_valid_cell s a b :=
  valid_of_dims s _ (set_female_in_cell_frame s x y f p).1
    (set_female_in_cell_frame s x y f p).2.1 a b

theorem set_female_in_cell_passable (s : SharedData) (x y f p a b : Int) :
    is_passable (set_female_in_cell s x y f p) a b = is_passable s a b :=
  passable_of_dims s _ (set_female_in_cell_frame s x y f p).1
    (set_female_in_cell_frame s x y f p).2.1 (set_female_in_cell_frame s x y f p).2.2.1 a b

theorem is_passable_valid_cell (shared : SharedData) (x y : Int)
    (h : is_passable shared x y = true) : is_valid_cell shared x y = true := by
  unfold is_passable at h
  simp only [Bool.and_eq_true] at h
  exact h.1

theorem move_in_direction_some (shared : SharedData) (x y d : Int) (pos : Int × Int)
    (h : move_in_direction shared x y d = some pos) :
    is_passable shared pos.1 pos.2 = true
      ∧ (pos = (x - 1, y) ∨ pos = (x + 1, y) ∨ pos = (x, y - 1) ∨ pos = (x, y + 1)) := by
  unfold move_in_direction at h
  split_ifs at h with h1 h2 h3 h4 h5 h6 h7 h8
  all_goals (cases h; exact ⟨by assumption, by simp⟩)

theorem move_in_direction_passable (shared : SharedData) (x y d : Int)
    (hd : d ∈ ([0, 1, 2, 3] : List Int))
    (hp : is_passable shared (x + dir_dx d) (y + dir_dy d) = true) :
    ∃ pos, move_in_direction shared x y d = some pos
      ∧ is_passable shared pos.1 pos.2 = true
      ∧ (pos = (x - 1, y) ∨ pos = (x + 1, y) ∨ pos = (x, y - 1) ∨ pos = (x, y + 1)) := by
  have hcases : d = 0 ∨ d = 1 ∨ d = 2 ∨ d = 3 := by
    simpa using hd
  have e1 : x + -1 = x - 1 := rfl
  have e2 : y + -1 = y - 1 := rfl
  have e3 : x + 0 = x := Int.add_zero x
  have e4 : y + 0 = y := Int.add_zero y
  rcases hcases with rfl | rfl | rfl | rfl
  · have hq : is_passable shared (x - 1) y = true := by
      have := hp
      simp only [dir_dx, dir_dy] at this
      simpa [e1, e4] using this
    exact ⟨(x - 1, y), by simp [move_in_direction, hq], hq, Or.inl rfl⟩
  · have hq : is_passable shared (x + 1) y = true := by
      have := hp
      simp only [dir_dx, dir_dy] at this
      simpa [e4] using this
    exact ⟨(x + 1, y), by simp [move_in_direction, hq], hq, Or.inr (Or.inl rfl)⟩
  · have hq : is_passable shared x (y - 1) = true := by
      have := hp
      simp only [dir_dx, dir_dy] at this
      simpa [e2, e3] using this
    exact ⟨(x, y - 1), by simp [move_in_direction, hq], hq, Or.inr (Or.inr (Or.inl rfl))⟩
  · have hq : is_passable shared x (y + 1) = true := by
      have := hp
      simp only [dir_dx, dir_dy] at this
      simpa [e3] using this
    exact ⟨(x, y + 1), by simp [move_in_direction, hq], hq, Or.inr (Or.inr (Or.inr rfl))⟩

theorem exit_direction_moves (shared : SharedData) (x y : Int) (try_left : Bool)
    (hd : get_direction_to_exit shared x y try_left ≥ 0) :
    ∃ pos, move_in_direction shared x y (get_direction_to_exit shared x y try_left) = some pos
      ∧ is_passable shared pos.1 pos.2 = true
      ∧ (pos = (x - 1, y) ∨ pos = (x + 1, y) ∨ pos = (x, y - 1) ∨ pos = (x, y + 1)) := by
  unfold get_direction_to_exit at hd ⊢
  split_ifs at hd ⊢ with c1 c2 c3 c4 c5 c6 c7 c8
  all_goals first
    | exact absurd hd (by decide)
    | exact ⟨(x - 1, y), by simp [move_in_direction, *], by assumption, Or.inl rfl⟩
    | exact ⟨(x + 1, y), by simp [move_in_direction, *], by assumption, Or.inr (Or.inl rfl)⟩
    | exact ⟨(x, y - 1), by simp [move_in_direction, *], by assumption,
        Or.inr (Or.inr (Or.inl rfl))⟩
    | exact ⟨(x, y + 1), by simp [move_in_direction, *], by assumption,
        Or.inr (Or.inr (Or.inr rfl))⟩

theorem explore_fold_passable (shared : SharedData) (x y : Int) :
    ∀ (l : List Int) (best : Int × Int),
      (best.1 < 0 ∨ (best.1 ∈ ([0, 1, 2, 3] : List Int)
        ∧ is_passable shared (x + dir_dx best.1) (y + dir_dy best.1) = true)) →
      (∀ d ∈ l, d ∈ ([0, 1, 2, 3] : List Int)) →
      ((l.foldl (explore_try shared x y) best).1 < 0
        ∨ ((l.foldl (explore_try shared x y) best).1 ∈ ([0, 1, 2, 3] : List Int)
          ∧ is_passable shared (x + dir_dx (l.foldl (explore_try shared x y) best).1)
              (y + dir_dy (l.foldl (explore_try shared x y) best).1) = true)) := by
  intro l
  induction l with
  | nil => intro best h _; exact h
  | cons d l ih =>
    intro best h hl
    rw [List.foldl_cons]
    refine ih _ ?_ (fun k hk => hl k (List.mem_cons_of_mem d hk))
    unfold explore_try
    simp only
    split_ifs with hp c1 c2
    · exact Or.inr ⟨hl d (List.mem_cons_self d l), hp⟩
    · exact Or.inr ⟨hl d (List.mem_cons_self d l), hp⟩
    · exact h
    · exact h

theorem explore_direction_moves (shared : SharedData) (x y : Int) (rand : Nat → Nat)
    (hd : get_direction_to_explore shared x y rand ≥ 0) :
    ∃ pos, move_in_direction shared x y (get_direction_to_explore shared x y rand) = some pos
      ∧ is_passable shared pos.1 pos.2 = true
      ∧ (pos = (x - 1, y) ∨ pos = (x + 1, y) ∨ pos = (x, y - 1) ∨ pos = (x, y + 1)) := by
  have h := explore_fold_passable shared x y (shuffle_directions rand) (-1, -1)
    (Or.inl (by decide)) (fun d hd => (shuffle_directions_mem rand d).1 hd)
  unfold get_direction_to_explore at hd ⊢
  rcases h with h | h
  · omega
  · exact move_in_direction_passable shared x y _ h.1 h.2
theorem get_random_start_position_passable (shared : SharedData) (rand : Nat → Nat) :
    ∀ (fuel attempts : Nat) (pos : Int × Int),
      get_random_start_position shared rand fuel attempts = some pos →
      is_passable shared pos.1 pos.2 = true := by
  intro fuel
  induction fuel with
  | zero => intro _ _ h; cases h
  | succ fuel ih =>
    intro attempts pos h
    unfold get_random_start_position at h
    simp only at h
    split_ifs at h with hp
    · cases h
      exact hp
    · exact ih _ _ h

theorem female_enter_some (inp : FemaleInput) (v w : View) (h : female_enter inp v = some w) :
    ∃ pos : Int × Int, is_passable v.sh pos.1 pos.2 = true
      ∧ w.loc.female_x = pos.1 ∧ w.loc.female_y = pos.2 ∧ w.loc.female_in_maze = 1
      ∧ w.loc.family_id = v.loc.family_id
      ∧ w.sh.maze = (set_female_in_cell v.sh pos.1 pos.2 v.loc.family_id 1).maze
      ∧ w.sh.maze_rows = (set_female_in_cell v.sh pos.1 pos.2 v.loc.family_id 1).maze_rows
      ∧ w.sh.maze_cols = (set_female_in_cell v.sh pos.1 pos.2 v.loc.family_id 1).maze_cols := by
  unfold female_enter at h
  simp only at h
  split at h
  · next pos hpos =>
    cases h
    refine ⟨pos, get_random_start_position_passable _ _ _ _ _ hpos, ?_⟩
    simp only [setLoc_loc, setLoc_sh, setFam_loc, event_loc]
    generalize set_female_in_cell v.sh pos.1 pos.2 v.loc.family_id 1 = S
    exact ⟨trivial, trivial, trivial, trivial, rfl, rfl, rfl⟩
  · cases h

theorem female_leave_fields (now : Int) (v : View) :
    (female_leave now v).loc.female_x = v.loc.female_x
      ∧ (female_leave now v).loc.female_y = v.loc.female_y
      ∧ (female_leave now v).loc.female_in_maze = 0
      ∧ (female_leave now v).loc.family_id = v.loc.family_id
      ∧ (female_leave now v).sh.maze
        = (set_female_in_cell v.sh v.loc.female_x v.loc.female_y v.loc.family_id 0).maze
      ∧ (female_leave now v).sh.maze_rows
        = (set_female_in_cell v.sh v.loc.female_x v.loc.female_y v.loc.family_id 0).maze_rows
      ∧ (female_leave now v).sh.maze_cols
        = (set_female_in_cell v.sh v.loc.female_x v.loc.female_y v.loc.family_id 0).maze_cols := by
  unfold female_leave
  simp only
  generalize set_female_in_cell v.sh v.loc.female_x v.loc.female_y v.loc.family_id 0 = S
  exact ⟨rfl, rfl, rfl, rfl, rfl, rfl, rfl⟩

/-- What `female_move` does: nothing when no direction is found; otherwise the
family's flag is cleared at the collector's cell and set again at the cell
`(a, b)`, which is the new position `move_in_direction` gives and becomes the
collector's position, or, when `move_in_direction` fails, the old position,
the collector's private data being untouched. -/
theorem female_move_cases (config : SimConfig) (inp : FemaleInput) (v : View) :
    female_move config inp v = v
      ∨ ∃ (d a b : Int),
          ((move_in_direction
                (set_female_in_cell v.sh v.loc.female_x v.loc.female_y v.loc.family_id 0)
                v.loc.female_x v.loc.female_y d = some (a, b))
            ∨ (move_in_direction
                (set_female_in_cell v.sh v.loc.female_x v.loc.female_y v.loc.family_id 0)
                v.loc.female_x v.loc.female_y d = none
              ∧ a = v.loc.female_x ∧ b = v.loc.female_y
              ∧ (female_move config inp v).loc = v.loc
              ∧ (female_move config inp v).sh.families = v.sh.families))
          ∧ (female_move config inp v).loc.female_x = a
          ∧ (female_move config inp v).loc.female_y = b
          ∧ (female_move config inp v).loc.female_in_maze = v.loc.female_in_maze
          ∧ (female_move config inp v).loc.family_id = v.loc.family_id
          ∧ (female_move config inp v).sh.maze
            = (set_female_in_cell
                (set_female_in_cell v.sh v.loc.female_x v.loc.female_y v.loc.family_id 0)
                a b v.loc.family_id 1).maze
          ∧ (female_move config inp v).sh.maze_rows
            = (set_female_in_cell
                (set_female_in_cell v.sh v.loc.female_x v.loc.female_y v.loc.family_id 0)
                a b v.loc.family_id 1).maze_rows
          ∧ (female_move config inp v).sh.maze_cols
            = (set_female_in_cell
                (set_female_in_cell v.sh v.loc.female_x v.loc.female_y v.loc.family_id 0)
                a b v.loc.family_id 1).maze_cols := by
  unfold female_move
  simp only
  generalize (if v.loc.female_collected ≥ config.female_collection_goal
        ∨ v.loc.female_energy < config.female_rest_threshold then
      get_direction_to_exit v.sh v.loc.female_x v.loc.female_y inp.try_left
    else get_direction_to_explore v.sh v.loc.female_x v.loc.female_y inp.rand_shuffle) = d
  generalize hS1 :
    set_female_in_cell v.sh v.loc.female_x v.loc.female_y v.loc.family_id 0 = S1
  have hfam : S1.families = v.sh.families := by
    rw [← hS1]
    exact set_female_in_cell_families _ _ _ _ _
  by_cases hd : d ≥ 0
  · rw [if_pos hd]
    right
    split
    · next pos hpos =>
      refine ⟨d, pos.1, pos.2, Or.inl hpos, ?_⟩
      simp only [setLoc_loc, setLoc_sh, setFam_loc, event_loc]
      generalize set_female_in_cell S1 pos.1 pos.2 v.loc.family_id 1 = S2
      split_ifs <;> exact ⟨rfl, rfl, rfl, rfl, rfl, rfl, rfl⟩
    · next hnone =>
      refine ⟨d, v.loc.female_x, v.loc.female_y, Or.inr ⟨hnone, rfl, rfl, rfl, ?_⟩, ?_⟩
      · exact (set_female_in_cell_families _ _ _ _ _).trans hfam
      · generalize set_female_in_cell S1 v.loc.female_x v.loc.female_y v.loc.family_id 1 = S2
        exact ⟨rfl, rfl, rfl, rfl, rfl, rfl, rfl⟩
  · rw [if_neg hd]
    exact Or.inl rfl
theorem placed_of_sameSpot (v w : View) (hs : SameSpot v w) (h : Placed v) : Placed w := by
  obtain ⟨a1, a2, a3, _, a5, a6, a7⟩ := hs
  intro hin
  rw [a7] at hin
  rw [a5, a6, passable_of_dims v.sh w.sh a1 a2 (fun a b => (a3 a b).1)]
  exact h hin

theorem housed_of_sameSpot (v w : View) (hs : SameSpot v w) (h : Housed v) : Housed w := by
  obtain ⟨a1, a2, a3, a4, a5, a6, a7⟩ := hs
  unfold Housed
  rw [a4, a5, a6, a7]
  refine ⟨fun hin => ?_, fun x y hv => ?_⟩
  · rw [valid_of_dims v.sh w.sh a1 a2]
    exact h.1 hin
  · rw [valid_of_dims v.sh w.sh a1 a2] at hv
    rw [(a3 x y).2]
    exact h.2 x y hv

/-- What a shared block whose grid is that of `set_female_in_cell s x y f p`
has in common with `s`. -/
theorem flagged_frame (s t : SharedData) (x y f p : Int)
    (hm : t.maze = (set_female_in_cell s x y f p).maze)
    (hr : t.maze_rows = (set_female_in_cell s x y f p).maze_rows)
    (hc : t.maze_cols = (set_female_in_cell s x y f p).maze_cols) :
    (∀ a b, is_valid_cell t a b = is_valid_cell s a b)
      ∧ (∀ a b, is_passable t a b = is_passable s a b)
      ∧ (∀ a b k, ¬ (a = x ∧ b = y ∧ k = f) →
          (t.maze a b).females_in_cell k = (s.maze a b).females_in_cell k)
      ∧ (is_valid_cell s x y = true → 0 ≤ f → f < (MAX_FAMILIES : Int) →
          (t.maze x y).females_in_cell f = p) := by
  obtain ⟨f1, f2, f3, f4⟩ := set_female_in_cell_frame s x y f p
  refine ⟨fun a b => valid_of_dims s t (hr.trans f1) (hc.trans f2) a b,
    fun a b => passable_of_dims s t (hr.trans f1) (hc.trans f2)
      (fun a b => by rw [hm]; exact f3 a b) a b,
    fun a b k hne => by rw [hm]; exact f4 a b k hne,
    fun hv h0 hn => by rw [hm]; exact set_female_in_cell_flag s x y f p hv h0 hn⟩

theorem housed_after_set (s : SharedData) (w : View) (a b : Int)
    (hclear : ∀ x y, is_valid_cell s x y = true →
      (s.maze x y).females_in_cell w.loc.family_id = 0)
    (hab : is_valid_cell s a b = true)
    (h0 : 0 ≤ w.loc.family_id) (hn : w.loc.family_id < (MAX_FAMILIES : Int))
    (hm : w.sh.maze = (set_female_in_cell s a b w.loc.family_id 1).maze)
    (hr : w.sh.maze_rows = (set_female_in_cell s a b w.loc.family_id 1).maze_rows)
    (hc : w.sh.maze_cols = (set_female_in_cell s a b w.loc.family_id 1).maze_cols)
    (hx : w.loc.female_x = a) (hy : w.loc.female_y = b) (hin : w.loc.female_in_maze ≠ 0) :
    Housed w := by
  obtain ⟨g1, _, g3, g4⟩ := flagged_frame s w.sh a b w.loc.family_id 1 hm hr hc
  refine ⟨fun _ => ?_, fun x y hv => ?_⟩
  · rw [hx, hy, g1]; exact hab
  · rw [g1] at hv
    rw [hx, hy]
    by_cases hxy : x = a ∧ y = b
    · rw [hxy.1, hxy.2, g4 hab h0 hn]
      exact ⟨fun _ => ⟨hin, rfl, rfl⟩, fun _ => by decide⟩
    · rw [g3 x y _ (fun hh => hxy ⟨hh.1, hh.2.1⟩), hclear x y hv]
      exact ⟨fun hh => absurd rfl hh, fun hh => absurd ⟨hh.2.1, hh.2.2⟩ hxy⟩

theorem flags_after_clear (v : View) (h0 : 0 ≤ v.loc.family_id)
    (hn : v.loc.family_id < (MAX_FAMILIES : Int)) (h : Housed v) :
    ∀ x y, is_valid_cell
        (set_female_in_cell v.sh v.loc.female_x v.loc.female_y v.loc.family_id 0) x y = true →
      ((set_female_in_cell v.sh v.loc.female_x v.loc.female_y v.loc.family_id 0).maze
        x y).females_in_cell v.loc.family_id = 0 := by
  intro x y hv
  rw [set_female_in_cell_valid] at hv
  by_cases hxy : x = v.loc.female_x ∧ y = v.loc.female_y
  · rw [hxy.1, hxy.2]
    rw [hxy.1, hxy.2] at hv
    exact set_female_in_cell_flag _ _ _ _ 0 hv h0 hn
  · rw [(set_female_in_cell_frame v.sh v.loc.female_x v.loc.female_y v.loc.family_id
      0).2.2.2 x y v.loc.family_id (fun hh => hxy ⟨hh.1, hh.2.1⟩)]
    by_contra hne
    have := (h.2 x y hv).1 hne
    exact hxy ⟨this.2.1, this.2.2⟩

theorem flags_outside (v : View) (h : Housed v) (hout : v.loc.female_in_maze = 0) :
    ∀ x y, is_valid_cell v.sh x y = true →
      (v.sh.maze x y).females_in_cell v.loc.family_id = 0 := by
  intro x y hv
  by_contra hne
  exact ((h.2 x y hv).1 hne).1 hout

theorem housed_cleared (s : SharedData) (w : View)
    (hclear : ∀ x y, is_valid_cell s x y = true →
      (s.maze x y).females_in_cell w.loc.family_id = 0)
    (hm : w.sh.maze = s.maze) (hr : w.sh.maze_rows = s.maze_rows)
    (hc : w.sh.maze_cols = s.maze_cols) (hout : w.loc.female_in_maze = 0) : Housed w := by
  refine ⟨fun hin => absurd hout hin, fun x y hv => ?_⟩
  rw [valid_of_dims s w.sh hr hc] at hv
  rw [hm, hclear x y hv]
  exact ⟨fun hh => absurd rfl hh, fun hh => absurd hout hh.1⟩

theorem housed_enter (inp : FemaleInput) (v w : View) (h0 : 0 ≤ v.loc.family_id)
    (hn : v.loc.family_id < (MAX_FAMILIES : Int)) (hout : v.loc.female_in_maze = 0)
    (he : female_enter inp v = some w) (h : Housed v) :
    (w.loc.family_id = v.loc.family_id ∧ Housed w) ∧ w.loc.female_in_maze ≠ 0 := by
  obtain ⟨pos, hp, e1, e2, e3, e4, e5, e6, e7⟩ := female_enter_some inp v w he
  have hin : w.loc.female_in_maze ≠ 0 := by rw [e3]; decide
  refine ⟨⟨e4, ?_⟩, hin⟩
  refine housed_after_set v.sh w pos.1 pos.2 ?_ (is_passable_valid_cell _ _ _ hp)
    (by rw [e4]; exact h0) (by rw [e4]; exact hn) (by rw [e4]; exact e5)
    (by rw [e4]; exact e6) (by rw [e4]; exact e7) e1 e2 hin
  rw [e4]
  exact flags_outside v h hout

theorem housed_leave (now : Int) (v : View) (h0 : 0 ≤ v.loc.family_id)
    (hn : v.loc.family_id < (MAX_FAMILIES : Int)) (h : Housed v) :
    (female_leave now v).loc.family_id = v.loc.family_id ∧ Housed (female_leave now v) := by
  obtain ⟨_, _, e3, e4, e5, e6, e7⟩ := female_leave_fields now v
  refine ⟨e4, housed_cleared _ _ ?_ e5 e6 e7 e3⟩
  rw [e4]
  exact flags_after_clear v h0 hn h

theorem housed_move (config : SimConfig) (inp : FemaleInput) (v : View)
    (h0 : 0 ≤ v.loc.family_id) (hn : v.loc.family_id < (MAX_FAMILIES : Int))
    (hin : v.loc.female_in_maze ≠ 0) (h : Housed v) :
    (female_move config inp v).loc.family_id = v.loc.family_id
      ∧ Housed (female_move config inp v) := by
  rcases female_move_cases config inp v with hsame | ⟨d, a, b, hmv, e1, e2, e3, e4, e5, e6, e7⟩
  · rw [hsame]
    exact ⟨rfl, h⟩
  · refine ⟨e4, ?_⟩
    have hab : is_valid_cell
        (set_female_in_cell v.sh v.loc.female_x v.loc.female_y v.loc.family_id 0) a b
        = true := by
      rcases hmv with hmv | hmv
      · exact is_passable_valid_cell _ _ _ (move_in_direction_some _ _ _ _ _ hmv).1
      · rw [set_female_in_cell_valid, hmv.2.1, hmv.2.2.1]
        exact h.1 hin
    refine housed_after_set _ _ a b ?_ hab (by rw [e4]; exact h0) (by rw [e4]; exact hn)
      (by rw [e4]; exact e5) (by rw [e4]; exact e6) (by rw [e4]; exact e7) e1 e2
      (by rw [e3]; exact hin)
    rw [e4]
    exact flags_after_clear v h0 hn h

theorem placed_enter (inp : FemaleInput) (v w : View) (he : female_enter inp v = some w) :
    is_passable w.sh w.loc.female_x w.loc.female_y = true ∧ w.loc.female_in_maze ≠ 0 := by
  obtain ⟨pos, hp, e1, e2, e3, _, e5, e6, e7⟩ := female_enter_some inp v w he
  obtain ⟨_, g2, _, _⟩ := flagged_frame v.sh w.sh pos.1 pos.2 v.loc.family_id 1 e5 e6 e7
  refine ⟨?_, by rw [e3]; decide⟩
  rw [e1, e2, g2]
  exact hp

theorem placed_move (config : SimConfig) (inp : FemaleInput) (v : View)
    (hin : v.loc.female_in_maze ≠ 0) (h : Placed v) : Placed (female_move config inp v) := by
  rcases female_move_cases config inp v with hsame | ⟨d, a, b, hmv, e1, e2, _, _, e5, e6, e7⟩
  · rw [hsame]
    exact h
  · intro _
    obtain ⟨_, g2, _, _⟩ := flagged_frame _ _ a b v.loc.family_id 1 e5 e6 e7
    rw [e1, e2, g2]
    rcases hmv with hmv | hmv
    · exact (move_in_direction_some _ _ _ _ _ hmv).1
    · rw [set_female_in_cell_passable, hmv.2.1, hmv.2.2.1]
      exact h hin

theorem settled_id : Settled id := fun u => sameSpot_refl u

/-- C28. A chosen direction is always movable: for every shared block, every
position and every random outcome, when `get_direction_to_exit` or
`get_direction_to_explore` returns a direction `d ≥ 0`, `move_in_direction`
with `d` succeeds and gives an in-bounds, non-obstacle cell that is one of the
four neighbours of the position.  Consequently, the other threads leaving the
grid's dimensions and obstacles and the collector's private data alone, a
collector that enters through `get_random_start_position` stands on a passable
cell, a collector in the field that stands on a passable cell before a pass of
its loop stands on one after it, and `female_move` changes the collector's
position only to what a successful `move_in_direction` gave: when the move
fails the position is unchanged. -/
theorem chosen_direction_movable (config : SimConfig) (inp : FemaleInput) (v : View)
    (h1 : Settled inp.e1) (h2 : Settled inp.e2) (h3 : Settled inp.e_deposit)
    (h4 : Settled inp.e_take)
    (hp : v.loc.female_in_maze ≠ 0 → is_passable v.sh v.loc.female_x v.loc.female_y = true) :
    (∀ (shared : SharedData) (x y : Int) (try_left : Bool),
        get_direction_to_exit shared x y try_left ≥ 0 →
        ∃ pos, move_in_direction shared x y (get_direction_to_exit shared x y try_left)
            = some pos
          ∧ is_passable shared pos.1 pos.2 = true
          ∧ (pos = (x - 1, y) ∨ pos = (x + 1, y) ∨ pos = (x, y - 1) ∨ pos = (x, y + 1)))
      ∧ (∀ (shared : SharedData) (x y : Int) (rand : Nat → Nat),
        get_direction_to_explore shared x y rand ≥ 0 →
        ∃ pos, move_in_direction shared x y (get_direction_to_explore shared x y rand)
            = some pos
          ∧ is_passable shared pos.1 pos.2 = true
          ∧ (pos = (x - 1, y) ∨ pos = (x + 1, y) ∨ pos = (x, y - 1) ∨ pos = (x, y + 1)))
      ∧ (∀ w, female_enter inp v = some w →
          is_passable w.sh w.loc.female_x w.loc.female_y = true)
      ∧ ((female_cycle config inp v).loc.female_in_maze ≠ 0 →
          is_passable (female_cycle config inp v).sh (female_cycle config inp v).loc.female_x
            (female_cycle config inp v).loc.female_y = true)
      ∧ (∀ u : View,
          ((female_move config inp u).loc.female_x = u.loc.female_x
            ∧ (female_move config inp u).loc.female_y = u.loc.female_y)
          ∨ ∃ d, move_in_direction
              (set_female_in_cell u.sh u.loc.female_x u.loc.female_y u.loc.family_id 0)
              u.loc.female_x u.loc.female_y d
            = some ((female_move config inp u).loc.female_x,
                (female_move config inp u).loc.female_y)) := by
  refine ⟨exit_direction_moves, explore_direction_moves,
    fun w he => (placed_enter inp v w he).1, ?_, fun u => ?_⟩
  · exact female_cycle_keeps Placed config inp h1 h2 h3 h4 placed_of_sameSpot
      (fun a b _ he _ => ⟨fun _ => (placed_enter inp a b he).1, (placed_enter inp a b he).2⟩)
      (fun a _ _ => fun hin => absurd (female_leave_fields inp.now a).2.2.1 hin)
      (placed_move config inp) v hp
  · rcases female_move_cases config inp u with hsame | ⟨d, a, b, hmv, e1, e2, _⟩
    · rw [hsame]
      exact Or.inl ⟨rfl, rfl⟩
    · rcases hmv with hmv | hmv
      · right
        refine ⟨d, ?_⟩
        rw [e1, e2]
        exact hmv
      · left
        rw [hmv.2.2.2.1]
        exact ⟨rfl, rfl⟩

theorem chosen_direction_movable_witness :
    ((small_world.view 0).loc.female_in_maze ≠ 0 →
        is_passable (small_world.view 0).sh (small_world.view 0).loc.female_x
          (small_world.view 0).loc.female_y = true)
      ∧ (female_cycle small_config (calm_input 1) (small_world.view 0)).loc.female_in_maze = 1
      ∧ (female_cycle small_config (calm_input 1) (small_world.view 0)).loc.female_x = 0
      ∧ (female_cycle small_config (calm_input 1) (small_world.view 0)).loc.female_y = 0
      ∧ is_passable (female_cycle small_config (calm_input 1) (small_world.view 0)).sh
          (female_cycle small_config (calm_input 1) (small_world.view 0)).loc.female_x
          (female_cycle small_config (calm_input 1) (small_world.view 0)).loc.female_y = true :=
  ⟨fun h => absurd (by decide) h, by decide, by decide, by decide,
    (chosen_direction_movable small_config (calm_input 1) (small_world.view 0) settled_id
      settled_id settled_id settled_id (fun h => absurd (by decide) h)).2.2.2.1 (by decide)⟩

/-- C30. Occupancy matches position: take a family whose id is an index of the
flag array, and a pass of its collector's loop during which the other threads
leave the grid's dimensions, this family's flags and the collector's private
data alone.  If before the pass a collector in the field stands on a cell of
the grid and the family's flag is set in a cell of the grid exactly when the
collector is in the field and the cell is the one at `(female_x, female_y)`,
then the same holds after the pass: in the field the flag is set in exactly
that one cell, outside the field in no cell.  After the cleanup that follows
the loop the flag is set in no cell of the grid. -/
theorem occupancy_matches_position (config : SimConfig) (inp : FemaleInput) (v : View)
    (h0 : 0 ≤ v.loc.family_id) (hn : v.loc.family_id < (MAX_FAMILIES : Int))
    (h1 : Settled inp.e1) (h2 : Settled inp.e2) (h3 : Settled inp.e_deposit)
    (h4 : Settled inp.e_take) (h : Housed v) :
    ((female_cycle config inp v).loc.female_in_maze ≠ 0 →
        is_valid_cell (female_cycle config inp v).sh (female_cycle config inp v).loc.female_x
          (female_cycle config inp v).loc.female_y = true)
      ∧ (∀ x y, is_valid_cell (female_cycle config inp v).sh x y = true →
          (((female_cycle config inp v).sh.maze x y).females_in_cell v.loc.family_id ≠ 0 ↔
            ((female_cycle config inp v).loc.female_in_maze ≠ 0
              ∧ x = (female_cycle config inp v).loc.female_x
              ∧ y = (female_cycle config inp v).loc.female_y)))
      ∧ (∀ x y, is_valid_cell (female_cleanup (female_cycle config inp v)).sh x y = true →
          ((female_cleanup (female_cycle config inp v)).sh.maze x y).females_in_cell
            v.loc.family_id = 0)
      ∧ (∀ x y, is_valid_cell (female_cleanup v).sh x y = true →
          ((female_cleanup v).sh.maze x y).females_in_cell v.loc.family_id = 0) := by
  have hclean : ∀ u : View, 0 ≤ u.loc.family_id → u.loc.family_id < (MAX_FAMILIES : Int) →
      Housed u → ∀ x y, is_valid_cell (female_cleanup u).sh x y = true →
        ((female_cleanup u).sh.maze x y).females_in_cell u.loc.family_id = 0 := by
    intro u u0 un hu x y
    unfold female_cleanup
    split_ifs with hin
    · exact flags_after_clear u u0 un hu x y
    · exact flags_outside u hu (not_not.1 hin) x y
  have hkeep := female_cycle_keeps
    (fun u => u.loc.family_id = v.loc.family_id ∧ Housed u) config inp h1 h2 h3 h4
    (fun a b hs ha => ⟨hs.2.2.2.1.trans ha.1, housed_of_sameSpot a b hs ha.2⟩)
    (fun a b hout he ha =>
      ⟨⟨(housed_enter inp a b (by rw [ha.1]; exact h0) (by rw [ha.1]; exact hn) hout he
          ha.2).1.1.trans ha.1,
        (housed_enter inp a b (by rw [ha.1]; exact h0) (by rw [ha.1]; exact hn) hout he
          ha.2).1.2⟩,
        (housed_enter inp a b (by rw [ha.1]; exact h0) (by rw [ha.1]; exact hn) hout he
          ha.2).2⟩)
    (fun a _ ha =>
      ⟨(housed_leave inp.now a (by rw [ha.1]; exact h0) (by rw [ha.1]; exact hn)
          ha.2).1.trans ha.1,
        (housed_leave inp.now a (by rw [ha.1]; exact h0) (by rw [ha.1]; exact hn) ha.2).2⟩)
    (fun a hin ha =>
      ⟨(housed_move config inp a (by rw [ha.1]; exact h0) (by rw [ha.1]; exact hn) hin
          ha.2).1.trans ha.1,
        (housed_move config inp a (by rw [ha.1]; exact h0) (by rw [ha.1]; exact hn) hin
          ha.2).2⟩)
    v ⟨rfl, h⟩
  obtain ⟨hid, hh⟩ := hkeep
  refine ⟨hh.1, fun x y hv => ?_, fun x y hv => ?_, hclean v h0 hn h⟩
  · have := hh.2 x y hv
    rw [hid] at this
    exact this
  · have := hclean _ (by rw [hid]; exact h0) (by rw [hid]; exact hn) hh x y hv
    rw [hid] at this
    exact this

theorem housed_small_world : Housed (small_world.view 0) := by
  refine ⟨fun h => absurd (by decide) h, fun x y hv => ?_⟩
  have hv2 : is_valid_cell small_grid x y = true := hv
  simp only [is_valid_cell, small_grid, Bool.and_eq_true, decide_eq_true_eq] at hv2
  obtain ⟨⟨⟨c1, c2⟩, c3⟩, c4⟩ := hv2
  have hy : y = 0 := by omega
  have hx : x = 0 ∨ x = 1 := by omega
  subst hy
  rcases hx with rfl | rfl
  · exact ⟨fun hh => absurd (by decide) hh, fun hh => absurd (by decide) hh.1⟩
  · exact ⟨fun hh => absurd (by decide) hh, fun hh => absurd (by decide) hh.1⟩

theorem occupancy_matches_position_witness :
    (0 : Int) ≤ (small_world.view 0).loc.family_id
      ∧ (small_world.view 0).loc.family_id < (MAX_FAMILIES : Int)
      ∧ Housed (small_world.view 0)
      ∧ (female_cycle small_config (calm_input 1) (small_world.view 0)).loc.female_in_maze = 1
      ∧ (((female_cycle small_config (calm_input 1) (small_world.view 0)).sh.maze
          0 0).females_in_cell 0 = 1)
      ∧ (((female_cycle small_config (calm_input 1) (small_world.view 0)).sh.maze
          1 0).females_in_cell 0 = 0)
      ∧ ∀ x y, is_valid_cell
            (female_cycle small_config (calm_input 1) (small_world.view 0)).sh x y = true →
          (((female_cycle small_config (calm_input 1) (small_world.view 0)).sh.maze
              x y).females_in_cell (small_world.view 0).loc.family_id ≠ 0 ↔
            ((female_cycle small_config (calm_input 1) (small_world.view 0)).loc.female_in_maze
                ≠ 0
              ∧ x = (female_cycle small_config (calm_input 1) (small_world.view 0)).loc.female_x
              ∧ y = (female_cycle small_config (calm_input 1)
                  (small_world.view 0)).loc.female_y)) :=
  ⟨by decide, by decide, housed_small_world, by decide, by decide, by decide,
    (occupancy_matches_position small_config (calm_input 1) (small_world.view 0) (by decide)
      (by decide) settled_id settled_id settled_id settled_id housed_small_world).2.1⟩

/-! ### Values out of the range of `int` in the configuration file -/

/-- The value texts `4294967297` and `3000000000` are out of the range of
`int`: `atoi` returns their low 32 bits, 1 and -1294967296, and `load_config`
stores 1 for `num_families=4294967297`. -/
theorem atoi_out_of_range :
    atoi "4294967297".toList = 1 ∧ atoi "3000000000".toList = -1294967296
      ∧ atoi "-7".toList = -7 ∧ atoi "  42abc".toList = 42
      ∧ (load_config (fun _ => ()) (fun _ => ()) (some wide_config_file)).ints.num_families
        = 1 := by
  decide

/-! ### The deposit of a collector whose family has withdrawn -/

/-- The deposit block of `female_thread` when `add_to_basket` returns at its
first check (`should_continue` is false): no basket changes, and the winning
test is made on the basket mirror of the process, whatever the basket in
shared memory holds. -/
theorem deposit_abandoned_tests_mirror (config : SimConfig) (now : Int) (e : Interference)
    (family_id : Int) (v : View) (hsc : should_continue v = false) :
    (∀ k, ((female_deposit config now e family_id v).sh.families k).basket_bananas
        = (v.sh.families k).basket_bananas)
      ∧ (v.loc.basket_bananas ≥ config.winning_basket_threshold →
          (female_deposit config now e family_id v).sh.simulation_running = 0
            ∧ (female_deposit config now e family_id v).sh.termination_reason
                = TERM_BASKET_THRESHOLD)
      ∧ (v.loc.basket_bananas < config.winning_basket_threshold →
          (female_deposit config now e family_id v).sh.simulation_running
              = v.sh.simulation_running
            ∧ (female_deposit config now e family_id v).sh.termination_reason
                = v.sh.termination_reason
            ∧ (female_deposit config now e family_id v).sh.winning_family
                = v.sh.winning_family) := by
  have hab : add_to_basket v.loc.female_collected e v = (v, v.loc.basket_bananas) := by
    unfold add_to_basket
    simp only [hsc, Bool.not_false, if_true]
  have hd : ∃ W : View,
      female_deposit config now e family_id v
        = female_check_threshold config v.loc.basket_bananas now W
      ∧ (∀ k, (W.sh.families k).basket_bananas = (v.sh.families k).basket_bananas)
      ∧ W.sh.simulation_running = v.sh.simulation_running
      ∧ W.sh.termination_reason = v.sh.termination_reason
      ∧ W.sh.winning_family = v.sh.winning_family := by
    simp only [female_deposit, hab]
    refine ⟨_, rfl, fun k => ?_, rfl, rfl, rfl⟩
    simp only [event_families, setFam_families, setLoc_sh]
    split_ifs with hk
    · rw [hk]
    · rfl
  obtain ⟨W, hW, hWb, hWr, hWt, hWw⟩ := hd
  have hf := female_check_threshold_fields config v.loc.basket_bananas now W
  refine ⟨fun k => ?_, fun h => ?_, fun h => ?_⟩
  · rw [hW, hf.1]
    exact hWb k
  · rw [hW]
    exact ⟨(hf.2.1 h).1, (hf.2.1 h).2.1⟩
  · rw [hW, hf.2.2 h]
    exact ⟨hWr, hWt, hWw⟩

/-- C18, evaluation at the failing inputs.  The winning threshold is four,
both collectors have deposited two units, and collector 0 stands on the exit
row with one unit, past the test of its loop, when guard 0 withdraws the
family; the simulation is running.  First run: guard 1 has lost a fight to
guard 0, so the basket of family 0 holds four units while the mirror says
two; the deposit block leaves the basket at four, at the threshold, and the
simulation goes on with no reason and no winner recorded.  Second run: the
mirror says four while, after a theft, the basket holds two; the deposit
block leaves the basket at two, below the threshold, and ends the simulation
with `TERM_BASKET_THRESHOLD` and family 0 as the winner.  In both runs the
carried unit is gone. -/
theorem withdrawn_deposit_tests_mirror :
    (frail_config.winning_basket_threshold = 4 ∧ weak_config.winning_basket_threshold = 4)
      ∧ (frail_world_7.sh.simulation_running = 1
        ∧ (frail_world_7.locals 0).should_withdraw = 1
        ∧ (frail_world_7.locals 0).female_in_maze = 1
        ∧ (frail_world_7.locals 0).female_x = 0
        ∧ (frail_world_7.locals 0).female_collected = 1
        ∧ (frail_world_7.sh.families 0).basket_bananas = 4
        ∧ (frail_world_7.locals 0).basket_bananas = 2)
      ∧ ((frail_world_8.sh.families 0).basket_bananas = 4
        ∧ (frail_world_8.locals 0).female_collected = 0
        ∧ (frail_world_8.sh.families 0).female_collected = 0
        ∧ frail_world_8.sh.simulation_running = 1
        ∧ frail_world_8.sh.termination_reason = TERM_RUNNING
        ∧ frail_world_8.sh.winning_family = -1)
      ∧ (weak_world_9.sh.simulation_running = 1
        ∧ weak_world_9.sh.termination_reason = TERM_RUNNING
        ∧ weak_world_9.sh.winning_family = -1
        ∧ (weak_world_9.locals 0).should_withdraw = 1
        ∧ (weak_world_9.locals 0).female_in_maze = 1
        ∧ (weak_world_9.locals 0).female_x = 0
        ∧ (weak_world_9.locals 0).female_collected = 1
        ∧ (weak_world_9.sh.families 0).basket_bananas = 2
        ∧ (weak_world_9.locals 0).basket_bananas = 4)
      ∧ ((weak_world_10.sh.families 0).basket_bananas = 2
        ∧ (weak_world_10.locals 0).female_collected = 0
        ∧ (weak_world_10.sh.families 0).female_collected = 0
        ∧ weak_world_10.sh.simulation_running = 0
        ∧ weak_world_10.sh.termination_reason = TERM_BASKET_THRESHOLD
        ∧ weak_world_10.sh.winning_family = 0) :=
  ⟨by decide, by decide, by decide, by decide, by decide⟩

end Apes
